import Mathlib

/-! The `.zfs` control directory (`module/zfs/zfs_ctldir.c`).

A shallow embedding of the snapshot control directory: the name-sorted index of
snapshot entries (`sd_snaps`), mount traversal (`traverse`), the automounting
lookup (`zfsctl_snapdir_lookup`), the rename and the remove of a snapshot
through the directory (`zfsctl_snapdir_rename`, `zfsctl_snapdir_remove`), the
forced unmount of all snapshots (`zfsctl_umount_snapshots`), the reclaim of
the snapshot directory (`zfsctl_snapdir_reclaim`), the teardown of a snapshot
node (`zfsctl_snapshot_inactive`), the attributes of the root and of the
snapshot directory, the open and access checks, the directory listing callback
(`zfsctl_snapdir_readdir_cb`) and the file identifier (`zfsctl_common_fid`).

Conventions of the embedding.

* Vnodes and mounted filesystems are opaque handles (natural numbers).
* C strings are Lean strings, one character per C `char`; `strlen` is the length.
* `int` error codes are integers; `0` is success.
* Everything the file calls but does not define (the mount table, the dataset
  engine, the GFS framework, the name validator) is a field of `Env`: what that
  collaborator answers during the call under study.
* Every hold, release, mount, unmount and free the file issues is appended to a
  trace, so that "how often" questions are questions about the trace.
* The preprocessor configuration is a value (`Platform`): the file compiles
  different statements under `sun`, `__FreeBSD__` and `__APPLE__`.
* `ZFS_ENTER`/`ZFS_EXIT` bracket a call on a live filesystem and change nothing
  that is modelled here.
* A function returns `none` when the C code does not return (a failed `VERIFY`).
  The loop of `traverse` is unfolded a bounded number of times and gives `none`
  beyond the bound; `traverse_returns` shows that this never happens.
* A constant, flag or array size that a header outside this file defines and a
  function reads (`FWRITE`, `VWRITE`, `SHORT_FID_LEN`, `ZFSCTL_INO_ROOT`) is an
  argument of that function.
* The index is the list of its entries in tree order; `avl_find` is the ordered
  search of the tree (stop at the first entry the searched name is not greater
  than) and reports the insertion point the way `avl_find` does through `where`.
-/

namespace ZfsCtldir

/-! ## Constants of the host headers -/

/-- Error numbers, with the values of Darwin's `sys/errno.h`. -/
def ENOENT : Int := 2
def EIO : Int := 5
def EACCES : Int := 13
def EBUSY : Int := 16
def EINVAL : Int := 22
def ENOTSUP : Int := 45
def ENAMETOOLONG : Int := 63
def EILSEQ : Int := 92
def EJUSTRETURN : Int := -2

/-- Constant `MAXNAMELEN` of `sys/param.h`. -/
def MAXNAMELEN : Nat := 256

/-- Constant `NAME_MAX` of `limits.h`. -/
def NAME_MAX : Nat := 255

/-- Flag `ISLASTCN` of `sys/namei.h`. -/
def ISLASTCN : Nat := 0x8000

/-- Name operation `CREATE` of `sys/namei.h`. -/
def CREATE : Nat := 1

/-- Macro `ZFS_CTLDIR_NAME` of `sys/zfs_ctldir.h`. -/
def ZFS_CTLDIR_NAME : String := ".zfs"

/-- The preprocessor configuration the file is compiled under. -/
inductive Platform where
  | sun
  | freebsd
  | apple
deriving DecidableEq, Repr

abbrev Vnode := Nat
abbrev Vfs := Nat

/-! ## Data model -/

/-- Struct `zfsctl_node_t` (the GFS private part left out). -/
structure zfsctl_node where
  zc_id : Nat
  zc_cmtime : Nat
deriving DecidableEq, Repr

/-- Struct `zfs_snapentry_t`; the AVL linkage is the position in `sd_snaps`. -/
structure SnapEntry where
  se_name : String
  se_root : Vnode
deriving DecidableEq, Repr

/-- Struct `zfsctl_snapdir_t`: `sd_lock` is true while the mutex is held. -/
structure zfsctl_snapdir where
  sd_node : zfsctl_node
  sd_lock : Bool
  sd_snaps : List SnapEntry
deriving DecidableEq, Repr

/-- Calls the file issues on its collaborators, in program order. -/
inductive Event where
  | VN_HOLD (vp : Vnode)
  | VN_RELE (vp : Vnode)
  | vnode_put (vp : Vnode)
  | gfs_dir_create (vp : Vnode)
  | mount_snapshot (vp : Vnode) (mountpoint snapname : String)
  | dounmount (vfsp : Option Vfs)
  | gfs_vop_inactive (vp : Vnode)
  | gfs_dir_inactive (vp : Vnode)
  | kmem_free_sep (sep : SnapEntry)
  | dmu_objset_rename (oldname newname : String)
  | dmu_objset_destroy (snapname : String)
  | vfs_setmntpoint (vfsp : Vfs) (newpath : String)
  | vfs_setresource (vfsp : Vfs) (newpath : String)
deriving DecidableEq, Repr

/-- The state the file owns: the snapshot directory hanging off the
`.zfs/snapshot` vnode (`vnode_fsnode(dvp)`, `none` once cleared), the
`zc_id` given to each snapshot node created, and the trace of calls. -/
structure State where
  sdp : Option zfsctl_snapdir
  nodes : List (Vnode × Nat)
  trace : List Event
deriving DecidableEq, Repr

/-- Struct `componentname`, the fields the lookup reads. -/
structure Componentname where
  cn_nameptr : String
  cn_namelen : Nat
  cn_flags : Nat
  cn_nameiop : Nat
deriving DecidableEq, Repr

/-- The collaborators of the file, as they answer during one call.
`VFS_ROOT` and `mount_snapshot` give the error code and the vnode they store
through their out-parameter; `dmu_objset_hold` gives the object id of the held
snapshot (`dmu_objset_id`) or `none` when the hold fails;
`dmu_snapshot_realname` gives the error code and the contents of `real`;
`z_case_insensitive` is `zfsvfs->z_case == ZFS_CASE_INSENSITIVE`. -/
structure Env where
  plat : Platform
  vnode_mountedhere : Vnode → Option Vfs
  vfs_busy : Vfs → Int
  VFS_ROOT : Vfs → Int × Vnode
  vn_vfswlock : Vnode → Int
  dounmount : Option Vfs → Int
  snapshot_namecheck : String → Int
  dmu_objset_name : String
  dmu_objset_hold : String → Option Nat
  dmu_objset_snap_cmtime : Nat
  gfs_lookup_dot : String → Option Vnode
  gfs_dir_create : Vnode
  gfs_file_inode : Nat
  f_mntonname : String
  mount_snapshot : Vnode → String → String → Int × Vnode
  zfsctl_root_lookup : Int × Vnode
  gethrestime : Nat
  z_case_insensitive : Bool
  dmu_snapshot_realname : String → Int × String
  zfs_secpolicy_rename_perms : String → String → Int
  zfs_secpolicy_destroy_perms : String → Int
  dmu_objset_rename : String → String → Int
  dmu_objset_destroy : String → Int
  vnode_mount : Vnode → Vfs
  vfs_getmntpoint : Vfs → String
  vfs_getresource : Vfs → String
  vnode_isinuse : Vnode → Bool
  gfs_dir_lookup_dotdot : Vnode → Int × Vnode
  gfs_vop_inactive : Vnode → Int
  dmu_snapshot_list_next : Nat → Int × String × Nat × Nat
  f_fsid : Nat

/-! ## C library -/

def strlen (s : String) : Nat := s.length

/-- Function `strcmp` on character lists: the difference of the first pair of
characters that differ, the terminator counting as 0. -/
def strcmp_chars : List Char → List Char → Int
  | [], [] => 0
  | [], b :: _ => - (b.toNat : Int)
  | a :: _, [] => (a.toNat : Int)
  | a :: as, b :: bs =>
    if a = b then strcmp_chars as bs else (a.toNat : Int) - (b.toNat : Int)

def strcmp (a b : String) : Int := strcmp_chars a.toList b.toList

/-- Function `strlcpy(dst, src, size)`: at most `size - 1` characters. -/
def strlcpy (src : String) (size : Nat) : String := String.mk (src.toList.take (size - 1))

/-- Function `snprintf(buf, size, ...)` given the fully formatted text. -/
def snprintf (size : Nat) (formatted : String) : String :=
  String.mk (formatted.toList.take (size - 1))

/-! ## The index `sd_snaps` -/

/-- Function `snapentry_compare`. -/
def snapentry_compare (sa sb : SnapEntry) : Int :=
  let ret := strcmp sa.se_name sb.se_name
  if ret < 0 then -1
  else if ret > 0 then 1
  else 0

/-- Ordered search from position `i`: the entry that compares equal, or the
position at which the searched value would be inserted. -/
def avl_find_from : List SnapEntry → SnapEntry → Nat → Option SnapEntry × Nat
  | [], _, i => (none, i)
  | e :: rest, search, i =>
    let c := snapentry_compare search e
    if c = 0 then (some e, i)
    else if c < 0 then (none, i)
    else avl_find_from rest search (i + 1)

/-- Function `avl_find(tree, value, &where)`. -/
def avl_find (tree : List SnapEntry) (search : SnapEntry) : Option SnapEntry × Nat :=
  avl_find_from tree search 0

/-- Function `avl_insert(tree, node, where)`. -/
def avl_insert (tree : List SnapEntry) (sep : SnapEntry) (wh : Nat) : List SnapEntry :=
  tree.take wh ++ sep :: tree.drop wh

/-- Function `avl_remove(tree, node)`. -/
def avl_remove (tree : List SnapEntry) (sep : SnapEntry) : List SnapEntry :=
  tree.erase sep

def avl_numnodes (tree : List SnapEntry) : Nat := tree.length

def avl_first (tree : List SnapEntry) : Option SnapEntry := tree.head?

/-- Macro `vn_ismntpt(vp)`: some filesystem is mounted on `vp`. -/
def vn_ismntpt (E : Env) (vp : Vnode) : Bool := (E.vnode_mountedhere vp).isSome

/-! ## `traverse` -/

/-- The `for (;;)` loop of `traverse`, entered with the counter at `loop` and
the current vnode `cvp`; `cvpp` is the caller's handle on entry, which is what
`*cvpp` still holds on the error returns. The first argument bounds the number
of iterations unfolded; `traverse_returns` shows 7 is never exhausted.
Result: the error code, the final `*cvpp` and the trace. -/
def traverse_loop (E : Env) :
    Nat → Nat → Vnode → Vnode → List Event → Option (Int × Vnode × List Event)
  | 0, _, _, _, _ => none
  | fuel + 1, loop, cvpp, cvp, tr =>
    match E.vnode_mountedhere cvp with
    | none => some (0, cvp, tr)
    | some vfsp =>
      let error := E.vfs_busy vfsp
      -- both arms of the `tvp != NULL` test release `cvp`
      let tr := tr ++ [Event.VN_RELE cvp]
      if error ≠ 0 then some (error, cvpp, tr)
      else
        let r := E.VFS_ROOT vfsp
        if r.1 ≠ 0 then some (r.1, cvpp, tr)
        else if loop > 5 then some (0, r.2, tr)
        else traverse_loop E fuel (loop + 1) cvpp r.2 tr

/-- Function `traverse(&vp, lktype)`. -/
def traverse (E : Env) (cvpp : Vnode) (tr : List Event) : Option (Int × Vnode × List Event) :=
  traverse_loop E 7 0 cvpp cvpp tr

/-! ## Name composition -/

/-- Function `zfsctl_snapshot_zname`: the error code and the contents of `zname`. -/
def zfsctl_snapshot_zname (E : Env) (name : String) (len : Nat) : Int × String :=
  if E.snapshot_namecheck name ≠ 0 then (EILSEQ, "")
  else
    let zname := E.dmu_objset_name
    if strlen zname + 1 + strlen name ≥ len then (ENAMETOOLONG, zname)
    else (0, zname ++ "@" ++ name)

/-! ## `zfsctl_snapdir_lookup` -/

/-- The name buffer `nm` of the lookup: `strlcpy(nm, cn_nameptr, cn_namelen + 1)`. -/
def cn_nm (cnp : Componentname) : String := strlcpy cnp.cn_nameptr (cnp.cn_namelen + 1)

/-- Function `zfsctl_snapshot_mknode(pvp, objset)`: the GFS node the framework
hands out, held once, its `zc_id` set to the object id. -/
def zfsctl_snapshot_mknode (E : Env) (objset : Nat) (s : State) : Vnode × State :=
  let vp := E.gfs_dir_create
  (vp, { s with
    nodes := (vp, objset) :: s.nodes
    trace := s.trace ++ [Event.gfs_dir_create vp, Event.VN_HOLD vp] })

/-- The `zc_id` of a snapshot node. -/
def zc_id_of (s : State) (vp : Vnode) : Option Nat := (s.nodes.lookup vp)

/-- The text the lookup formats into `mountpoint`. -/
def mountpoint_text (E : Env) (nm : String) : String :=
  E.f_mntonname ++ "/" ++ ZFS_CTLDIR_NAME ++ "/snapshot/" ++ nm

/-- The buffer `mountpoint` of the lookup: `mountpoint_len` bytes are allocated
and the text is formatted into them with `snprintf`. -/
def lookup_mountpoint (E : Env) (nm : String) : String :=
  let mountpoint_len :=
    strlen E.f_mntonname + strlen ("/" ++ ZFS_CTLDIR_NAME ++ "/snapshot/") + strlen nm + 1
  snprintf mountpoint_len (mountpoint_text E nm)

/-- The tail of `zfsctl_snapdir_lookup` from the label `domount`, entered with
`*vpp = vp`, the error variable `err`, the lock held and the index `snaps`. -/
def lookup_domount (E : Env) (nm snapname : String) (vp : Vnode) (err : Int)
    (sd : zfsctl_snapdir) (snaps : List SnapEntry) (s : State) : Int × Option Vnode × State :=
  let mountpoint := lookup_mountpoint E nm
  -- only the FreeBSD build calls the mount
  let m : Int × Vnode × List Event :=
    match E.plat with
    | Platform.freebsd =>
      let r := E.mount_snapshot vp mountpoint snapname
      (r.1, r.2, s.trace ++ [Event.mount_snapshot vp mountpoint snapname])
    | _ => (err, vp, s.trace)
  let err := m.1
  let vp := m.2.1
  let tr := if err = 0 then m.2.2 ++ [Event.vnode_put vp] else m.2.2
  -- mutex_exit
  let sd1 : zfsctl_snapdir := { sd with sd_lock := false, sd_snaps := snaps }
  if err ≠ 0 then
    (err, none, { s with sdp := some sd1, trace := tr ++ [Event.VN_RELE vp] })
  else
    (err, some vp, { s with sdp := some sd1, trace := tr })

/-- Function `zfsctl_snapdir_lookup`: the error code, `*vpp` and the state. -/
def zfsctl_snapdir_lookup (E : Env) (cnp : Componentname) (s : State) :
    Option (Int × Option Vnode × State) :=
  match s.sdp with
  | none => some (ENOENT, none, s)
  | some sd =>
    let nm := cn_nm cnp
    if nm = ".autodiskmounted" then some (EINVAL, none, s)
    else if sd.sd_lock then some (ENOENT, none, s)
    else
      match E.gfs_lookup_dot nm with
      | some vp => some (0, some vp, s)
      | none =>
        -- `flags` is the constant 0: the FIGNORECASE block never runs
        -- mutex_enter
        let search : SnapEntry := { se_name := nm, se_root := 0 }
        match avl_find sd.sd_snaps search with
        | (some sep, _) =>
          match traverse E sep.se_root (s.trace ++ [Event.VN_HOLD sep.se_root]) with
          | none => none
          | some (err, vp, tr) =>
            if err ≠ 0 then
              some (err, none, { s with
                sdp := some { sd with sd_lock := false }
                trace := tr ++ [Event.VN_RELE vp] })
            else if vp = sep.se_root then
              -- VERIFY(zfsctl_snapshot_zname(...) == 0)
              let z := zfsctl_snapshot_zname E nm MAXNAMELEN
              if z.1 = 0 then
                some (lookup_domount E nm z.2 vp err sd sd.sd_snaps { s with trace := tr })
              else none
            else
              some (err, some vp, { s with
                sdp := some { sd with sd_lock := false }
                trace := tr })
        | (none, wh) =>
          let z := zfsctl_snapshot_zname E nm MAXNAMELEN
          let err := z.1
          if err ≠ 0 then
            some (if err = EILSEQ then ENOENT else err, none,
              { s with sdp := some { sd with sd_lock := false } })
          else
            match E.dmu_objset_hold z.2 with
            | none =>
              some (if cnp.cn_flags &&& ISLASTCN ≠ 0 ∧ cnp.cn_nameiop = CREATE
                    then EJUSTRETURN else ENOENT,
                none, { s with sdp := some { sd with sd_lock := false } })
            | some objset =>
              let mk := zfsctl_snapshot_mknode E objset s
              let sep : SnapEntry := { se_name := nm, se_root := mk.1 }
              some (lookup_domount E nm z.2 mk.1 err sd (avl_insert sd.sd_snaps sep wh) mk.2)

/-! ## Attributes -/

/-- Struct `vattr_t`: the fields the control directory fills in. `va_active_nchildren`
is the caller's request bit for `va_nchildren`. -/
structure Vattr where
  va_active_nchildren : Bool
  va_dirlinkcount : Nat
  va_nlink : Nat
  va_uid : Nat
  va_gid : Nat
  va_rdev : Nat
  va_data_alloc : Nat
  va_total_alloc : Nat
  va_data_size : Nat
  va_total_size : Nat
  va_nblocks : Nat
  va_gen : Nat
  va_mode : Nat
  va_type_isdir : Bool
  va_nchildren : Option Nat
  va_iosize : Nat
  va_atime : Nat
  va_flags : Nat
  va_nodeid : Nat
  va_size : Nat
  va_mtime : Nat
  va_ctime : Nat
  va_fsid : Nat
  va_active_name : Bool
  va_name : Option String
deriving DecidableEq, Repr

def S_IRUSR : Nat := 0o400
def S_IWUSR : Nat := 0o200
def S_IXUSR : Nat := 0o100
def S_IRGRP : Nat := 0o040
def S_IWGRP : Nat := 0o020
def S_IXGRP : Nat := 0o010
def S_IROTH : Nat := 0o004
def S_IWOTH : Nat := 0o002
def S_IXOTH : Nat := 0o001

/-- Function `zfsctl_common_getattr(vp, vap)`; `isdir` is `vnode_isdir(vp)`. -/
def zfsctl_common_getattr (E : Env) (isdir : Bool) (vap : Vattr) : Vattr :=
  let vap := { vap with
    va_dirlinkcount := 3
    va_nlink := 3
    va_uid := 0
    va_gid := 0
    va_rdev := 0
    va_data_alloc := 512
    va_total_alloc := 512
    va_data_size := 0
    va_total_size := 0
    va_nblocks := 0
    va_gen := 0
    va_mode := S_IRUSR ||| S_IXUSR ||| S_IRGRP ||| S_IXGRP ||| S_IROTH ||| S_IXOTH
    va_type_isdir := true }
  let vap :=
    if vap.va_active_nchildren && isdir then
      { vap with va_nchildren := some (vap.va_nlink - 2) }
    else vap
  { vap with va_iosize := 512, va_atime := E.gethrestime, va_flags := 0 }

/-- Function `zfsctl_snapdir_getattr`: the error code and the attributes. -/
def zfsctl_snapdir_getattr (E : Env) (s : State) (vap : Vattr) : Int × Vattr :=
  match s.sdp with
  | none => (ENOENT, vap)
  | some sd =>
    let vap := zfsctl_common_getattr E true vap
    let vap := { vap with va_nodeid := E.gfs_file_inode }
    let n := avl_numnodes sd.sd_snaps + 2
    let vap := { vap with va_size := n, va_nlink := n }
    let vap := { vap with va_mtime := E.dmu_objset_snap_cmtime }
    (0, vap)

/-! ## Forced unmount and reclaim -/

/-- Function `zfsctl_unmount_snap(sep, fflags, cr)`: the error code and the trace.
The unmount itself is compiled under `sun` only. -/
def zfsctl_unmount_snap (E : Env) (sep : SnapEntry) (tr : List Event) : Int × List Event :=
  let svp := sep.se_root
  let error := E.vn_vfswlock svp
  if error ≠ 0 then (error, tr)
  else
    match E.plat with
    | Platform.sun =>
      let tr := tr ++ [Event.VN_HOLD svp, Event.dounmount (E.vnode_mountedhere svp)]
      let error := E.dounmount (E.vnode_mountedhere svp)
      if error ≠ 0 then (error, tr ++ [Event.VN_RELE svp])
      else (0, tr ++ [Event.gfs_vop_inactive svp, Event.kmem_free_sep sep])
    | _ => (0, tr ++ [Event.gfs_vop_inactive svp, Event.kmem_free_sep sep])

/-- The `while (sep != NULL)` loop of `zfsctl_umount_snapshots`: `walk` is the
list of entries from `sep` on in index order (`AVL_NEXT`), `snaps` the index,
`error` the error variable. Result: the error variable, the index, the trace. -/
def umount_snapshots_loop (E : Env) :
    List SnapEntry → List SnapEntry → Int → List Event → Int × List SnapEntry × List Event
  | [], snaps, error, tr => (error, snaps, tr)
  | sep :: next, snaps, error, tr =>
    if vn_ismntpt E sep.se_root then
      let r := zfsctl_unmount_snap E sep tr
      if r.1 ≠ 0 then
        let f := avl_find snaps sep
        let snaps := if f.1 = none then avl_insert snaps sep f.2 else snaps
        (r.1, snaps, r.2)
      else umount_snapshots_loop E next snaps r.1 r.2
    else umount_snapshots_loop E next snaps error tr

/-- Function `zfsctl_umount_snapshots(vfsp, fflags, cr)`: the error code and the state. -/
def zfsctl_umount_snapshots (E : Env) (s : State) : Int × State :=
  let error := E.zfsctl_root_lookup.1
  let dvp := E.zfsctl_root_lookup.2
  if error ≠ 0 then (error, s)
  else
    match s.sdp with
    | none => (0, s)
    | some sd =>
      -- mutex_enter
      let r := umount_snapshots_loop E sd.sd_snaps sd.sd_snaps error s.trace
      -- mutex_exit
      (r.1, { s with
        sdp := some { sd with sd_lock := false, sd_snaps := r.2.1 }
        trace := r.2.2 ++ [Event.VN_RELE dvp] })

/-- The drain loop of `zfsctl_snapdir_reclaim`: while `avl_first` gives an
entry, remove it from the index and free it. Result: the index and the trace. -/
def snapdir_reclaim_loop : List SnapEntry → List Event → List SnapEntry × List Event
  | [], tr => ([], tr)
  | sep :: rest, tr => snapdir_reclaim_loop rest (tr ++ [Event.kmem_free_sep sep])

/-- Function `zfsctl_snapdir_reclaim`; `vp` is the directory's vnode. -/
def zfsctl_snapdir_reclaim (vp : Vnode) (s : State) : Int × State :=
  match s.sdp with
  | none => (0, s)
  | some sd =>
    -- mutex_enter
    let r := snapdir_reclaim_loop sd.sd_snaps s.trace
    -- mutex_exit, gfs_dir_inactive, kmem_free(sdp), vnode_clearfsnode
    (0, { s with sdp := none, trace := r.2 ++ [Event.gfs_dir_inactive vp] })

/-! ## Rename and remove (compiled under `sun`)

Both directories of a rename are vnodes of the same mounted filesystem (the
VFS layer does not pass a cross-filesystem rename down), so the one dataset
name of `Env` serves `zfsctl_snapshot_zname` on either. The calls are modelled
for a caller that does not hold `sd_lock`. -/

/-- Flag `FIGNORECASE` of `sys/vnode.h`. -/
def FIGNORECASE : Nat := 0x80000

/-- Function `strncpy(dst, src, n)` into a buffer read back as a string: at most
`n` characters of `src`. -/
def strncpy (src : String) (n : Nat) : String := String.mk (src.toList.take n)

/-- Function `strrchr` on character lists: the position of the last occurrence
of `c`, `none` for `NULL`. -/
def strrchr_chars : List Char → Char → Option Nat
  | [], _ => none
  | x :: xs, c =>
    match strrchr_chars xs c with
    | some i => some (i + 1)
    | none => if x = c then some 0 else none

def strrchr (s : String) (c : Char) : Option Nat := strrchr_chars s.toList c

/-- The path rewrite of `zfsctl_rename_snap`: `path` is copied into `newpath`
(`MAXNAMELEN` bytes), `newpath` is cut right after the last `sep` and `nm` is
appended. `none` when the `VERIFY` on `strrchr` fails. -/
def rename_newpath (path : String) (sep : Char) (nm : String) : Option String :=
  let newpath := strncpy path MAXNAMELEN
  match strrchr newpath sep with
  | none => none
  | some tail => some (String.mk (newpath.toList.take (tail + 1)) ++ nm)

/-- Function `zfsctl_rename_snap(sdp, sep, nm)`, on the index `snaps`: the new
index and the trace, `none` when one of its `VERIFY`s fails. -/
def zfsctl_rename_snap (E : Env) (snaps : List SnapEntry) (sep : SnapEntry) (nm : String)
    (tr : List Event) : Option (List SnapEntry × List Event) :=
  let vfsp := E.vnode_mount sep.se_root
  -- change the name in the AVL tree
  let snaps := avl_remove snaps sep
  let sep : SnapEntry := { sep with se_name := nm }
  let f := avl_find snaps sep
  if f.1 ≠ none then none
  else
    let snaps := avl_insert snaps sep f.2
    -- change the current mountpoint info
    match rename_newpath (E.vfs_getmntpoint vfsp) '/' nm with
    | none => none
    | some mntpoint =>
      let tr := tr ++ [Event.vfs_setmntpoint vfsp mntpoint]
      match rename_newpath (E.vfs_getresource vfsp) '@' nm with
      | none => none
      | some resource => some (snaps, tr ++ [Event.vfs_setresource vfsp resource])

/-- The case-folding block at the head of rename and remove: the error code (0
to go on) and the name to go on with. -/
def snapshot_realname (E : Env) (flags : Nat) (name : String) : Int × String :=
  if flags &&& FIGNORECASE ≠ 0 ∨ E.z_case_insensitive = true then
    let r := E.dmu_snapshot_realname name
    if r.1 = 0 then (0, r.2)
    else if r.1 ≠ ENOTSUP then (r.1, name)
    else (0, name)
  else (0, name)

/-- Function `zfsctl_snapdir_rename(sdvp, snm, tdvp, tnm, cr, ct, flags)`: the
error code and the state. -/
def zfsctl_snapdir_rename (E : Env) (sdvp : Vnode) (snm : String) (tdvp : Vnode)
    (tnm : String) (flags : Nat) (s : State) : Option (Int × State) :=
  let rn := snapshot_realname E flags snm
  if rn.1 ≠ 0 then some (rn.1, s)
  else
    let snm := rn.2
    let zfrom := zfsctl_snapshot_zname E snm MAXNAMELEN
    let zto := zfsctl_snapshot_zname E tnm MAXNAMELEN
    let err := zfrom.1
    let err := if err = 0 then zto.1 else err
    let err := if err = 0 then E.zfs_secpolicy_rename_perms zfrom.2 zto.2 else err
    if err ≠ 0 then some (err, s)
    -- cannot move snapshots out of the snapdir
    else if sdvp ≠ tdvp then some (EINVAL, s)
    else if strcmp snm tnm = 0 then some (0, s)
    else
      match s.sdp with
      | none => none
      | some sd =>
        -- mutex_enter
        let search : SnapEntry := { se_name := snm, se_root := 0 }
        match (avl_find sd.sd_snaps search).1 with
        | none => some (ENOENT, { s with sdp := some { sd with sd_lock := false } })
        | some sep =>
          let err := E.dmu_objset_rename zfrom.2 zto.2
          let tr := s.trace ++ [Event.dmu_objset_rename zfrom.2 zto.2]
          if err = 0 then
            match zfsctl_rename_snap E sd.sd_snaps sep tnm tr with
            | none => none
            | some r =>
              some (err, { s with
                sdp := some { sd with sd_lock := false, sd_snaps := r.1 }
                trace := r.2 })
          else
            some (err, { s with sdp := some { sd with sd_lock := false }, trace := tr })

/-- Function `zfsctl_snapdir_remove(dvp, name, cwd, cr, ct, flags)`: the error
code and the state. -/
def zfsctl_snapdir_remove (E : Env) (name : String) (flags : Nat) (s : State) :
    Option (Int × State) :=
  let rn := snapshot_realname E flags name
  if rn.1 ≠ 0 then some (rn.1, s)
  else
    let name := rn.2
    let z := zfsctl_snapshot_zname E name MAXNAMELEN
    let err := z.1
    let err := if err = 0 then E.zfs_secpolicy_destroy_perms z.2 else err
    if err ≠ 0 then some (err, s)
    else
      match s.sdp with
      | none => none
      | some sd =>
        -- mutex_enter
        let search : SnapEntry := { se_name := name, se_root := 0 }
        match (avl_find sd.sd_snaps search).1 with
        | some sep =>
          let snaps := avl_remove sd.sd_snaps sep
          let u := zfsctl_unmount_snap E sep s.trace
          if u.1 ≠ 0 then
            let f := avl_find snaps sep
            let snaps := if f.1 = none then avl_insert snaps sep f.2 else snaps
            some (u.1, { s with
              sdp := some { sd with sd_lock := false, sd_snaps := snaps }
              trace := u.2 })
          else
            some (E.dmu_objset_destroy z.2, { s with
              sdp := some { sd with sd_lock := false, sd_snaps := snaps }
              trace := u.2 ++ [Event.dmu_objset_destroy z.2] })
        | none => some (ENOENT, { s with sdp := some { sd with sd_lock := false } })

/-! ## Root attributes, open, access and file identifier -/

/-- Table `zfsctl_root_entries`: the static children of the root, closed by
the terminating null record; `shares` is compiled out on the Apple build. -/
def zfsctl_root_entries (plat : Platform) : List (Option String) :=
  [some "snapshot"] ++ (if plat = Platform.apple then [] else [some "shares"]) ++ [none]

/-- Macro `NROOT_ENTRIES`: the number of records of the table plus one. -/
def NROOT_ENTRIES (plat : Platform) : Nat := (zfsctl_root_entries plat).length + 1

/-- Function `zfsctl_root_getattr`; `ZFSCTL_INO_ROOT` is the header's constant
and `zcp` the root's node. -/
def zfsctl_root_getattr (E : Env) (ZFSCTL_INO_ROOT : Nat) (zcp : zfsctl_node) (vap : Vattr) :
    Int × Vattr :=
  let vap := { vap with va_fsid := E.f_fsid }
  let vap := { vap with va_nodeid := ZFSCTL_INO_ROOT }
  let vap := { vap with va_size := NROOT_ENTRIES E.plat, va_nlink := NROOT_ENTRIES E.plat }
  let vap := { vap with va_ctime := zcp.zc_cmtime, va_mtime := zcp.zc_cmtime }
  let vap :=
    if vap.va_active_name && vap.va_name.isSome then { vap with va_name := some ZFS_CTLDIR_NAME }
    else vap
  let vap := zfsctl_common_getattr E true vap
  (0, vap)

/-- Function `zfsctl_common_open`; `FWRITE` is the header's flag and `a_mode`
the open mode. -/
def zfsctl_common_open (FWRITE : Nat) (a_mode : Nat) : Int :=
  let flags := a_mode
  if flags &&& FWRITE ≠ 0 then EACCES else 0

/-- Function `zfsctl_common_access`; `VWRITE` is the header's flag and
`a_action` the requested access. -/
def zfsctl_common_access (VWRITE : Nat) (a_action : Nat) : Int :=
  let accmode := a_action
  if accmode &&& VWRITE ≠ 0 then EACCES else 0

/-- The file identifier `zfsctl_common_fid` fills in: the two length fields
and the two byte arrays of `zfid_short_t`. -/
structure Fid where
  fid_len : Nat
  zf_len : Nat
  zf_object : List Nat
  zf_gen : List Nat
deriving DecidableEq, Repr

/-- Function `zfsctl_common_fid`; `SHORT_FID_LEN` and the array sizes
`sizeof (zfid->zf_object)`, `sizeof (zfid->zf_gen)` are the header's. -/
def zfsctl_common_fid (SHORT_FID_LEN zf_object_size zf_gen_size : Nat) (zcp : zfsctl_node) :
    Int × Fid :=
  let object := zcp.zc_id % 2 ^ 64
  (0, { fid_len := SHORT_FID_LEN
        zf_len := SHORT_FID_LEN
        zf_object := (List.range zf_object_size).map (fun i => (object >>> (8 * i)) % 256)
        zf_gen := (List.range zf_gen_size).map (fun _ => 0) })

/-! ## Directory listing -/

/-- What `zfsctl_snapdir_readdir_cb` writes through its pointers; `none` is a
location it leaves alone. -/
structure ReaddirOut where
  eofp : Option Nat
  d_name : Option String
  d_ino : Option Nat
  nextp : Option Nat
deriving DecidableEq, Repr

def ZFSCTL_INO_SNAP (id : Nat) : Nat := id

/-- Function `zfsctl_snapdir_readdir_cb`; `s` is the state reachable from the
vnode and `offp` the cursor. -/
def zfsctl_snapdir_readdir_cb (E : Env) (_s : State) (offp : Nat) : Int × ReaddirOut :=
  let cookie := offp
  let (error, snapname, id, cookie) := E.dmu_snapshot_list_next cookie
  if error ≠ 0 then
    if error = ENOENT then
      (0, { eofp := some 1, d_name := none, d_ino := none, nextp := none })
    else (error, { eofp := none, d_name := none, d_ino := none, nextp := none })
  else
    (0, { eofp := none, d_name := some snapname, d_ino := some (ZFSCTL_INO_SNAP id),
          nextp := some cookie })

/-- Modelled from the spec: the virtual-directory framework's readdir cursor
plumbing, which calls the callback from the given cursor, collects the records
and moves to the next cursor until the callback signals the end of the stream
or an error. -/
def gfs_readdir (E : Env) (s : State) : Nat → Nat → List (String × Nat)
  | 0, _ => []
  | fuel + 1, off =>
    let r := zfsctl_snapdir_readdir_cb E s off
    if r.1 ≠ 0 then []
    else
      match r.2.eofp, r.2.d_name, r.2.d_ino, r.2.nextp with
      | none, some name, some ino, some next => (name, ino) :: gfs_readdir E s fuel next
      | _, _, _, _ => []

/-! ## Teardown of a snapshot node -/

/-- The loop of `zfsctl_snapshot_inactive` from entry `sep` on: the first
entry whose root is `vp` is removed and freed. -/
def snapshot_inactive_loop (vp : Vnode) :
    List SnapEntry → List SnapEntry → List Event → List SnapEntry × List Event
  | [], snaps, tr => (snaps, tr)
  | sep :: next, snaps, tr =>
    if sep.se_root = vp then (avl_remove snaps sep, tr ++ [Event.kmem_free_sep sep])
    else snapshot_inactive_loop vp next snaps tr

/-- Function `zfsctl_snapshot_inactive`; `none` is the failed `VERIFY` of the
parent lookup. -/
def zfsctl_snapshot_inactive (E : Env) (vp : Vnode) (s : State) : Option (Int × State) :=
  if E.vnode_isinuse vp then
    some (E.gfs_vop_inactive vp, { s with trace := s.trace ++ [Event.gfs_vop_inactive vp] })
  else
    let (err, dvp) := E.gfs_dir_lookup_dotdot vp
    if err ≠ 0 then none
    else
      match s.sdp with
      | none => none
      | some sd =>
        -- locked = MUTEX_HELD(&sdp->sd_lock); the lock is left as it was found
        let (snaps, tr) := snapshot_inactive_loop vp sd.sd_snaps sd.sd_snaps s.trace
        let tr := tr ++ [Event.VN_RELE dvp]
        some (E.gfs_vop_inactive vp,
          { s with sdp := some { sd with sd_snaps := snaps }
                   trace := tr ++ [Event.gfs_vop_inactive vp] })

/-! ## Vocabulary of the properties -/

/-- The index invariant: entries strictly ascending by name under `strcmp`. -/
def IndexSorted (snaps : List SnapEntry) : Prop :=
  snaps.Pairwise (fun a b => strcmp a.se_name b.se_name < 0)

instance (snaps : List SnapEntry) : Decidable (IndexSorted snaps) := by
  unfold IndexSorted
  infer_instance

/-- The unmount calls of a trace, in order. -/
def unmount_calls (tr : List Event) : List Event :=
  tr.filter (fun ev => match ev with
    | Event.dounmount _ => true
    | _ => false)

/-- The dataset destroy calls of a trace, in order. -/
def destroy_calls (tr : List Event) : List Event :=
  tr.filter (fun ev => match ev with
    | Event.dmu_objset_destroy _ => true
    | _ => false)

/-- The calls of a trace that rewrite a mount's mount-point or resource string. -/
def setpath_calls (tr : List Event) : List Event :=
  tr.filter (fun ev => match ev with
    | Event.vfs_setmntpoint _ _ => true
    | Event.vfs_setresource _ _ => true
    | _ => false)


/-- Every hop along `ws` succeeds: a filesystem is mounted on the current
vnode, its busy-hold returns 0 and its root resolves, with error 0, to the
next vnode of `ws`. -/
def isMountPath (E : Env) : Vnode → List Vnode → Bool
  | _, [] => true
  | v, w :: rest =>
    match E.vnode_mountedhere v with
    | none => false
    | some vfsp =>
      decide (E.vfs_busy vfsp = 0) && decide (E.VFS_ROOT vfsp = (0, w)) && isMountPath E w rest

/-- A mount chain of depth `ws.length` on `v`: every hop along `ws` succeeds
and nothing is mounted on the last vnode. -/
def isMountChain (E : Env) : Vnode → List Vnode → Bool
  | v, [] => decide (E.vnode_mountedhere v = none)
  | v, w :: rest =>
    match E.vnode_mountedhere v with
    | none => false
    | some vfsp =>
      decide (E.vfs_busy vfsp = 0) && decide (E.VFS_ROOT vfsp = (0, w)) && isMountChain E w rest

/-- Net number of references the trace takes on `vp`: holds minus releases. -/
def ref_delta (tr : List Event) (vp : Vnode) : Int :=
  (tr.count (Event.VN_HOLD vp) : Int) - (tr.count (Event.VN_RELE vp) : Int)
    - (tr.count (Event.vnode_put vp) : Int)

/-- The mount calls of a trace, in order. -/
def mount_calls (tr : List Event) : List Event :=
  tr.filter (fun ev => match ev with
    | Event.mount_snapshot _ _ _ => true
    | _ => false)

/-- The snapshot entries a trace frees, in order. -/
def freed_entries (tr : List Event) : List SnapEntry :=
  tr.filterMap (fun ev => match ev with
    | Event.kmem_free_sep sep => some sep
    | _ => none)

/-- The index of a state, when the snapshot directory exists. -/
def index_of (s : State) : Option (List SnapEntry) := s.sdp.map (fun sd => sd.sd_snaps)

/-- A name a C string can hold: none of its characters is the terminator. -/
def isCStr (name : String) : Prop := ∀ c ∈ name.toList, c.toNat ≠ 0

instance (name : String) : Decidable (isCStr name) := by
  unfold isCStr
  infer_instance

/-- The index invariant on a state: the index of the snapshot directory, when
the directory exists, is strictly ascending by name. -/
def StateSorted (s : State) : Prop :=
  match s.sdp with
  | none => True
  | some sd => IndexSorted sd.sd_snaps

instance (s : State) : Decidable (StateSorted s) := by
  unfold StateSorted
  split <;> infer_instance

/-- One call of an operation that inserts into the index or removes from it:
a lookup, a rename, a remove, the teardown of a snapshot node or the reclaim
of the directory, each with any world and any arguments. The forced unmount of
all snapshots is not a step: it frees entries that it leaves in the tree, so
the index after it is no longer a collection of live entries. -/
inductive SnapdirStep : State → State → Prop
  | lookup (E : Env) (cnp : Componentname) (s : State) (err : Int) (vpp : Option Vnode)
      (s' : State) :
      zfsctl_snapdir_lookup E cnp s = some (err, vpp, s') → SnapdirStep s s'
  | rename (E : Env) (sdvp : Vnode) (snm : String) (tdvp : Vnode) (tnm : String) (flags : Nat)
      (s : State) (err : Int) (s' : State) :
      zfsctl_snapdir_rename E sdvp snm tdvp tnm flags s = some (err, s') → SnapdirStep s s'
  | remove (E : Env) (name : String) (flags : Nat) (s : State) (err : Int) (s' : State) :
      zfsctl_snapdir_remove E name flags s = some (err, s') → SnapdirStep s s'
  | inactive (E : Env) (vp : Vnode) (s : State) (err : Int) (s' : State) :
      zfsctl_snapshot_inactive E vp s = some (err, s') → SnapdirStep s s'
  | reclaim (vp : Vnode) (s : State) : SnapdirStep s (zfsctl_snapdir_reclaim vp s).2

/-- The dataset engine enumerates exactly the records `recs` from `cursor` on:
each call gives the next record and the cursor of the following one, the call
after the last record gives `ENOENT`. -/
def engine_lists (E : Env) : Nat → List (String × Nat) → Bool
  | cursor, [] => decide ((E.dmu_snapshot_list_next cursor).1 = ENOENT)
  | cursor, (name, id) :: rest =>
    let r := E.dmu_snapshot_list_next cursor
    decide (r.1 = 0) && decide (r.2.1 = name) && decide (r.2.2.1 = id)
      && engine_lists E r.2.2.2 rest

/-- Little-endian value of a byte array. -/
def fid_decode : List Nat → Nat
  | [] => 0
  | b :: rest => b + 256 * fid_decode rest

/-! ## Concrete worlds used by the evaluations -/

/-- A quiet world on the Apple build: nothing mounted, every collaborator
succeeds, the dataset `tank` mounted on `/tank` has no snapshot. -/
def envIdle : Env :=
  { plat := Platform.apple
    vnode_mountedhere := fun _ => none
    vfs_busy := fun _ => 0
    VFS_ROOT := fun vfsp => (0, vfsp)
    vn_vfswlock := fun _ => 0
    dounmount := fun _ => 0
    snapshot_namecheck := fun _ => 0
    dmu_objset_name := "tank"
    dmu_objset_hold := fun _ => none
    dmu_objset_snap_cmtime := 0
    gfs_lookup_dot := fun _ => none
    gfs_dir_create := 100
    gfs_file_inode := 2
    f_mntonname := "/tank"
    mount_snapshot := fun vp _ _ => (0, vp)
    zfsctl_root_lookup := (0, 1)
    gethrestime := 0
    z_case_insensitive := false
    dmu_snapshot_realname := fun name => (0, name)
    zfs_secpolicy_rename_perms := fun _ _ => 0
    zfs_secpolicy_destroy_perms := fun _ => 0
    dmu_objset_rename := fun _ _ => 0
    dmu_objset_destroy := fun _ => 0
    vnode_mount := fun _ => 0
    vfs_getmntpoint := fun _ => "/tank"
    vfs_getresource := fun _ => "tank"
    vnode_isinuse := fun _ => false
    gfs_dir_lookup_dotdot := fun _ => (0, 2)
    gfs_vop_inactive := fun _ => 0
    dmu_snapshot_list_next := fun cookie => (ENOENT, "", 0, cookie)
    f_fsid := 7 }

/-- A world in which vnode `n` below `depth` is covered by filesystem `n`,
whose root is vnode `n + 1`: a mount chain 0, 1, ..., `depth`. -/
def envChain (depth : Nat) : Env :=
  { envIdle with
    vnode_mountedhere := fun v => if v < depth then some v else none
    VFS_ROOT := fun vfsp => (0, vfsp + 1) }

/-- A snapshot directory state with the given index and an empty trace. -/
def stateOf (snaps : List SnapEntry) : State :=
  { sdp := some { sd_node := { zc_id := 2, zc_cmtime := 0 }, sd_lock := false, sd_snaps := snaps }
    nodes := []
    trace := [] }

/-- The quiet world with a filesystem (number 1, root vnode 50) mounted on vnode 10. -/
def envMounted : Env :=
  { envIdle with
    vnode_mountedhere := fun v => if v = 10 then some 1 else none
    VFS_ROOT := fun _ => (0, 50) }

/-- The world of `envMounted` in which every busy-hold fails with `EBUSY`. -/
def envBusy : Env :=
  { envMounted with vfs_busy := fun _ => EBUSY }

/-- The chain 0, 1, 2 in which the busy-hold of the second filesystem fails. -/
def envChainBusy : Env :=
  { envChain 2 with vfs_busy := fun vfsp => if vfsp = 1 then EBUSY else 0 }

/-- The quiet world on the FreeBSD build, the dataset having the snapshot
`tank@nightly` with object id 77; the mount gives the root vnode 500. -/
def envNightly : Env :=
  { envIdle with
    plat := Platform.freebsd
    dmu_objset_hold := fun snapname => if snapname = "tank@nightly" then some 77 else none
    mount_snapshot := fun _ _ _ => (0, 500) }

/-- The world of `envNightly` in which the mount fails with `EBUSY`. -/
def envNightlyFail : Env :=
  { envNightly with mount_snapshot := fun vp _ _ => (EBUSY, vp) }

/-- A snapshot name of 251 letters: with the dataset name `tank` the composed
name needs 256 characters, one more than `MAXNAMELEN` leaves room for. -/
def longName : String := String.mk (List.replicate 251 'a')

/-- The lookup request for the last path component `name`, operation `LOOKUP`. -/
def cnOf (name : String) : Componentname :=
  { cn_nameptr := name, cn_namelen := name.length, cn_flags := ISLASTCN, cn_nameiop := 0 }

/-- The quiet world on the `sun` build, the mount of snapshot `a` carrying the
mount point `/tank/.zfs/snapshot/a` and the resource `tank@a`. -/
def envSun : Env :=
  { envIdle with
    plat := Platform.sun
    vfs_getmntpoint := fun _ => "/tank/.zfs/snapshot/a"
    vfs_getresource := fun _ => "tank@a" }

/-- The world of `envSun` in which the dataset engine refuses every rename. -/
def envRenameFail : Env :=
  { envSun with dmu_objset_rename := fun _ _ => EBUSY }

/-- The world of `envSun` with a filesystem mounted on vnode 10 that cannot be
unmounted: `dounmount` fails with `EBUSY`. -/
def envUnmountFail : Env :=
  { envSun with
    vnode_mountedhere := fun v => if v = 10 then some 1 else none
    dounmount := fun _ => EBUSY }

/-- The quiet world with a validator that rejects the glob characters. -/
def envGlob : Env :=
  { envIdle with
    snapshot_namecheck := fun name =>
      if name.toList.any (fun c => c = '*' || c = '?') then -1 else 0 }

/-- A snapshot directory state whose lock is held, with the given index. -/
def stateLocked (snaps : List SnapEntry) : State :=
  { sdp := some { sd_node := { zc_id := 2, zc_cmtime := 0 }, sd_lock := true, sd_snaps := snaps }
    nodes := []
    trace := [] }

/-- The quiet world whose dataset engine lists the snapshots `a`, `b`, `c`
(object ids 11, 12, 13) at the cursors 0, 1, 2. -/
def envThree : Env :=
  { envIdle with
    dmu_snapshot_list_next := fun cookie =>
      if cookie = 0 then (0, "a", 11, 1)
      else if cookie = 1 then (0, "b", 12, 2)
      else if cookie = 2 then (0, "c", 13, 3)
      else (ENOENT, "", 0, cookie) }

/-- The quiet world whose dataset engine fails every enumeration with `EIO`. -/
def envListFail : Env :=
  { envIdle with dmu_snapshot_list_next := fun cookie => ( EIO, "", 0, cookie) }

/-- A cyclic mount graph: every vnode is covered by filesystem 0, whose root
is vnode 0 again. -/
def envCycle : Env :=
  { envIdle with
    vnode_mountedhere := fun _ => some 0
    VFS_ROOT := fun _ => (0, 0) }

/-- The quiet world in which every vnode is still in use. -/
def envInUse : Env :=
  { envIdle with vnode_isinuse := fun _ => true }

/-- The quiet world at time 900. -/
def envNow : Env :=
  { envIdle with gethrestime := 900 }

/-- A request for every attribute, `va_nchildren` included, all fields zero. -/
def vattrAll : Vattr :=
  { va_active_nchildren := true, va_dirlinkcount := 0, va_nlink := 0, va_uid := 0, va_gid := 0,
    va_rdev := 0, va_data_alloc := 0, va_total_alloc := 0, va_data_size := 0,
    va_total_size := 0, va_nblocks := 0, va_gen := 0, va_mode := 0, va_type_isdir := false,
    va_nchildren := none, va_iosize := 0, va_atime := 0, va_flags := 0, va_nodeid := 0,
    va_size := 0, va_mtime := 0, va_ctime := 0, va_fsid := 0, va_active_name := false,
    va_name := none }

/-! ## Properties of `traverse` -/

theorem traverse_loop_chain (E : Env) (ws : List Vnode) :
    ∀ (n fuel loop : Nat) (cvpp v : Vnode) (tr : List Event),
      isMountChain E v ws = true → loop + n = 7 → 1 ≤ n → n ≤ fuel →
      traverse_loop E fuel loop cvpp v tr =
        some (0, (ws.take n).getLastD v,
          tr ++ ((v :: ws.take n).dropLast.map Event.VN_RELE)) := by
  induction ws with
  | nil =>
    intro n fuel loop cvpp v tr hc _ hn hf
    obtain ⟨f, rfl⟩ : ∃ f, fuel = f + 1 := ⟨fuel - 1, by omega⟩
    simp [isMountChain] at hc
    simp [traverse_loop, hc]
  | cons w rest ih =>
    intro n fuel loop cvpp v tr hc hl hn hf
    obtain ⟨f, rfl⟩ : ∃ f, fuel = f + 1 := ⟨fuel - 1, by omega⟩
    obtain ⟨m, rfl⟩ : ∃ m, n = m + 1 := ⟨n - 1, by omega⟩
    simp only [isMountChain] at hc
    cases hm : E.vnode_mountedhere v with
    | none => simp [hm] at hc
    | some vfsp =>
      simp only [hm, Bool.and_eq_true, decide_eq_true_eq] at hc
      obtain ⟨⟨hb, hr⟩, hrest⟩ := hc
      by_cases h5 : loop > 5
      · have hm0 : m = 0 := by omega
        subst hm0
        simp [traverse_loop, hm, hb, hr, h5]
      · have h := ih m f (loop + 1) cvpp w (tr ++ [Event.VN_RELE v]) hrest
          (by omega) (by omega) (by omega)
        have hmpos : 1 ≤ m := by omega
        obtain ⟨k, rfl⟩ : ∃ k, m = k + 1 := ⟨m - 1, by omega⟩
        simp only [traverse_loop, hm, hb, hr, h5]
        simp only [ne_eq, not_true_eq_false, if_false, ↓reduceIte] at *
        rw [h]
        simp only [List.take_succ_cons, List.getLastD_cons, List.dropLast_cons₂, List.map_cons,
          List.append_assoc, List.singleton_append]

theorem traverse_loop_path_error (E : Env) (vfsp : Vfs) (e : Int) (he : e ≠ 0)
    (herr : E.vfs_busy vfsp = e ∨ (E.vfs_busy vfsp = 0 ∧ (E.VFS_ROOT vfsp).1 = e))
    (ws : List Vnode) :
    ∀ (n fuel loop : Nat) (cvpp v : Vnode) (tr : List Event),
      isMountPath E v ws = true → loop + n = 7 → ws.length < n → n ≤ fuel →
      E.vnode_mountedhere (ws.getLastD v) = some vfsp →
      traverse_loop E fuel loop cvpp v tr =
        some (e, cvpp, tr ++ ((v :: ws).map Event.VN_RELE)) := by
  induction ws with
  | nil =>
    intro n fuel loop cvpp v tr _ _ hn hf hm
    obtain ⟨f, rfl⟩ : ∃ f, fuel = f + 1 := ⟨fuel - 1, by omega⟩
    simp only [List.getLastD] at hm
    rcases herr with hb | ⟨hb, hr⟩
    · simp [traverse_loop, hm, hb, he]
    · simp [traverse_loop, hm, hb, hr, he]
  | cons w rest ih =>
    intro n fuel loop cvpp v tr hp hl hn hf hm
    obtain ⟨f, rfl⟩ : ∃ f, fuel = f + 1 := ⟨fuel - 1, by omega⟩
    simp only [List.length_cons] at hn
    simp only [isMountPath] at hp
    cases hmv : E.vnode_mountedhere v with
    | none => simp [hmv] at hp
    | some vfs1 =>
      simp only [hmv, Bool.and_eq_true, decide_eq_true_eq] at hp
      obtain ⟨⟨hb, hr⟩, hrest⟩ := hp
      have h5 : ¬ loop > 5 := by omega
      rw [List.getLastD_cons] at hm
      have h := ih (n - 1) f (loop + 1) cvpp w (tr ++ [Event.VN_RELE v]) hrest
        (by omega) (by omega) (by omega) hm
      simp only [traverse_loop, hmv, hb, hr, h5]
      simp only [ne_eq, not_true_eq_false, if_false, ↓reduceIte] at *
      rw [h]
      simp only [List.map_cons, List.append_assoc, List.singleton_append]

theorem traverse_loop_returns (E : Env) :
    ∀ (fuel loop : Nat) (cvpp v : Vnode) (tr : List Event),
      7 ≤ loop + fuel → 1 ≤ fuel →
      ∃ r, traverse_loop E fuel loop cvpp v tr = some r := by
  intro fuel
  induction fuel with
  | zero => intro loop cvpp v tr _ h; omega
  | succ f ih =>
    intro loop cvpp v tr hl _
    simp only [traverse_loop]
    cases E.vnode_mountedhere v with
    | none => exact ⟨_, rfl⟩
    | some vfsp =>
      simp only
      by_cases hb : E.vfs_busy vfsp ≠ 0
      · rw [if_pos hb]; exact ⟨_, rfl⟩
      · rw [if_neg hb]
        by_cases hr : (E.VFS_ROOT vfsp).1 ≠ 0
        · rw [if_pos hr]; exact ⟨_, rfl⟩
        · rw [if_neg hr]
          by_cases h5 : loop > 5
          · rw [if_pos h5]; exact ⟨_, rfl⟩
          · rw [if_neg h5]
            exact ih (loop + 1) cvpp _ _ (by omega) (by omega)

/-- Function `traverse` always returns: the counter test stops the loop before
the seven unfolded iterations are used up. -/
theorem traverse_returns (E : Env) (v : Vnode) (tr : List Event) :
    ∃ r, traverse E v tr = some r :=
  traverse_loop_returns E 7 0 v v tr (by omega) (by omega)

theorem traverse_loop_trace (E : Env) :
    ∀ (fuel loop : Nat) (cvpp v : Vnode) (tr : List Event) (r : Int × Vnode × List Event),
      traverse_loop E fuel loop cvpp v tr = some r →
      ∃ vs : List Vnode, r.2.2 = tr ++ vs.map Event.VN_RELE := by
  intro fuel
  induction fuel with
  | zero => intro loop cvpp v tr r h; simp [traverse_loop] at h
  | succ f ih =>
    intro loop cvpp v tr r h
    simp only [traverse_loop] at h
    cases hm : E.vnode_mountedhere v with
    | none =>
      simp only [hm, Option.some.injEq] at h
      exact ⟨[], by simp [← h]⟩
    | some vfsp =>
      simp only [hm] at h
      by_cases hb : E.vfs_busy vfsp ≠ 0
      · rw [if_pos hb] at h
        simp only [Option.some.injEq] at h
        exact ⟨[v], by simp [← h]⟩
      · rw [if_neg hb] at h
        by_cases hr : (E.VFS_ROOT vfsp).1 ≠ 0
        · rw [if_pos hr] at h
          simp only [Option.some.injEq] at h
          exact ⟨[v], by simp [← h]⟩
        · rw [if_neg hr] at h
          by_cases h5 : loop > 5
          · rw [if_pos h5] at h
            simp only [Option.some.injEq] at h
            exact ⟨[v], by simp [← h]⟩
          · rw [if_neg h5] at h
            obtain ⟨vs, hvs⟩ := ih _ _ _ _ r h
            exact ⟨v :: vs, by simp [hvs]⟩

theorem mount_calls_append (a b : List Event) :
    mount_calls (a ++ b) = mount_calls a ++ mount_calls b := by
  simp [mount_calls]

theorem mount_calls_map_rele (vs : List Vnode) : mount_calls (vs.map Event.VN_RELE) = [] := by
  induction vs with
  | nil => rfl
  | cons v vs ih => simp [mount_calls] at ih ⊢

/-- Function `traverse` issues no mount call. -/
theorem traverse_mount_calls (E : Env) (v : Vnode) (tr : List Event)
    (r : Int × Vnode × List Event) (h : traverse E v tr = some r) :
    mount_calls r.2.2 = mount_calls tr := by
  obtain ⟨vs, hvs⟩ := traverse_loop_trace E 7 0 v v tr r h
  rw [hvs, mount_calls_append, mount_calls_map_rele, List.append_nil]

/-- Claim C2: on a mount chain of depth at most 5 whose hops all succeed,
`traverse` returns 0 and sets the handle to the root of the innermost mounted
filesystem; on depth 0 the handle and the trace are unchanged, on depth 2 the
handle is the root of the second mount. -/
theorem C2_traverse_chain (E : Env) (v : Vnode) (ws : List Vnode) (tr : List Event)
    (hc : isMountChain E v ws = true) (hk : ws.length ≤ 5) :
    traverse E v tr =
        some (0, ws.getLastD v, tr ++ ((v :: ws).dropLast.map Event.VN_RELE))
      ∧ (ws = [] → traverse E v tr = some (0, v, tr))
      ∧ (∀ w1 w2, ws = [w1, w2] →
          traverse E v tr = some (0, w2, tr ++ [Event.VN_RELE v, Event.VN_RELE w1])) := by
  have h := traverse_loop_chain E ws 7 7 0 v v tr hc (by omega) (by omega) (by omega)
  rw [List.take_of_length_le (by omega)] at h
  refine ⟨h, ?_, ?_⟩
  · intro hws
    subst hws
    simpa using h
  · intro w1 w2 hws
    subst hws
    simpa using h

theorem C2_traverse_chain_witness :
    traverse (envChain 2) 0 [] = some (0, 2, [Event.VN_RELE 0, Event.VN_RELE 1]) :=
  (C2_traverse_chain (envChain 2) 0 [1, 2] [] (by decide) (by decide)).1

/-- Claim C3, refuted as stated: on a mount chain of depth 6 whose hops all
succeed, `traverse` returns 0 with the handle on the innermost root. -/
theorem C3_counterexample :
    isMountChain (envChain 6) 0 [1, 2, 3, 4, 5, 6] = true
      ∧ 5 < [1, 2, 3, 4, 5, 6].length
      ∧ traverse (envChain 6) 0 [] =
          some (0, 6, [Event.VN_RELE 0, Event.VN_RELE 1, Event.VN_RELE 2, Event.VN_RELE 3,
            Event.VN_RELE 4, Event.VN_RELE 5]) := by
  decide

/-- Claim C3, amended: on a mount chain deeper than 5 whose hops all succeed,
`traverse` returns 0, not an error; it follows at most 7 mounts and sets the
handle to the vnode reached: the innermost root when the depth is 6 or 7, the
root of the 7th mount on deeper chains. -/
theorem C3_traverse_deep (E : Env) (v : Vnode) (ws : List Vnode) (tr : List Event)
    (hc : isMountChain E v ws = true) (hk : 5 < ws.length) :
    traverse E v tr =
        some (0, (ws.take 7).getLastD v, tr ++ ((v :: ws.take 7).dropLast.map Event.VN_RELE))
      ∧ (ws.length ≤ 7 → (ws.take 7).getLastD v = ws.getLastD v)
      ∧ (7 < ws.length → ∃ h7 : 6 < ws.length, (ws.take 7).getLastD v = ws.get ⟨6, h7⟩) := by
  refine ⟨traverse_loop_chain E ws 7 7 0 v v tr hc (by omega) (by omega) (by omega), ?_, ?_⟩
  · intro h
    rw [List.take_of_length_le h]
  · intro h
    refine ⟨by omega, ?_⟩
    match ws, h with
    | a :: b :: c :: d :: e :: f :: g :: rest, _ => simp [List.getLastD]

theorem C3_traverse_deep_witness :
    traverse (envChain 9) 0 [] =
      some (0, 7, [Event.VN_RELE 0, Event.VN_RELE 1, Event.VN_RELE 2, Event.VN_RELE 3,
        Event.VN_RELE 4, Event.VN_RELE 5, Event.VN_RELE 6]) :=
  (C3_traverse_deep (envChain 9) 0 [1, 2, 3, 4, 5, 6, 7, 8, 9] [] (by decide) (by decide)).1

/-- Claim C4: when the hops along `ws` succeed and at the next hop, one of the
hops `traverse` makes, the busy-hold or the root resolution returns the
non-zero error `e`, `traverse` returns exactly `e` and the caller's handle
is still the one passed in. -/
theorem C4_traverse_error (E : Env) (v : Vnode) (ws : List Vnode) (vfsp : Vfs) (e : Int)
    (tr : List Event)
    (hp : isMountPath E v ws = true) (hk : ws.length ≤ 6)
    (hm : E.vnode_mountedhere (ws.getLastD v) = some vfsp)
    (he : e ≠ 0)
    (herr : E.vfs_busy vfsp = e ∨ (E.vfs_busy vfsp = 0 ∧ (E.VFS_ROOT vfsp).1 = e)) :
    traverse E v tr = some (e, v, tr ++ ((v :: ws).map Event.VN_RELE)) :=
  traverse_loop_path_error E vfsp e he herr ws 7 7 0 v v tr hp (by omega) (by omega)
    (by omega) hm

theorem C4_traverse_error_witness :
    traverse envChainBusy 0 [] = some (EBUSY, 0, [Event.VN_RELE 0, Event.VN_RELE 1]) :=
  C4_traverse_error envChainBusy 0 [1] 1 EBUSY [] (by decide) (by decide) (by decide)
    (by decide) (Or.inl (by decide))

/-! ## Forced unmount followed by reclaim -/

theorem umount_snapshots_loop_index (E : Env) :
    ∀ (walk snaps : List SnapEntry) (error : Int) (tr : List Event),
      (umount_snapshots_loop E walk snaps error tr).1 = 0 →
      (umount_snapshots_loop E walk snaps error tr).2.1 = snaps := by
  intro walk
  induction walk with
  | nil => intro snaps error tr _; rfl
  | cons sep next ih =>
    intro snaps error tr h
    simp only [umount_snapshots_loop] at h ⊢
    by_cases hm : vn_ismntpt E sep.se_root = true
    · rw [if_pos hm] at h ⊢
      by_cases he : (zfsctl_unmount_snap E sep tr).1 ≠ 0
      · rw [if_pos he] at h
        exact absurd h he
      · rw [if_neg he] at h ⊢
        exact ih _ _ _ h
    · rw [if_neg hm] at h ⊢
      exact ih _ _ _ h

/-- A successful `zfsctl_umount_snapshots` leaves every entry in the index,
the ones it has freed included. -/
theorem umount_snapshots_keeps_index (E : Env) (s : State) (sd : zfsctl_snapdir)
    (hs : s.sdp = some sd) (h0 : (zfsctl_umount_snapshots E s).1 = 0) :
    (zfsctl_umount_snapshots E s).2.sdp = some { sd with sd_lock := false } := by
  unfold zfsctl_umount_snapshots at h0 ⊢
  by_cases he : E.zfsctl_root_lookup.1 ≠ 0
  · simp only [if_pos he] at h0
    exact absurd h0 he
  · simp only [if_neg he, hs] at h0 ⊢
    rw [umount_snapshots_loop_index E _ _ _ _ h0]

theorem snapdir_reclaim_loop_frees :
    ∀ (snaps : List SnapEntry) (tr : List Event),
      snapdir_reclaim_loop snaps tr = ([], tr ++ snaps.map Event.kmem_free_sep) := by
  intro snaps
  induction snaps with
  | nil => intro tr; simp [snapdir_reclaim_loop]
  | cons sep rest ih => intro tr; simp [snapdir_reclaim_loop, ih]

theorem freed_entries_append (a b : List Event) :
    freed_entries (a ++ b) = freed_entries a ++ freed_entries b := by
  simp [freed_entries, List.filterMap_append]

theorem freed_entries_map_free (snaps : List SnapEntry) :
    freed_entries (snaps.map Event.kmem_free_sep) = snaps := by
  induction snaps with
  | nil => rfl
  | cons sep rest ih => simpa [freed_entries] using ih

/-- A successful `zfsctl_unmount_snap` frees the entry, once. -/
theorem unmount_snap_frees (E : Env) (sep : SnapEntry) (tr : List Event)
    (h0 : (zfsctl_unmount_snap E sep tr).1 = 0) :
    freed_entries (zfsctl_unmount_snap E sep tr).2 = freed_entries tr ++ [sep] := by
  unfold zfsctl_unmount_snap at h0 ⊢
  by_cases hw : E.vn_vfswlock sep.se_root ≠ 0
  · simp only [if_pos hw] at h0
    exact absurd h0 hw
  · simp only [if_neg hw] at h0 ⊢
    cases hp : E.plat with
    | sun =>
      simp only [hp] at h0 ⊢
      by_cases hd : E.dounmount (E.vnode_mountedhere sep.se_root) ≠ 0
      · simp only [if_pos hd] at h0
        exact absurd h0 hd
      · simp only [if_neg hd]
        simp [freed_entries]
    | freebsd => simp [freed_entries]
    | apple => simp [freed_entries]

/-- When the loop of `zfsctl_umount_snapshots` ends with error 0 it has freed
every entry of its walk whose node is a mount point. -/
theorem umount_snapshots_loop_frees (E : Env) :
    ∀ (walk snaps : List SnapEntry) (tr : List Event),
      (umount_snapshots_loop E walk snaps 0 tr).1 = 0 →
      freed_entries (umount_snapshots_loop E walk snaps 0 tr).2.2
        = freed_entries tr ++ walk.filter (fun sep => vn_ismntpt E sep.se_root) := by
  intro walk
  induction walk with
  | nil => intro snaps tr _; simp [umount_snapshots_loop]
  | cons sep next ih =>
    intro snaps tr h
    simp only [umount_snapshots_loop] at h ⊢
    by_cases hm : vn_ismntpt E sep.se_root = true
    · rw [if_pos hm] at h ⊢
      by_cases he : (zfsctl_unmount_snap E sep tr).1 ≠ 0
      · rw [if_pos he] at h
        exact absurd h he
      · rw [if_neg he] at h ⊢
        have he0 : (zfsctl_unmount_snap E sep tr).1 = 0 := by simpa using he
        rw [he0] at h ⊢
        rw [ih _ _ h, unmount_snap_frees E sep tr he0]
        simp [List.filter_cons, hm]
    · rw [if_neg hm] at h ⊢
      rw [ih _ _ h]
      simp [List.filter_cons, hm]

/-- The double free in general: whenever `zfsctl_umount_snapshots` returns 0,
every entry of the index whose node was a mount point has been freed by it and
is freed once more by the `zfsctl_snapdir_reclaim` that follows. -/
theorem umount_then_reclaim_frees_again (E : Env) (s : State) (sd : zfsctl_snapdir)
    (vp : Vnode) (sep : SnapEntry)
    (hs : s.sdp = some sd) (h0 : (zfsctl_umount_snapshots E s).1 = 0)
    (hmem : sep ∈ sd.sd_snaps) (hmnt : vn_ismntpt E sep.se_root = true) :
    (freed_entries (zfsctl_snapdir_reclaim vp (zfsctl_umount_snapshots E s).2).2.trace).count sep
      ≥ (freed_entries s.trace).count sep + 2 := by
  have hidx := umount_snapshots_keeps_index E s sd hs h0
  have hroot : E.zfsctl_root_lookup.1 = 0 := by
    by_contra hne
    unfold zfsctl_umount_snapshots at h0
    simp only [if_pos hne] at h0
    exact hne h0
  have hloop : (umount_snapshots_loop E sd.sd_snaps sd.sd_snaps 0 s.trace).1 = 0 := by
    unfold zfsctl_umount_snapshots at h0
    simpa [hroot, hs] using h0
  have htr : (zfsctl_umount_snapshots E s).2.trace
      = (umount_snapshots_loop E sd.sd_snaps sd.sd_snaps 0 s.trace).2.2
          ++ [Event.VN_RELE E.zfsctl_root_lookup.2] := by
    unfold zfsctl_umount_snapshots
    simp [hroot, hs]
  unfold zfsctl_snapdir_reclaim
  simp only [hidx, snapdir_reclaim_loop_frees, htr, freed_entries_append,
    freed_entries_map_free, umount_snapshots_loop_frees E _ _ _ hloop, List.count_append]
  have h1 : 1 ≤ (sd.sd_snaps.filter (fun sep => vn_ismntpt E sep.se_root)).count sep :=
    List.count_pos_iff.mpr (List.mem_filter.mpr ⟨hmem, hmnt⟩)
  have h2 : 1 ≤ sd.sd_snaps.count sep := List.count_pos_iff.mpr hmem
  omega

/-- Claim C1, evaluated where it fails: one cached snapshot `a` whose node 10 is
a mount point. `zfsctl_umount_snapshots` returns 0, frees the entry and leaves
it in the index; `zfsctl_snapdir_reclaim` then frees the same entry again. -/
theorem C1_umount_then_reclaim_frees_twice :
    (zfsctl_umount_snapshots envMounted (stateOf [⟨"a", 10⟩])).1 = 0
      ∧ freed_entries (zfsctl_umount_snapshots envMounted (stateOf [⟨"a", 10⟩])).2.trace
          = [⟨"a", 10⟩]
      ∧ (zfsctl_umount_snapshots envMounted (stateOf [⟨"a", 10⟩])).2.sdp
          = (stateOf [⟨"a", 10⟩]).sdp
      ∧ freed_entries (zfsctl_snapdir_reclaim 2
            (zfsctl_umount_snapshots envMounted (stateOf [⟨"a", 10⟩])).2).2.trace
          = [⟨"a", 10⟩, ⟨"a", 10⟩]
      ∧ (freed_entries (zfsctl_snapdir_reclaim 2
            (zfsctl_umount_snapshots envMounted (stateOf [⟨"a", 10⟩])).2).2.trace).count
          ⟨"a", 10⟩ = 2 := by
  decide

/-! ## `zfsctl_snapdir_lookup` on a name of the index -/

theorem traverse_loop_error_trace (E : Env) :
    ∀ (fuel loop : Nat) (cvpp v : Vnode) (tr : List Event) (r : Int × Vnode × List Event),
      traverse_loop E fuel loop cvpp v tr = some r → r.1 ≠ 0 →
      r.2.1 = cvpp ∧ ∃ vs : List Vnode, r.2.2 = tr ++ (v :: vs).map Event.VN_RELE := by
  intro fuel
  induction fuel with
  | zero => intro loop cvpp v tr r h; simp [traverse_loop] at h
  | succ f ih =>
    intro loop cvpp v tr r h hr0
    simp only [traverse_loop] at h
    cases hm : E.vnode_mountedhere v with
    | none =>
      simp only [hm, Option.some.injEq] at h
      subst h
      exact absurd rfl hr0
    | some vfsp =>
      simp only [hm] at h
      by_cases hb : E.vfs_busy vfsp ≠ 0
      · rw [if_pos hb] at h
        simp only [Option.some.injEq] at h
        subst h
        exact ⟨rfl, [], by simp⟩
      · rw [if_neg hb] at h
        by_cases hr : (E.VFS_ROOT vfsp).1 ≠ 0
        · rw [if_pos hr] at h
          simp only [Option.some.injEq] at h
          subst h
          exact ⟨rfl, [], by simp⟩
        · rw [if_neg hr] at h
          by_cases h5 : loop > 5
          · rw [if_pos h5] at h
            simp only [Option.some.injEq] at h
            subst h
            exact absurd rfl hr0
          · rw [if_neg h5] at h
            obtain ⟨h1, vs, hvs⟩ := ih _ _ _ _ r h hr0
            exact ⟨h1, (E.VFS_ROOT vfsp).2 :: vs, by simp [hvs]⟩

theorem ref_delta_append (a b : List Event) (vp : Vnode) :
    ref_delta (a ++ b) vp = ref_delta a vp + ref_delta b vp := by
  simp only [ref_delta, List.count_append, Nat.cast_add]
  ring

theorem ref_delta_map_rele (vs : List Vnode) (vp : Vnode) :
    ref_delta (vs.map Event.VN_RELE) vp = - (vs.count vp : Int) := by
  induction vs with
  | nil => simp [ref_delta]
  | cons v vs ih =>
    have hc : (v :: vs).map Event.VN_RELE = [Event.VN_RELE v] ++ vs.map Event.VN_RELE := rfl
    rw [hc, ref_delta_append, ih]
    by_cases hv : v = vp
    · subst hv
      simp [ref_delta]
    · have hv2 : ¬ (Event.VN_RELE v = Event.VN_RELE vp) := by simpa using hv
      simp [ref_delta, List.count_cons, hv, hv2]

/-- The lookup of a name of the index whose traversal fails with `e`: `e` is
returned with no handle, nothing but the trace changes, and the trace shows one
hold of the entry's node followed by at least two releases of it, a net loss
of at least one reference. -/
theorem lookup_traverse_error (E : Env) (cnp : Componentname) (s : State)
    (sd : zfsctl_snapdir) (sep : SnapEntry) (wh : Nat) (e : Int) (vp : Vnode)
    (tr : List Event)
    (hs : s.sdp = some sd) (hlock : sd.sd_lock = false)
    (hres : cn_nm cnp ≠ ".autodiskmounted")
    (hdot : E.gfs_lookup_dot (cn_nm cnp) = none)
    (hfind : avl_find sd.sd_snaps ⟨cn_nm cnp, 0⟩ = (some sep, wh))
    (htrav : traverse E sep.se_root (s.trace ++ [Event.VN_HOLD sep.se_root]) = some (e, vp, tr))
    (he : e ≠ 0) :
    zfsctl_snapdir_lookup E cnp s = some (e, none, { s with trace := tr ++ [Event.VN_RELE vp] })
      ∧ ref_delta (tr ++ [Event.VN_RELE vp]) sep.se_root ≤ ref_delta s.trace sep.se_root - 1 := by
  constructor
  · unfold zfsctl_snapdir_lookup
    simp only [hs, hfind, hlock, hdot, if_neg hres, Bool.false_eq_true, if_false, htrav, ne_eq,
      he, not_false_eq_true, if_true]
    cases sd
    simp_all
  · obtain ⟨hvp, vs, hvs⟩ := traverse_loop_error_trace E 7 0 _ _ _ _ htrav he
    simp only at hvp hvs
    subst hvp
    rw [hvs]
    simp only [ref_delta_append, ref_delta_map_rele]
    have h1 : ref_delta [Event.VN_HOLD sep.se_root] sep.se_root = 1 := by simp [ref_delta]
    have h2 : ref_delta [Event.VN_RELE sep.se_root] sep.se_root = -1 := by simp [ref_delta]
    rw [h1, h2]
    have h3 : (1 : Int) ≤ ((sep.se_root :: vs).count sep.se_root : Int) := by
      have : 1 ≤ (sep.se_root :: vs).count sep.se_root :=
        List.count_pos_iff.mpr (List.mem_cons_self _ _)
      exact_mod_cast this
    omega

/-- Claim C5, evaluated where it fails: the index holds `a` with root 10, the
filesystem mounted on 10 is busy. The lookup returns `EBUSY` with no handle and
the index unchanged, but releases vnode 10 twice for the one hold it took (once
inside `traverse`, once on the error path), a net change of -1. -/
theorem C5_lookup_traverse_error_releases_twice :
    zfsctl_snapdir_lookup envBusy (cnOf "a") (stateOf [⟨"a", 10⟩]) =
        some (EBUSY, none,
          { stateOf [⟨"a", 10⟩] with
            trace := [Event.VN_HOLD 10, Event.VN_RELE 10, Event.VN_RELE 10] })
      ∧ ref_delta [Event.VN_HOLD 10, Event.VN_RELE 10, Event.VN_RELE 10] 10 = -1 := by
  decide

/-! ## The index: a search after an insertion -/

theorem strcmp_chars_self (a : List Char) : strcmp_chars a a = 0 := by
  induction a with
  | nil => rfl
  | cons c cs ih => simp [strcmp_chars, ih]

theorem snapentry_compare_same_name (nm : String) (x y : Vnode) :
    snapentry_compare ⟨nm, x⟩ ⟨nm, y⟩ = 0 := by
  simp [snapentry_compare, strcmp, strcmp_chars_self]

theorem avl_insert_length (tree : List SnapEntry) (sep : SnapEntry) (wh : Nat) :
    (avl_insert tree sep wh).length = tree.length + 1 := by
  simp only [avl_insert, List.length_append, List.length_cons, List.length_take,
    List.length_drop]
  omega

theorem avl_find_from_insert (search sep : SnapEntry) (hc : snapentry_compare search sep = 0) :
    ∀ (tree : List SnapEntry) (i wh : Nat),
      avl_find_from tree search i = (none, wh) →
      i ≤ wh ∧ avl_find_from (avl_insert tree sep (wh - i)) search i = (some sep, wh) := by
  intro tree
  induction tree with
  | nil =>
    intro i wh h
    simp only [avl_find_from, Prod.mk.injEq, true_and] at h
    subst h
    simp [avl_insert, avl_find_from, hc]
  | cons e rest ih =>
    intro i wh h
    simp only [avl_find_from] at h
    by_cases h0 : snapentry_compare search e = 0
    · simp [h0] at h
    · rw [if_neg h0] at h
      by_cases hlt : snapentry_compare search e < 0
      · rw [if_pos hlt] at h
        simp only [Prod.mk.injEq, true_and] at h
        subst h
        simp [avl_insert, avl_find_from, hc]
      · rw [if_neg hlt] at h
        obtain ⟨hle, hfound⟩ := ih (i + 1) wh h
        refine ⟨by omega, ?_⟩
        have hw : wh - i = (wh - (i + 1)) + 1 := by omega
        rw [hw]
        simp only [avl_insert, List.take_succ_cons, List.drop_succ_cons, List.cons_append,
          avl_find_from, if_neg h0, if_neg hlt]
        exact hfound

/-- A search for the name just inserted at the position the failed search
gave finds the new entry. -/
theorem avl_find_insert (tree : List SnapEntry) (nm : String) (x vp : Vnode) (wh : Nat)
    (h : avl_find tree ⟨nm, x⟩ = (none, wh)) :
    avl_find (avl_insert tree ⟨nm, vp⟩ wh) ⟨nm, x⟩ = (some ⟨nm, vp⟩, wh) := by
  have := (avl_find_from_insert ⟨nm, x⟩ ⟨nm, vp⟩ (snapentry_compare_same_name nm x vp)
    tree 0 wh h).2
  simpa [avl_find] using this

/-! ## The tail of the lookup from `domount` -/

theorem mount_calls_singleton_other (ev : Event)
    (h : ∀ vp mp sn, ev ≠ Event.mount_snapshot vp mp sn) : mount_calls [ev] = [] := by
  cases ev <;> simp_all [mount_calls]

/-- What `domount` leaves behind: the index it was given, the node table, and
one mount call on the FreeBSD build, none elsewhere. -/
theorem lookup_domount_frame (E : Env) (nm snapname : String) (vp : Vnode) (err : Int)
    (sd : zfsctl_snapdir) (snaps : List SnapEntry) (s : State) :
    (lookup_domount E nm snapname vp err sd snaps s).2.2.sdp
        = some { sd with sd_lock := false, sd_snaps := snaps }
      ∧ (lookup_domount E nm snapname vp err sd snaps s).2.2.nodes = s.nodes
      ∧ mount_calls (lookup_domount E nm snapname vp err sd snaps s).2.2.trace
          = mount_calls s.trace ++
              (if E.plat = Platform.freebsd
               then [Event.mount_snapshot vp (lookup_mountpoint E nm) snapname] else []) := by
  unfold lookup_domount
  cases hp : E.plat <;> simp only [reduceCtorEq, if_false, if_true] <;>
    split_ifs <;>
    simp [mount_calls_append, mount_calls_singleton_other, mount_calls]

/-- On the FreeBSD build `domount` returns what the mount returns: on error `e`
the error and no handle, on success 0 and the root the mount stored. -/
theorem lookup_domount_freebsd (E : Env) (nm snapname : String) (vp : Vnode) (err : Int)
    (sd : zfsctl_snapdir) (snaps : List SnapEntry) (s : State)
    (hp : E.plat = Platform.freebsd) :
    (lookup_domount E nm snapname vp err sd snaps s).1
        = (E.mount_snapshot vp (lookup_mountpoint E nm) snapname).1
      ∧ (lookup_domount E nm snapname vp err sd snaps s).2.1
        = (if (E.mount_snapshot vp (lookup_mountpoint E nm) snapname).1 ≠ 0 then none
           else some (E.mount_snapshot vp (lookup_mountpoint E nm) snapname).2) := by
  unfold lookup_domount
  simp only [hp]
  split_ifs <;> simp_all

/-- Off the FreeBSD build `domount` issues no mount: entered with error 0 it
returns 0 and the vnode it was entered with. -/
theorem lookup_domount_no_mount (E : Env) (nm snapname : String) (vp : Vnode)
    (sd : zfsctl_snapdir) (snaps : List SnapEntry) (s : State)
    (hp : E.plat ≠ Platform.freebsd) :
    (lookup_domount E nm snapname vp 0 sd snaps s).1 = 0
      ∧ (lookup_domount E nm snapname vp 0 sd snaps s).2.1 = some vp := by
  unfold lookup_domount
  cases h : E.plat <;> simp_all

/-! ## The lookup, path by path -/

theorem traverse_unmounted (E : Env) (v : Vnode) (tr : List Event)
    (h : E.vnode_mountedhere v = none) : traverse E v tr = some (0, v, tr) := by
  simp [traverse, traverse_loop, h]

theorem mount_calls_hold (vp : Vnode) : mount_calls [Event.VN_HOLD vp] = [] := rfl

theorem mount_calls_rele (vp : Vnode) : mount_calls [Event.VN_RELE vp] = [] := rfl

theorem lookup_found_frame (E : Env) (cnp : Componentname) (s : State) (sd : zfsctl_snapdir)
    (sep : SnapEntry) (wh : Nat)
    (hs : s.sdp = some sd)
    (hfind : avl_find sd.sd_snaps ⟨cn_nm cnp, 0⟩ = (some sep, wh))
    (r : Int × Option Vnode × State) (h : zfsctl_snapdir_lookup E cnp s = some r) :
    index_of r.2.2 = some sd.sd_snaps ∧ r.2.2.nodes = s.nodes
      ∧ (mount_calls r.2.2.trace = mount_calls s.trace
          ∨ mount_calls r.2.2.trace = mount_calls s.trace ++
              [Event.mount_snapshot sep.se_root (lookup_mountpoint E (cn_nm cnp))
                (zfsctl_snapshot_zname E (cn_nm cnp) MAXNAMELEN).2]) := by
  unfold zfsctl_snapdir_lookup at h
  simp only [hs, hfind] at h
  by_cases hres : cn_nm cnp = ".autodiskmounted"
  · simp only [if_pos hres, Option.some.injEq] at h
    subst h
    simp [index_of, hs]
  · simp only [if_neg hres] at h
    by_cases hl : sd.sd_lock = true
    · simp only [hl, if_true, Option.some.injEq] at h
      subst h
      simp [index_of, hs]
    · have hl2 : sd.sd_lock = false := by simpa using hl
      simp only [hl2, Bool.false_eq_true, if_false] at h
      cases hdot : E.gfs_lookup_dot (cn_nm cnp) with
      | some vp =>
        simp only [hdot, Option.some.injEq] at h
        subst h
        simp [index_of, hs]
      | none =>
        simp only [hdot] at h
        cases ht : traverse E sep.se_root (s.trace ++ [Event.VN_HOLD sep.se_root]) with
        | none => simp [ht] at h
        | some t =>
          obtain ⟨err, vp, tr⟩ := t
          have hmc := traverse_mount_calls E _ _ _ ht
          simp only [mount_calls_append, mount_calls_hold, List.append_nil] at hmc
          simp only [ht] at h
          by_cases he : err ≠ 0
          · simp only [if_pos he, Option.some.injEq] at h
            subst h
            simp [index_of, mount_calls_append, hmc, mount_calls_rele]
          · simp only [if_neg he] at h
            by_cases hv : vp = sep.se_root
            · simp only [if_pos hv] at h
              by_cases hz : (zfsctl_snapshot_zname E (cn_nm cnp) MAXNAMELEN).1 = 0
              · simp only [if_pos hz, Option.some.injEq] at h
                subst h
                obtain ⟨h1, h2, h3⟩ := lookup_domount_frame E (cn_nm cnp)
                  (zfsctl_snapshot_zname E (cn_nm cnp) MAXNAMELEN).2 vp err sd sd.sd_snaps
                  { s with trace := tr }
                simp only [hs] at h1 h2 h3
                refine ⟨by simp [index_of, h1], h2, ?_⟩
                rw [h3]
                simp only [hmc, hv]
                by_cases hp : E.plat = Platform.freebsd
                · right; simp [hp]
                · left; simp [hp]
              · simp [if_neg hz] at h
            · simp only [if_neg hv, Option.some.injEq] at h
              subst h
              simp [index_of, hmc]

/-- The lookup of a name the index holds, with nothing mounted on its node:
one hold, then the tail from `domount` on the entry's own node. -/
theorem lookup_found_unmounted (E : Env) (cnp : Componentname) (s : State)
    (sd : zfsctl_snapdir) (sep : SnapEntry) (wh : Nat)
    (hs : s.sdp = some sd) (hlock : sd.sd_lock = false)
    (hres : cn_nm cnp ≠ ".autodiskmounted")
    (hdot : E.gfs_lookup_dot (cn_nm cnp) = none)
    (hfind : avl_find sd.sd_snaps ⟨cn_nm cnp, 0⟩ = (some sep, wh))
    (hun : E.vnode_mountedhere sep.se_root = none)
    (hz : (zfsctl_snapshot_zname E (cn_nm cnp) MAXNAMELEN).1 = 0) :
    zfsctl_snapdir_lookup E cnp s =
      some (lookup_domount E (cn_nm cnp) (zfsctl_snapshot_zname E (cn_nm cnp) MAXNAMELEN).2
        sep.se_root 0 sd sd.sd_snaps
        { s with trace := s.trace ++ [Event.VN_HOLD sep.se_root] }) := by
  unfold zfsctl_snapdir_lookup
  simp only [hs, hfind, hlock, hdot, if_neg hres, Bool.false_eq_true, if_false,
    traverse_unmounted E _ _ hun, ne_eq, not_true_eq_false, if_true, hz]

/-- The lookup of a name the index does not hold, the dataset engine having
the snapshot: a node is made, the entry inserted where the search stopped, and
the tail from `domount` runs on the new node. -/
theorem lookup_new (E : Env) (cnp : Componentname) (s : State)
    (sd : zfsctl_snapdir) (wh objset : Nat)
    (hs : s.sdp = some sd) (hlock : sd.sd_lock = false)
    (hres : cn_nm cnp ≠ ".autodiskmounted")
    (hdot : E.gfs_lookup_dot (cn_nm cnp) = none)
    (hfind : avl_find sd.sd_snaps ⟨cn_nm cnp, 0⟩ = (none, wh))
    (hz : (zfsctl_snapshot_zname E (cn_nm cnp) MAXNAMELEN).1 = 0)
    (hsnap : E.dmu_objset_hold (zfsctl_snapshot_zname E (cn_nm cnp) MAXNAMELEN).2 = some objset) :
    zfsctl_snapdir_lookup E cnp s =
      some (lookup_domount E (cn_nm cnp) (zfsctl_snapshot_zname E (cn_nm cnp) MAXNAMELEN).2
        E.gfs_dir_create 0 sd
        (avl_insert sd.sd_snaps ⟨cn_nm cnp, E.gfs_dir_create⟩ wh)
        (zfsctl_snapshot_mknode E objset s).2) := by
  unfold zfsctl_snapdir_lookup
  simp only [hs, hfind, hlock, hdot, if_neg hres, Bool.false_eq_true, if_false, hz, ne_eq,
    not_true_eq_false, hsnap, zfsctl_snapshot_mknode]

theorem state_unlock_eq (s : State) (sd : zfsctl_snapdir) (hs : s.sdp = some sd)
    (hlock : sd.sd_lock = false) :
    ({ s with sdp := some { sd with sd_lock := false } } : State) = s := by
  cases s; cases sd
  simp_all

/-- Claim C9: a name of the index whose node is covered by a live mount
(traversal returns 0 and a handle other than the entry's node): the lookup
returns 0 with the traversed handle, issues no mount call and leaves the index
and the node table as they were. -/
theorem C9_lookup_mounted (E : Env) (cnp : Componentname) (s : State)
    (sd : zfsctl_snapdir) (sep : SnapEntry) (wh : Nat) (vp : Vnode) (tr : List Event)
    (hs : s.sdp = some sd) (hlock : sd.sd_lock = false)
    (hres : cn_nm cnp ≠ ".autodiskmounted")
    (hdot : E.gfs_lookup_dot (cn_nm cnp) = none)
    (hfind : avl_find sd.sd_snaps ⟨cn_nm cnp, 0⟩ = (some sep, wh))
    (htrav : traverse E sep.se_root (s.trace ++ [Event.VN_HOLD sep.se_root]) = some (0, vp, tr))
    (hne : vp ≠ sep.se_root) :
    zfsctl_snapdir_lookup E cnp s = some (0, some vp, { s with trace := tr })
      ∧ mount_calls tr = mount_calls s.trace
      ∧ index_of { s with trace := tr } = index_of s
      ∧ ({ s with trace := tr } : State).nodes = s.nodes := by
  refine ⟨?_, ?_, rfl, rfl⟩
  · unfold zfsctl_snapdir_lookup
    simp only [hs, hfind, hlock, hdot, if_neg hres, Bool.false_eq_true, if_false, htrav, ne_eq,
      not_true_eq_false, if_neg hne]
    cases sd
    simp_all
  · have := traverse_mount_calls E _ _ _ htrav
    simpa [mount_calls_append, mount_calls_hold] using this

theorem C9_lookup_mounted_witness :
    zfsctl_snapdir_lookup envMounted (cnOf "a") (stateOf [⟨"a", 10⟩]) =
      some (0, some 50,
        { stateOf [⟨"a", 10⟩] with trace := [Event.VN_HOLD 10, Event.VN_RELE 10] }) :=
  (C9_lookup_mounted envMounted (cnOf "a") (stateOf [⟨"a", 10⟩])
    { sd_node := { zc_id := 2, zc_cmtime := 0 }, sd_lock := false, sd_snaps := [⟨"a", 10⟩] }
    ⟨"a", 10⟩ 0 50 [Event.VN_HOLD 10, Event.VN_RELE 10]
    rfl rfl (by decide) rfl (by decide) (by decide) (by decide)).1

/-- Claim C8, refuted as stated: on the Apple build the lookup of the cached name
`a`, nothing being mounted on its node 10, returns 0 with node 10 itself and
issues no mount call at all. -/
theorem C8_counterexample :
    (avl_find [⟨"a", 10⟩] ⟨cn_nm (cnOf "a"), 0⟩).1 = some ⟨"a", 10⟩
      ∧ envIdle.vnode_mountedhere 10 = none
      ∧ zfsctl_snapdir_lookup envIdle (cnOf "a") (stateOf [⟨"a", 10⟩]) =
          some (0, some 10,
            { stateOf [⟨"a", 10⟩] with trace := [Event.VN_HOLD 10, Event.vnode_put 10] })
      ∧ mount_calls [Event.VN_HOLD 10, Event.vnode_put 10] = [] := by
  decide

/-- Claim C8, amended: a name of the index with nothing mounted on its node.
The lookup returns, and leaves the index and the node table as they were. On the
FreeBSD build it issues exactly one mount call, onto the entry's own node, and
returns what the mount returns; on the other builds the mount call is compiled
out, no mount call is issued and the lookup returns 0 with the entry's node. -/
theorem C8_lookup_unmounted (E : Env) (cnp : Componentname) (s : State)
    (sd : zfsctl_snapdir) (sep : SnapEntry) (wh : Nat)
    (hs : s.sdp = some sd) (hlock : sd.sd_lock = false)
    (hres : cn_nm cnp ≠ ".autodiskmounted")
    (hdot : E.gfs_lookup_dot (cn_nm cnp) = none)
    (hfind : avl_find sd.sd_snaps ⟨cn_nm cnp, 0⟩ = (some sep, wh))
    (hun : E.vnode_mountedhere sep.se_root = none)
    (hz : (zfsctl_snapshot_zname E (cn_nm cnp) MAXNAMELEN).1 = 0) :
    ∃ r, zfsctl_snapdir_lookup E cnp s = some r
      ∧ index_of r.2.2 = index_of s
      ∧ r.2.2.nodes = s.nodes
      ∧ mount_calls r.2.2.trace = mount_calls s.trace ++
          (if E.plat = Platform.freebsd
           then [Event.mount_snapshot sep.se_root (lookup_mountpoint E (cn_nm cnp))
                  (zfsctl_snapshot_zname E (cn_nm cnp) MAXNAMELEN).2]
           else [])
      ∧ (E.plat = Platform.freebsd →
          r.1 = (E.mount_snapshot sep.se_root (lookup_mountpoint E (cn_nm cnp))
                  (zfsctl_snapshot_zname E (cn_nm cnp) MAXNAMELEN).2).1)
      ∧ (E.plat ≠ Platform.freebsd → r.1 = 0 ∧ r.2.1 = some sep.se_root) := by
  refine ⟨_, lookup_found_unmounted E cnp s sd sep wh hs hlock hres hdot hfind hun hz, ?_⟩
  obtain ⟨h1, h2, h3⟩ := lookup_domount_frame E (cn_nm cnp)
    (zfsctl_snapshot_zname E (cn_nm cnp) MAXNAMELEN).2 sep.se_root 0 sd sd.sd_snaps
    { s with trace := s.trace ++ [Event.VN_HOLD sep.se_root] }
  refine ⟨?_, h2, ?_, ?_, ?_⟩
  · rw [index_of, h1]
    simp [index_of, hs]
  · rw [h3]
    simp [mount_calls_append, mount_calls_hold]
  · intro hp
    exact (lookup_domount_freebsd E _ _ _ _ _ _ _ hp).1
  · intro hp
    exact lookup_domount_no_mount E _ _ _ _ _ _ hp

theorem C8_lookup_unmounted_witness :
    ∃ r, zfsctl_snapdir_lookup envNightly (cnOf "a") (stateOf [⟨"a", 10⟩]) = some r
      ∧ mount_calls r.2.2.trace =
          [Event.mount_snapshot 10 "/tank/.zfs/snapshot/a" "tank@a"] := by
  obtain ⟨r, h, -, -, hm, -⟩ := C8_lookup_unmounted envNightly (cnOf "a")
    (stateOf [⟨"a", 10⟩])
    { sd_node := { zc_id := 2, zc_cmtime := 0 }, sd_lock := false, sd_snaps := [⟨"a", 10⟩] }
    ⟨"a", 10⟩ 0 rfl rfl (by decide) rfl (by decide) rfl (by decide)
  exact ⟨r, h, hm⟩

/-! ## The lookup of a name new to the index, and the failing mount -/

theorem zname_ok (E : Env) (name : String) (len : Nat)
    (hvalid : E.snapshot_namecheck name = 0)
    (hfit : strlen E.dmu_objset_name + 1 + strlen name < len) :
    zfsctl_snapshot_zname E name len = (0, E.dmu_objset_name ++ "@" ++ name) := by
  unfold zfsctl_snapshot_zname
  have h : ¬ (strlen E.dmu_objset_name + 1 + strlen name ≥ len) := by omega
  simp [hvalid, h]

/-- Claim C6: a name the index does not hold, the dataset engine having the
snapshot (object id `objset`) and the mount succeeding with root `r`. The lookup
returns 0 with `r`, the mounted root and not the new virtual node; it inserts
one entry keyed by the name, whose node has `zc_id` equal to `objset`; a search
for the name now finds that entry; the index is one longer and the directory's
link count is its length plus 2 (from the empty index: one entry, link count 3);
exactly one mount call was issued, onto the new node. -/
theorem C6_lookup_new_snapshot (E : Env) (cnp : Componentname) (s : State)
    (sd : zfsctl_snapdir) (wh objset : Nat) (r : Vnode)
    (hs : s.sdp = some sd) (hlock : sd.sd_lock = false)
    (hres : cn_nm cnp ≠ ".autodiskmounted")
    (hdot : E.gfs_lookup_dot (cn_nm cnp) = none)
    (hfind : avl_find sd.sd_snaps ⟨cn_nm cnp, 0⟩ = (none, wh))
    (hvalid : E.snapshot_namecheck (cn_nm cnp) = 0)
    (hfit : strlen E.dmu_objset_name + 1 + strlen (cn_nm cnp) < MAXNAMELEN)
    (hsnap : E.dmu_objset_hold (E.dmu_objset_name ++ "@" ++ cn_nm cnp) = some objset)
    (hplat : E.plat = Platform.freebsd)
    (hmount : E.mount_snapshot E.gfs_dir_create (lookup_mountpoint E (cn_nm cnp))
        (E.dmu_objset_name ++ "@" ++ cn_nm cnp) = (0, r))
    (hroot : r ≠ E.gfs_dir_create) :
    ∃ s1, zfsctl_snapdir_lookup E cnp s = some (0, some r, s1)
      ∧ some r ≠ some E.gfs_dir_create
      ∧ index_of s1 = some (avl_insert sd.sd_snaps ⟨cn_nm cnp, E.gfs_dir_create⟩ wh)
      ∧ avl_insert sd.sd_snaps ⟨cn_nm cnp, E.gfs_dir_create⟩ wh
          = sd.sd_snaps.take wh ++ ⟨cn_nm cnp, E.gfs_dir_create⟩ :: sd.sd_snaps.drop wh
      ∧ (avl_find (avl_insert sd.sd_snaps ⟨cn_nm cnp, E.gfs_dir_create⟩ wh) ⟨cn_nm cnp, 0⟩).1
          = some ⟨cn_nm cnp, E.gfs_dir_create⟩
      ∧ zc_id_of s1 E.gfs_dir_create = some objset
      ∧ avl_numnodes (avl_insert sd.sd_snaps ⟨cn_nm cnp, E.gfs_dir_create⟩ wh)
          = avl_numnodes sd.sd_snaps + 1
      ∧ (∀ vap, (zfsctl_snapdir_getattr E s1 vap).1 = 0
          ∧ (zfsctl_snapdir_getattr E s1 vap).2.va_nlink = avl_numnodes sd.sd_snaps + 3)
      ∧ (sd.sd_snaps = [] →
          index_of s1 = some [⟨cn_nm cnp, E.gfs_dir_create⟩]
          ∧ ∀ vap, (zfsctl_snapdir_getattr E s1 vap).2.va_nlink = 3)
      ∧ mount_calls s1.trace = mount_calls s.trace ++
          [Event.mount_snapshot E.gfs_dir_create (lookup_mountpoint E (cn_nm cnp))
            (E.dmu_objset_name ++ "@" ++ cn_nm cnp)] := by
  have hzn := zname_ok E (cn_nm cnp) MAXNAMELEN hvalid hfit
  have hz1 : (zfsctl_snapshot_zname E (cn_nm cnp) MAXNAMELEN).1 = 0 := by rw [hzn]
  have hz2 : (zfsctl_snapshot_zname E (cn_nm cnp) MAXNAMELEN).2
      = E.dmu_objset_name ++ "@" ++ cn_nm cnp := by rw [hzn]
  have hl := lookup_new E cnp s sd wh objset hs hlock hres hdot hfind hz1 (by rw [hz2]; exact hsnap)
  rw [hz2] at hl
  obtain ⟨h1, h2, h3⟩ := lookup_domount_frame E (cn_nm cnp)
    (E.dmu_objset_name ++ "@" ++ cn_nm cnp) E.gfs_dir_create 0 sd
    (avl_insert sd.sd_snaps ⟨cn_nm cnp, E.gfs_dir_create⟩ wh)
    (zfsctl_snapshot_mknode E objset s).2
  obtain ⟨h4, h5⟩ := lookup_domount_freebsd E (cn_nm cnp)
    (E.dmu_objset_name ++ "@" ++ cn_nm cnp) E.gfs_dir_create 0 sd
    (avl_insert sd.sd_snaps ⟨cn_nm cnp, E.gfs_dir_create⟩ wh)
    (zfsctl_snapshot_mknode E objset s).2 hplat
  rw [hmount] at h4 h5
  simp only [ne_eq, not_true_eq_false, if_false] at h5
  generalize hd : lookup_domount E (cn_nm cnp) (E.dmu_objset_name ++ "@" ++ cn_nm cnp)
    E.gfs_dir_create 0 sd (avl_insert sd.sd_snaps ⟨cn_nm cnp, E.gfs_dir_create⟩ wh)
    (zfsctl_snapshot_mknode E objset s).2 = d at hl h1 h2 h3 h4 h5
  obtain ⟨e, v, s1⟩ := d
  simp only at h1 h2 h3 h4 h5
  subst h4 h5
  have hlen : avl_numnodes (avl_insert sd.sd_snaps ⟨cn_nm cnp, E.gfs_dir_create⟩ wh)
      = avl_numnodes sd.sd_snaps + 1 := avl_insert_length _ _ _
  have hattr : ∀ vap, (zfsctl_snapdir_getattr E s1 vap).1 = 0
      ∧ (zfsctl_snapdir_getattr E s1 vap).2.va_nlink = avl_numnodes sd.sd_snaps + 3 := by
    intro vap
    simp only [zfsctl_snapdir_getattr, h1, hlen]
    exact ⟨trivial, trivial⟩
  refine ⟨s1, hl, ?_, ?_, rfl, ?_, ?_, hlen, hattr, ?_, ?_⟩
  · simpa using hroot
  · simp [index_of, h1]
  · rw [avl_find_insert _ _ _ _ _ hfind]
  · simp [zc_id_of, h2, zfsctl_snapshot_mknode]
  · intro hempty
    have hwh : wh = 0 := by
      rw [hempty] at hfind
      simp [avl_find, avl_find_from] at hfind
      omega
    refine ⟨?_, ?_⟩
    · simp [index_of, h1, hempty, hwh, avl_insert]
    · intro vap
      rw [(hattr vap).2, hempty]
      rfl
  · rw [h3]
    simp [hplat, zfsctl_snapshot_mknode, mount_calls_append, mount_calls]

theorem C6_lookup_new_snapshot_witness :
    (zfsctl_snapdir_lookup envNightly (cnOf "nightly") (stateOf [])).map
        (fun r => (r.1, r.2.1, index_of r.2.2, zc_id_of r.2.2 100))
      = some (0, some 500, some [⟨"nightly", 100⟩], some 77) := by
  obtain ⟨s1, h, -, hi, -, -, hid, -⟩ := C6_lookup_new_snapshot envNightly (cnOf "nightly")
    (stateOf [])
    { sd_node := { zc_id := 2, zc_cmtime := 0 }, sd_lock := false, sd_snaps := [] }
    0 77 500 rfl rfl (by decide) rfl (by decide) rfl (by decide) (by decide) rfl rfl
    (by decide)
  rw [h]
  simp only [Option.map_some']
  rw [hi]
  have hid2 : zc_id_of s1 100 = some 77 := hid
  rw [hid2]
  decide

set_option maxRecDepth 20000 in
/-- Claim C7, refuted as stated: the 251-letter name passes the validator, is
not in the (empty) index and has no snapshot in the dataset engine, yet the
lookup returns `ENAMETOOLONG`, not `ENOENT`: the composed dataset name does not
fit `MAXNAMELEN`. -/
theorem C7_counterexample :
    envIdle.snapshot_namecheck (cn_nm (cnOf longName)) = 0
      ∧ (avl_find [] ⟨cn_nm (cnOf longName), 0⟩).1 = none
      ∧ envIdle.dmu_objset_hold (envIdle.dmu_objset_name ++ "@" ++ cn_nm (cnOf longName)) = none
      ∧ zfsctl_snapdir_lookup envIdle (cnOf longName) (stateOf [])
          = some (ENAMETOOLONG, none, stateOf [])
      ∧ ENAMETOOLONG ≠ ENOENT := by
  decide

/-- Claim C7, amended: a name that passes the validator and whose composed
dataset name fits `MAXNAMELEN`, that the index does not hold and for which the
dataset engine has no snapshot. The lookup returns `ENOENT`, or `EJUSTRETURN`
when the operation is a create on the last path component, with no handle, and
leaves the whole state, the index included, as it was. -/
theorem C7_lookup_missing (E : Env) (cnp : Componentname) (s : State)
    (sd : zfsctl_snapdir) (wh : Nat)
    (hs : s.sdp = some sd) (hlock : sd.sd_lock = false)
    (hres : cn_nm cnp ≠ ".autodiskmounted")
    (hdot : E.gfs_lookup_dot (cn_nm cnp) = none)
    (hfind : avl_find sd.sd_snaps ⟨cn_nm cnp, 0⟩ = (none, wh))
    (hvalid : E.snapshot_namecheck (cn_nm cnp) = 0)
    (hfit : strlen E.dmu_objset_name + 1 + strlen (cn_nm cnp) < MAXNAMELEN)
    (hsnap : E.dmu_objset_hold (E.dmu_objset_name ++ "@" ++ cn_nm cnp) = none) :
    zfsctl_snapdir_lookup E cnp s =
        some (if cnp.cn_flags &&& ISLASTCN ≠ 0 ∧ cnp.cn_nameiop = CREATE
              then EJUSTRETURN else ENOENT, none, s)
      ∧ (¬ (cnp.cn_flags &&& ISLASTCN ≠ 0 ∧ cnp.cn_nameiop = CREATE) →
          zfsctl_snapdir_lookup E cnp s = some (ENOENT, none, s))
      ∧ (cnp.cn_flags &&& ISLASTCN ≠ 0 ∧ cnp.cn_nameiop = CREATE →
          zfsctl_snapdir_lookup E cnp s = some (EJUSTRETURN, none, s)) := by
  have hzn := zname_ok E (cn_nm cnp) MAXNAMELEN hvalid hfit
  have hmain : zfsctl_snapdir_lookup E cnp s =
      some (if cnp.cn_flags &&& ISLASTCN ≠ 0 ∧ cnp.cn_nameiop = CREATE
            then EJUSTRETURN else ENOENT, none, s) := by
    unfold zfsctl_snapdir_lookup
    simp only [hs, hfind, hlock, hdot, if_neg hres, Bool.false_eq_true, if_false, hzn, ne_eq,
      not_true_eq_false, hsnap]
    have := state_unlock_eq s sd hs hlock
    simp only [hlock] at this
    rw [this]
  refine ⟨hmain, ?_, ?_⟩
  · intro h
    rw [hmain, if_neg h]
  · intro h
    rw [hmain, if_pos h]

theorem C7_lookup_missing_witness :
    zfsctl_snapdir_lookup envIdle (cnOf "missing") (stateOf [])
      = some (ENOENT, none, stateOf []) :=
  (C7_lookup_missing envIdle (cnOf "missing") (stateOf [])
    { sd_node := { zc_id := 2, zc_cmtime := 0 }, sd_lock := false, sd_snaps := [] }
    0 rfl rfl (by decide) rfl (by decide) rfl (by decide) rfl).2.1 (by decide)

/-- The tail from `domount` on the FreeBSD build when the mount fails with `e`:
the error is returned with no handle, the index given is kept, one mount call
was issued. -/
theorem lookup_domount_fail (E : Env) (nm snapname : String) (vp : Vnode) (err : Int)
    (sd : zfsctl_snapdir) (snaps : List SnapEntry) (s : State) (e : Int)
    (hp : E.plat = Platform.freebsd)
    (hm : (E.mount_snapshot vp (lookup_mountpoint E nm) snapname).1 = e) (he : e ≠ 0) :
    ∃ s1, lookup_domount E nm snapname vp err sd snaps s = (e, none, s1)
      ∧ s1.sdp = some { sd with sd_lock := false, sd_snaps := snaps }
      ∧ s1.nodes = s.nodes
      ∧ mount_calls s1.trace = mount_calls s.trace ++
          [Event.mount_snapshot vp (lookup_mountpoint E nm) snapname] := by
  obtain ⟨h1, h2, h3⟩ := lookup_domount_frame E nm snapname vp err sd snaps s
  obtain ⟨h4, h5⟩ := lookup_domount_freebsd E nm snapname vp err sd snaps s hp
  rw [hm] at h4 h5
  rw [if_pos he] at h5
  rw [if_pos hp] at h3
  generalize lookup_domount E nm snapname vp err sd snaps s = d at h1 h2 h3 h4 h5
  obtain ⟨e1, v1, s1⟩ := d
  simp only at h1 h2 h3 h4 h5
  subst h4 h5
  exact ⟨s1, rfl, h1, h2, h3⟩

/-- Claim C10: the lookup reaches the automount, for a name new to the index
(the dataset engine having the snapshot) or for a cached name with nothing
mounted on its node, and the mount fails with `e`. The lookup returns `e` with
no handle and a search of the index finds the entry for the name. Whatever a
later lookup of the name meets, it leaves the index and the node table as they
are; and when the world is unchanged the second lookup returns `e` again after
one mount call onto the same node, without inserting another entry. -/
theorem C10_lookup_mount_fails (E : Env) (cnp : Componentname) (s : State)
    (sd : zfsctl_snapdir) (wh : Nat) (entry : SnapEntry) (e : Int)
    (hs : s.sdp = some sd) (hlock : sd.sd_lock = false)
    (hres : cn_nm cnp ≠ ".autodiskmounted")
    (hdot : E.gfs_lookup_dot (cn_nm cnp) = none)
    (hvalid : E.snapshot_namecheck (cn_nm cnp) = 0)
    (hfit : strlen E.dmu_objset_name + 1 + strlen (cn_nm cnp) < MAXNAMELEN)
    (hreach :
      (avl_find sd.sd_snaps ⟨cn_nm cnp, 0⟩ = (none, wh)
        ∧ (∃ objset, E.dmu_objset_hold (E.dmu_objset_name ++ "@" ++ cn_nm cnp) = some objset)
        ∧ entry = ⟨cn_nm cnp, E.gfs_dir_create⟩)
      ∨ avl_find sd.sd_snaps ⟨cn_nm cnp, 0⟩ = (some entry, wh))
    (hun : E.vnode_mountedhere entry.se_root = none)
    (hplat : E.plat = Platform.freebsd)
    (hmount : (E.mount_snapshot entry.se_root (lookup_mountpoint E (cn_nm cnp))
        (E.dmu_objset_name ++ "@" ++ cn_nm cnp)).1 = e)
    (he : e ≠ 0) :
    ∃ s1, zfsctl_snapdir_lookup E cnp s = some (e, none, s1)
      ∧ (∃ idx, index_of s1 = some idx ∧ (avl_find idx ⟨cn_nm cnp, 0⟩).1 = some entry)
      ∧ (∀ E2 r, zfsctl_snapdir_lookup E2 cnp s1 = some r →
          index_of r.2.2 = index_of s1 ∧ r.2.2.nodes = s1.nodes)
      ∧ (∃ s2, zfsctl_snapdir_lookup E cnp s1 = some (e, none, s2)
          ∧ index_of s2 = index_of s1 ∧ s2.nodes = s1.nodes
          ∧ mount_calls s2.trace = mount_calls s1.trace ++
              [Event.mount_snapshot entry.se_root (lookup_mountpoint E (cn_nm cnp))
                (E.dmu_objset_name ++ "@" ++ cn_nm cnp)]) := by
  have hzn := zname_ok E (cn_nm cnp) MAXNAMELEN hvalid hfit
  have hz1 : (zfsctl_snapshot_zname E (cn_nm cnp) MAXNAMELEN).1 = 0 := by rw [hzn]
  have hz2 : (zfsctl_snapshot_zname E (cn_nm cnp) MAXNAMELEN).2
      = E.dmu_objset_name ++ "@" ++ cn_nm cnp := by rw [hzn]
  have key : ∃ s1 idx, zfsctl_snapdir_lookup E cnp s = some (e, none, s1)
      ∧ s1.sdp = some { sd with sd_lock := false, sd_snaps := idx }
      ∧ avl_find idx ⟨cn_nm cnp, 0⟩ = (some entry, wh) := by
    rcases hreach with ⟨hfind, ⟨objset, hsnap⟩, hentry⟩ | hfind
    · subst hentry
      have hl := lookup_new E cnp s sd wh objset hs hlock hres hdot hfind hz1
        (by rw [hz2]; exact hsnap)
      rw [hz2] at hl
      obtain ⟨s1, hd, h1, -, -⟩ := lookup_domount_fail E (cn_nm cnp)
        (E.dmu_objset_name ++ "@" ++ cn_nm cnp) E.gfs_dir_create 0 sd
        (avl_insert sd.sd_snaps ⟨cn_nm cnp, E.gfs_dir_create⟩ wh)
        (zfsctl_snapshot_mknode E objset s).2 e hplat hmount he
      rw [hd] at hl
      exact ⟨s1, _, hl, h1, avl_find_insert _ _ _ _ _ hfind⟩
    · have hl := lookup_found_unmounted E cnp s sd entry wh hs hlock hres hdot hfind hun hz1
      rw [hz2] at hl
      obtain ⟨s1, hd, h1, -, -⟩ := lookup_domount_fail E (cn_nm cnp)
        (E.dmu_objset_name ++ "@" ++ cn_nm cnp) entry.se_root 0 sd sd.sd_snaps
        { s with trace := s.trace ++ [Event.VN_HOLD entry.se_root] } e hplat hmount he
      rw [hd] at hl
      exact ⟨s1, _, hl, h1, hfind⟩
  obtain ⟨s1, idx, hl1, hsd1, hfind1⟩ := key
  refine ⟨s1, hl1, ⟨idx, by simp [index_of, hsd1], by rw [hfind1]⟩, ?_, ?_⟩
  · intro E2 r hr
    obtain ⟨hi, hn, -⟩ := lookup_found_frame E2 cnp s1 _ entry wh hsd1 hfind1 r hr
    exact ⟨by rw [hi]; simp [index_of, hsd1], hn⟩
  · have hl2 := lookup_found_unmounted E cnp s1 _ entry wh hsd1 rfl hres hdot hfind1 hun hz1
    rw [hz2] at hl2
    obtain ⟨s2, hd, h1, h2, h3⟩ := lookup_domount_fail E (cn_nm cnp)
      (E.dmu_objset_name ++ "@" ++ cn_nm cnp) entry.se_root 0
      { sd with sd_lock := false, sd_snaps := idx } idx
      { s1 with trace := s1.trace ++ [Event.VN_HOLD entry.se_root] } e hplat hmount he
    rw [hd] at hl2
    refine ⟨s2, hl2, by simp [index_of, h1, hsd1], h2, ?_⟩
    rw [h3]
    simp [mount_calls_append, mount_calls_hold]

theorem C10_lookup_mount_fails_witness :
    ∃ s1, zfsctl_snapdir_lookup envNightlyFail (cnOf "nightly") (stateOf [])
        = some (EBUSY, none, s1)
      ∧ ∃ idx, index_of s1 = some idx
          ∧ (avl_find idx ⟨"nightly", 0⟩).1 = some ⟨"nightly", 100⟩ := by
  obtain ⟨s1, h, ⟨idx, hi, hf⟩, -⟩ := C10_lookup_mount_fails envNightlyFail (cnOf "nightly")
    (stateOf [])
    { sd_node := { zc_id := 2, zc_cmtime := 0 }, sd_lock := false, sd_snaps := [] }
    0 ⟨"nightly", 100⟩ EBUSY rfl rfl (by decide) rfl rfl (by decide)
    (Or.inl ⟨by decide, ⟨77, by decide⟩, by decide⟩) rfl rfl rfl (by decide)
  exact ⟨s1, h, idx, hi, hf⟩

/-! ## The order on names and the sorted index -/

theorem strcmp_chars_antisymm : ∀ (a b : List Char), strcmp_chars b a = - strcmp_chars a b
  | [], [] => by simp [strcmp_chars]
  | [], b :: _ => by simp [strcmp_chars]
  | a :: _, [] => by simp [strcmp_chars]
  | a :: as, b :: bs => by
    by_cases h : a = b
    · subst h
      simp [strcmp_chars, strcmp_chars_antisymm as bs]
    · have h2 : ¬ b = a := fun e => h e.symm
      simp [strcmp_chars, h, h2]

theorem char_toNat_ne {a b : Char} (h : a ≠ b) : (a.toNat : Int) ≠ (b.toNat : Int) := by
  intro e
  apply h
  have e2 : a.toNat = b.toNat := by exact_mod_cast e
  exact Char.ext (UInt32.ext (by simpa [Char.toNat, UInt32.toNat] using e2))

theorem strcmp_chars_trans : ∀ (a b c : List Char),
    strcmp_chars a b < 0 → strcmp_chars b c < 0 → strcmp_chars a c < 0
  | [], [], _ => by simp [strcmp_chars]
  | [], _ :: _, [] => by
    intro _ h
    simp only [strcmp_chars] at h
    omega
  | [], y :: _, z :: _ => by
    intro h1 h2
    simp only [strcmp_chars] at h1 h2 ⊢
    by_cases hyz : y = z
    · subst hyz; exact h1
    · rw [if_neg hyz] at h2
      omega
  | x :: _, [], _ => by
    intro h
    simp only [strcmp_chars] at h
    omega
  | x :: _, y :: _, [] => by
    intro _ h
    simp only [strcmp_chars] at h
    omega
  | x :: as, y :: bs, z :: cs => by
    intro h1 h2
    simp only [strcmp_chars] at h1 h2 ⊢
    by_cases hxy : x = y
    · subst hxy
      rw [if_pos rfl] at h1
      by_cases hxz : x = z
      · subst hxz
        rw [if_pos rfl] at h2 ⊢
        exact strcmp_chars_trans as bs cs h1 h2
      · rw [if_neg hxz] at h2 ⊢
        exact h2
    · rw [if_neg hxy] at h1
      by_cases hyz : y = z
      · subst hyz
        rw [if_neg hxy]
        exact h1
      · rw [if_neg hyz] at h2
        by_cases hxz : x = z
        · subst hxz
          omega
        · rw [if_neg hxz]
          omega

theorem strcmp_antisymm (a b : String) : strcmp b a = - strcmp a b :=
  strcmp_chars_antisymm _ _

theorem strcmp_trans (a b c : String) (h1 : strcmp a b < 0) (h2 : strcmp b c < 0) :
    strcmp a c < 0 :=
  strcmp_chars_trans _ _ _ h1 h2

theorem strcmp_self (a : String) : strcmp a a = 0 := strcmp_chars_self _

theorem snapentry_compare_eq_zero (sa sb : SnapEntry) :
    snapentry_compare sa sb = 0 ↔ strcmp sa.se_name sb.se_name = 0 := by
  unfold snapentry_compare
  simp only
  split_ifs with h1 h2
  · simp only [Int.reduceNeg, neg_eq_zero, one_ne_zero, false_iff]
    omega
  · simp only [one_ne_zero, false_iff]
    omega
  · simp only [true_iff]
    omega

theorem snapentry_compare_neg (sa sb : SnapEntry) :
    snapentry_compare sa sb < 0 ↔ strcmp sa.se_name sb.se_name < 0 := by
  unfold snapentry_compare
  simp only
  split_ifs with h1 h2
  · simp [h1]
  · constructor <;> intro h <;> omega
  · constructor <;> intro h <;> omega

/-- The search reads the name of the searched value only. -/
theorem avl_find_from_root_irrel (nm : String) (x y : Vnode) :
    ∀ (l : List SnapEntry) (i : Nat),
      avl_find_from l ⟨nm, x⟩ i = avl_find_from l ⟨nm, y⟩ i := by
  intro l
  induction l with
  | nil => intro i; rfl
  | cons e rest ih =>
    intro i
    have hc : snapentry_compare ⟨nm, x⟩ e = snapentry_compare ⟨nm, y⟩ e := rfl
    simp only [avl_find_from, hc, ih]

theorem avl_find_root_irrel (nm : String) (x y : Vnode) (l : List SnapEntry) :
    avl_find l ⟨nm, x⟩ = avl_find l ⟨nm, y⟩ :=
  avl_find_from_root_irrel nm x y l 0

/-- What the search returns is an entry of the index that compares equal. -/
theorem avl_find_from_some (search e : SnapEntry) :
    ∀ (l : List SnapEntry) (i w : Nat),
      avl_find_from l search i = (some e, w) → e ∈ l ∧ snapentry_compare search e = 0 := by
  intro l
  induction l with
  | nil => intro i w h; simp [avl_find_from] at h
  | cons x rest ih =>
    intro i w h
    simp only [avl_find_from] at h
    by_cases h0 : snapentry_compare search x = 0
    · rw [if_pos h0] at h
      simp only [Prod.mk.injEq, Option.some.injEq] at h
      obtain ⟨rfl, -⟩ := h
      exact ⟨List.mem_cons_self _ _, h0⟩
    · rw [if_neg h0] at h
      by_cases hlt : snapentry_compare search x < 0
      · rw [if_pos hlt] at h
        simp at h
      · rw [if_neg hlt] at h
        obtain ⟨hm, hc⟩ := ih _ _ h
        exact ⟨List.mem_cons_of_mem _ hm, hc⟩

/-- When no entry compares equal, the search finds nothing. -/
theorem avl_find_from_none_of_ne (search : SnapEntry) :
    ∀ (l : List SnapEntry) (i : Nat),
      (∀ e ∈ l, snapentry_compare search e ≠ 0) → (avl_find_from l search i).1 = none := by
  intro l
  induction l with
  | nil => intro i _; rfl
  | cons x rest ih =>
    intro i h
    simp only [avl_find_from]
    rw [if_neg (h x (List.mem_cons_self _ _))]
    by_cases hlt : snapentry_compare search x < 0
    · rw [if_pos hlt]
    · rw [if_neg hlt]
      exact ih _ (fun e he => h e (List.mem_cons_of_mem _ he))

/-- On a sorted index a search that finds nothing means that no entry
compares equal. -/
theorem avl_find_from_none_sorted (search : SnapEntry) :
    ∀ (l : List SnapEntry) (i : Nat),
      IndexSorted l → (avl_find_from l search i).1 = none →
      ∀ e ∈ l, snapentry_compare search e ≠ 0 := by
  intro l
  induction l with
  | nil => intro i _ _ e he; simp at he
  | cons x rest ih =>
    intro i hs h e he
    simp only [avl_find_from] at h
    have hs2 := List.pairwise_cons.mp hs
    by_cases h0 : snapentry_compare search x = 0
    · rw [if_pos h0] at h
      simp at h
    · rw [if_neg h0] at h
      rcases List.mem_cons.mp he with rfl | hmem
      · exact h0
      · by_cases hlt : snapentry_compare search x < 0
        · have h1 := (snapentry_compare_neg _ _).mp hlt
          have h2 := hs2.1 e hmem
          have h3 := strcmp_trans _ _ _ h1 h2
          intro hc
          have := (snapentry_compare_eq_zero _ _).mp hc
          omega
        · rw [if_neg hlt] at h
          exact ih _ hs2.2 h e hmem

theorem indexSorted_remove (l : List SnapEntry) (sep : SnapEntry) (hs : IndexSorted l) :
    IndexSorted (avl_remove l sep) :=
  List.Pairwise.sublist (List.erase_sublist sep l) hs

theorem mem_avl_insert (l : List SnapEntry) (e x : SnapEntry) (k : Nat)
    (h : x ∈ avl_insert l e k) : x = e ∨ x ∈ l := by
  simp only [avl_insert, List.mem_append, List.mem_cons] at h
  rcases h with h | h | h
  · exact Or.inr (List.mem_of_mem_take h)
  · exact Or.inl h
  · exact Or.inr (List.mem_of_mem_drop h)

/-- Inserting at the position a failed search reports keeps the index sorted. -/
theorem indexSorted_insert_from (search new : SnapEntry) (hname : new.se_name = search.se_name) :
    ∀ (l : List SnapEntry) (i w : Nat),
      IndexSorted l → avl_find_from l search i = (none, w) →
      IndexSorted (avl_insert l new (w - i)) := by
  intro l
  induction l with
  | nil =>
    intro i w _ h
    simp [avl_insert, IndexSorted]
  | cons x rest ih =>
    intro i w hs h
    simp only [avl_find_from] at h
    have hs2 := List.pairwise_cons.mp hs
    by_cases h0 : snapentry_compare search x = 0
    · rw [if_pos h0] at h
      simp at h
    · rw [if_neg h0] at h
      by_cases hlt : snapentry_compare search x < 0
      · rw [if_pos hlt] at h
        simp only [Prod.mk.injEq, true_and] at h
        subst h
        have h1 : strcmp new.se_name x.se_name < 0 := by
          rw [hname]; exact (snapentry_compare_neg _ _).mp hlt
        simp only [Nat.sub_self, avl_insert, List.take_zero, List.drop_zero, List.nil_append]
        refine List.pairwise_cons.mpr ⟨?_, hs⟩
        intro e he
        rcases List.mem_cons.mp he with rfl | hmem
        · exact h1
        · exact strcmp_trans _ _ _ h1 (hs2.1 e hmem)
      · rw [if_neg hlt] at h
        have hle : i + 1 ≤ w := (avl_find_from_insert search search
          ((snapentry_compare_eq_zero _ _).mpr (strcmp_self _)) rest (i + 1) w h).1
        have hrec := ih (i + 1) w hs2.2 h
        have hw : w - i = (w - (i + 1)) + 1 := by omega
        rw [hw]
        simp only [avl_insert, List.take_succ_cons, List.drop_succ_cons, List.cons_append]
        refine List.pairwise_cons.mpr ⟨?_, hrec⟩
        intro e he
        rcases mem_avl_insert _ _ _ _ he with rfl | hmem
        · have hgt : strcmp search.se_name x.se_name > 0 := by
            have a1 := mt (snapentry_compare_neg search x).mpr hlt
            have a2 := mt (snapentry_compare_eq_zero search x).mpr h0
            omega
          rw [hname, strcmp_antisymm]
          omega
        · exact hs2.1 e hmem

theorem indexSorted_insert (search new : SnapEntry) (hname : new.se_name = search.se_name)
    (l : List SnapEntry) (w : Nat) (hs : IndexSorted l)
    (h : avl_find l search = (none, w)) : IndexSorted (avl_insert l new w) := by
  have := indexSorted_insert_from search new hname l 0 w hs h
  simpa using this

/-- Taking an entry out of a sorted index and searching for it gives the
position at which inserting it restores the index. -/
theorem avl_reinsert_from (sep : SnapEntry) :
    ∀ (l : List SnapEntry) (i : Nat), IndexSorted l → sep ∈ l →
      ∃ k, avl_find_from (avl_remove l sep) sep i = (none, i + k)
        ∧ avl_insert (avl_remove l sep) sep k = l := by
  intro l
  induction l with
  | nil => intro i _ h; simp at h
  | cons x rest ih =>
    intro i hs hmem
    have hs2 := List.pairwise_cons.mp hs
    by_cases hx : x = sep
    · subst hx
      refine ⟨0, ?_, ?_⟩
      · simp only [avl_remove, List.erase_cons_head, Nat.add_zero]
        cases rest with
        | nil => rfl
        | cons y ys =>
          have hlt : snapentry_compare x y < 0 :=
            (snapentry_compare_neg _ _).mpr (hs2.1 y (List.mem_cons_self _ _))
          have h0 : ¬ snapentry_compare x y = 0 := by omega
          simp only [avl_find_from, if_neg h0, if_pos hlt]
      · simp [avl_remove, avl_insert]
    · have hmem2 : sep ∈ rest := by
        rcases List.mem_cons.mp hmem with h | h
        · exact absurd h.symm hx
        · exact h
      obtain ⟨k, hk1, hk2⟩ := ih (i + 1) hs2.2 hmem2
      refine ⟨k + 1, ?_, ?_⟩
      · have hlt : strcmp x.se_name sep.se_name < 0 := hs2.1 sep hmem2
        have hgt : strcmp sep.se_name x.se_name > 0 := by
          rw [strcmp_antisymm]; omega
        have h0 : ¬ snapentry_compare sep x = 0 := by
          intro h; have := (snapentry_compare_eq_zero _ _).mp h; omega
        have h1 : ¬ snapentry_compare sep x < 0 := by
          intro h; have := (snapentry_compare_neg _ _).mp h; omega
        have her : avl_remove (x :: rest) sep = x :: avl_remove rest sep := by
          simp [avl_remove, List.erase_cons, hx]
        rw [her]
        simp only [avl_find_from, if_neg h0, if_neg h1]
        rw [hk1]
        simp only [Prod.mk.injEq, true_and]
        omega
      · have her : avl_remove (x :: rest) sep = x :: avl_remove rest sep := by
          simp [avl_remove, List.erase_cons, hx]
        rw [her]
        simp only [avl_insert, List.take_succ_cons, List.drop_succ_cons, List.cons_append]
        simp only [avl_insert] at hk2
        rw [hk2]

theorem avl_reinsert (sep : SnapEntry) (l : List SnapEntry) (hs : IndexSorted l)
    (hmem : sep ∈ l) :
    ∃ k, avl_find (avl_remove l sep) sep = (none, k)
      ∧ avl_insert (avl_remove l sep) sep k = l := by
  obtain ⟨k, h1, h2⟩ := avl_reinsert_from sep l 0 hs hmem
  exact ⟨k, by simpa [avl_find] using h1, h2⟩

/-- Removing an entry just inserted into an index that did not hold it gives
the index back. -/
theorem avl_remove_insert (l : List SnapEntry) (e : SnapEntry) (k : Nat) (h : e ∉ l) :
    avl_remove (avl_insert l e k) e = l := by
  have h1 : e ∉ l.take k := fun hm => h (List.mem_of_mem_take hm)
  simp only [avl_remove, avl_insert]
  rw [List.erase_append_right _ h1, List.erase_cons_head, List.take_append_drop]

/-! ## The lookup of a name that does not compose -/

/-- Claim C11: a name the index does not hold. When the name fails the
validator the lookup returns `ENOENT`, not `EILSEQ`, whether or not the lock is
held; when it passes but the composed dataset name does not fit `MAXNAMELEN`
the lookup returns `ENAMETOOLONG` as it is. In both cases there is no handle
and the state, the index included, is as it was. -/
theorem C11_lookup_invalid_name (E : Env) (cnp : Componentname) (s : State)
    (sd : zfsctl_snapdir) (wh : Nat)
    (hs : s.sdp = some sd)
    (hres : cn_nm cnp ≠ ".autodiskmounted")
    (hdot : E.gfs_lookup_dot (cn_nm cnp) = none)
    (hfind : avl_find sd.sd_snaps ⟨cn_nm cnp, 0⟩ = (none, wh)) :
    (E.snapshot_namecheck (cn_nm cnp) ≠ 0 →
        (zfsctl_snapshot_zname E (cn_nm cnp) MAXNAMELEN).1 = EILSEQ
        ∧ zfsctl_snapdir_lookup E cnp s = some (ENOENT, none, s))
      ∧ (sd.sd_lock = false → E.snapshot_namecheck (cn_nm cnp) = 0 →
          strlen E.dmu_objset_name + 1 + strlen (cn_nm cnp) ≥ MAXNAMELEN →
          (zfsctl_snapshot_zname E (cn_nm cnp) MAXNAMELEN).1 = ENAMETOOLONG
          ∧ zfsctl_snapdir_lookup E cnp s = some (ENAMETOOLONG, none, s))
      ∧ ENOENT ≠ EILSEQ := by
  refine ⟨?_, ?_, by decide⟩
  · intro hbad
    have hz : zfsctl_snapshot_zname E (cn_nm cnp) MAXNAMELEN = (EILSEQ, "") := by
      simp [zfsctl_snapshot_zname, hbad]
    refine ⟨by rw [hz], ?_⟩
    cases hl : sd.sd_lock with
    | true =>
      unfold zfsctl_snapdir_lookup
      simp only [hs, hl, if_neg hres, if_true]
    | false =>
      have hst := state_unlock_eq s sd hs hl
      simp only [hl] at hst
      unfold zfsctl_snapdir_lookup
      simp only [hs, hfind, hl, hdot, if_neg hres, Bool.false_eq_true, if_false, hz]
      rw [hst]
      simp [EILSEQ]
  · intro hlock hok hlong
    have hst := state_unlock_eq s sd hs hlock
    simp only [hlock] at hst
    have hz : zfsctl_snapshot_zname E (cn_nm cnp) MAXNAMELEN
        = (ENAMETOOLONG, E.dmu_objset_name) := by
      simp [zfsctl_snapshot_zname, hok, hlong]
    refine ⟨by rw [hz], ?_⟩
    unfold zfsctl_snapdir_lookup
    simp only [hs, hfind, hlock, hdot, if_neg hres, Bool.false_eq_true, if_false, hz]
    rw [hst]
    simp [ENAMETOOLONG, EILSEQ]

theorem C11_lookup_invalid_name_witness :
    zfsctl_snapdir_lookup envGlob (cnOf "*") (stateOf []) = some (ENOENT, none, stateOf []) :=
  ((C11_lookup_invalid_name envGlob (cnOf "*") (stateOf [])
    { sd_node := { zc_id := 2, zc_cmtime := 0 }, sd_lock := false, sd_snaps := [] }
    0 rfl (by decide) rfl (by decide)).1 (by decide)).2

/-- Claim C12, refuted as stated: with the directory lock held, the lookup of
the name `.autodiskmounted` returns `EINVAL`, not `ENOENT`: that name is turned
away before the lock is looked at. -/
theorem C12_counterexample :
    (stateLocked []).sdp.map (fun sd => sd.sd_lock) = some true
      ∧ zfsctl_snapdir_lookup envIdle (cnOf ".autodiskmounted") (stateLocked [])
          = some (EINVAL, none, stateLocked [])
      ∧ EINVAL ≠ ENOENT := by
  decide

/-- Claim C12, amended: with the directory lock held on entry, the lookup
returns `ENOENT` for every name but `.autodiskmounted`, which gets `EINVAL`
from the check that precedes the lock test. Either way it returns no handle and
the state is as it was: the lock is not taken again, the trace has no new call
(so no mount call) and the index is unchanged. -/
theorem C12_lookup_lock_held (E : Env) (cnp : Componentname) (s : State)
    (sd : zfsctl_snapdir) (hs : s.sdp = some sd) (hlock : sd.sd_lock = true) :
    zfsctl_snapdir_lookup E cnp s
        = some (if cn_nm cnp = ".autodiskmounted" then EINVAL else ENOENT, none, s)
      ∧ (cn_nm cnp ≠ ".autodiskmounted" →
          zfsctl_snapdir_lookup E cnp s = some (ENOENT, none, s))
      ∧ (∀ r, zfsctl_snapdir_lookup E cnp s = some r →
          r.2.1 = none ∧ index_of r.2.2 = index_of s
          ∧ mount_calls r.2.2.trace = mount_calls s.trace
          ∧ r.2.2.sdp = s.sdp) := by
  have hmain : zfsctl_snapdir_lookup E cnp s
      = some (if cn_nm cnp = ".autodiskmounted" then EINVAL else ENOENT, none, s) := by
    unfold zfsctl_snapdir_lookup
    simp only [hs, hlock, if_true]
    split_ifs <;> rfl
  refine ⟨hmain, ?_, ?_⟩
  · intro hne
    rw [hmain, if_neg hne]
  · intro r hr
    rw [hmain] at hr
    simp only [Option.some.injEq] at hr
    subst hr
    exact ⟨rfl, rfl, rfl, rfl⟩

theorem C12_lookup_lock_held_witness :
    zfsctl_snapdir_lookup envNightly (cnOf "nightly") (stateLocked [])
      = some (ENOENT, none, stateLocked []) :=
  (C12_lookup_lock_held envNightly (cnOf "nightly") (stateLocked [])
    { sd_node := { zc_id := 2, zc_cmtime := 0 }, sd_lock := true, sd_snaps := [] }
    rfl rfl).2.1 (by decide)

/-! ## Name composition -/

/-- Claim C13: `zfsctl_snapshot_zname` with dataset name `d`. A name that fails
the validator gets `EILSEQ`; a name that passes gets `ENAMETOOLONG` exactly when
`strlen(d) + 1 + strlen(name) >= len`; otherwise the result is 0 and the output
is `d ++ "@" ++ name`, which with its terminator fits the `len` bytes. -/
theorem C13_snapshot_zname (E : Env) (name : String) (len : Nat) :
    (E.snapshot_namecheck name ≠ 0 →
        (zfsctl_snapshot_zname E name len).1 = EILSEQ)
      ∧ (E.snapshot_namecheck name = 0 →
          ((zfsctl_snapshot_zname E name len).1 = ENAMETOOLONG
            ↔ strlen E.dmu_objset_name + 1 + strlen name ≥ len))
      ∧ (E.snapshot_namecheck name = 0 →
          ¬ (strlen E.dmu_objset_name + 1 + strlen name ≥ len) →
          zfsctl_snapshot_zname E name len = (0, E.dmu_objset_name ++ "@" ++ name)
          ∧ strlen (E.dmu_objset_name ++ "@" ++ name)
              = strlen E.dmu_objset_name + 1 + strlen name
          ∧ strlen (E.dmu_objset_name ++ "@" ++ name) + 1 ≤ len) := by
  refine ⟨?_, ?_, ?_⟩
  · intro hbad
    simp [zfsctl_snapshot_zname, hbad]
  · intro hok
    by_cases hlong : strlen E.dmu_objset_name + 1 + strlen name ≥ len
    · simp [zfsctl_snapshot_zname, hok, hlong]
    · simp only [zfsctl_snapshot_zname, hok, ne_eq, not_true_eq_false, if_false, if_neg hlong]
      simp [ENAMETOOLONG, hlong]
  · intro hok hfit
    have hlen : strlen (E.dmu_objset_name ++ "@" ++ name)
        = strlen E.dmu_objset_name + 1 + strlen name := by
      have h1 : "@".length = 1 := rfl
      simp [strlen, String.length_append, h1]
    refine ⟨?_, hlen, ?_⟩
    · simp only [zfsctl_snapshot_zname, hok, ne_eq, not_true_eq_false, if_false, if_neg hfit]
    · rw [hlen]; omega

theorem C13_snapshot_zname_witness :
    zfsctl_snapshot_zname envIdle "nightly" MAXNAMELEN = (0, "tank@nightly") :=
  ((C13_snapshot_zname envIdle "nightly" MAXNAMELEN).2.2 rfl (by decide)).1

/-! ## Reclaim of the snapshot directory -/

/-- One turn of the drain loop: `avl_first` gives the head of the index and
`avl_remove` of the head leaves the tail. -/
theorem avl_remove_first (sep : SnapEntry) (rest : List SnapEntry) :
    avl_first (sep :: rest) = some sep ∧ avl_remove (sep :: rest) sep = rest := by
  simp [avl_first, avl_remove]

theorem unmount_calls_append (a b : List Event) :
    unmount_calls (a ++ b) = unmount_calls a ++ unmount_calls b := by
  simp [unmount_calls]

theorem unmount_calls_map_free (snaps : List SnapEntry) :
    unmount_calls (snaps.map Event.kmem_free_sep) = [] := by
  induction snaps with
  | nil => rfl
  | cons sep rest ih => simp [unmount_calls] at ih ⊢

/-- Claim C20: for every index, `zfsctl_snapdir_reclaim` returns 0; its drain
loop ends with an empty index (size 0), having freed every entry exactly once
and in index order; it issues no unmount call; the directory is gone. -/
theorem C20_reclaim_drains (vp : Vnode) (s : State) (sd : zfsctl_snapdir)
    (hs : s.sdp = some sd) :
    (snapdir_reclaim_loop sd.sd_snaps s.trace).1 = []
      ∧ avl_numnodes (snapdir_reclaim_loop sd.sd_snaps s.trace).1 = 0
      ∧ (zfsctl_snapdir_reclaim vp s).1 = 0
      ∧ (zfsctl_snapdir_reclaim vp s).2.sdp = none
      ∧ (zfsctl_snapdir_reclaim vp s).2.trace
          = s.trace ++ sd.sd_snaps.map Event.kmem_free_sep ++ [Event.gfs_dir_inactive vp]
      ∧ freed_entries (zfsctl_snapdir_reclaim vp s).2.trace
          = freed_entries s.trace ++ sd.sd_snaps
      ∧ unmount_calls (zfsctl_snapdir_reclaim vp s).2.trace = unmount_calls s.trace := by
  have hloop := snapdir_reclaim_loop_frees sd.sd_snaps s.trace
  have htr : (zfsctl_snapdir_reclaim vp s).2.trace
      = s.trace ++ sd.sd_snaps.map Event.kmem_free_sep ++ [Event.gfs_dir_inactive vp] := by
    simp [zfsctl_snapdir_reclaim, hs, hloop]
  refine ⟨by rw [hloop], by rw [hloop]; rfl, ?_, ?_, htr, ?_, ?_⟩
  · simp [zfsctl_snapdir_reclaim, hs]
  · simp [zfsctl_snapdir_reclaim, hs]
  · rw [htr]
    simp only [freed_entries_append, freed_entries_map_free]
    simp [freed_entries]
  · rw [htr]
    simp only [unmount_calls_append, unmount_calls_map_free]
    simp [unmount_calls]

theorem C20_reclaim_drains_witness :
    freed_entries (zfsctl_snapdir_reclaim 2 (stateOf [⟨"a", 10⟩, ⟨"b", 11⟩])).2.trace
        = [⟨"a", 10⟩, ⟨"b", 11⟩]
      ∧ unmount_calls (zfsctl_snapdir_reclaim 2 (stateOf [⟨"a", 10⟩, ⟨"b", 11⟩])).2.trace = [] :=
  ⟨(C20_reclaim_drains 2 (stateOf [⟨"a", 10⟩, ⟨"b", 11⟩])
      { sd_node := { zc_id := 2, zc_cmtime := 0 }, sd_lock := false,
        sd_snaps := [⟨"a", 10⟩, ⟨"b", 11⟩] } rfl).2.2.2.2.2.1,
   (C20_reclaim_drains 2 (stateOf [⟨"a", 10⟩, ⟨"b", 11⟩])
      { sd_node := { zc_id := 2, zc_cmtime := 0 }, sd_lock := false,
        sd_snaps := [⟨"a", 10⟩, ⟨"b", 11⟩] } rfl).2.2.2.2.2.2⟩

/-! ## The path rewrite of `zfsctl_rename_snap` -/

theorem strrchr_chars_absent (c : Char) :
    ∀ (l : List Char), c ∉ l → strrchr_chars l c = none := by
  intro l
  induction l with
  | nil => intro _; rfl
  | cons x xs ih =>
    intro h
    have hx : ¬ x = c := fun e => h (by simp [e])
    have hxs : c ∉ xs := fun e => h (List.mem_cons_of_mem _ e)
    simp [strrchr_chars, ih hxs, hx]

/-- The last occurrence of `c` in `pre ++ c :: post`, `post` being free of `c`,
is at position `pre.length`. -/
theorem strrchr_chars_last (c : Char) (post : List Char) (hpost : c ∉ post) :
    ∀ (pre : List Char), strrchr_chars (pre ++ c :: post) c = some pre.length := by
  intro pre
  induction pre with
  | nil => simp [strrchr_chars, strrchr_chars_absent c post hpost]
  | cons x xs ih => simp [strrchr_chars, ih]

/-- The rewrite in the terms of the text: a path `pre ++ c ++ post` that fits
the buffer, with no `c` in `post`, becomes `pre ++ c ++ nm`. -/
theorem rename_newpath_last (c : Char) (pre post nm : String)
    (hpost : c ∉ post.toList)
    (hlen : strlen (pre ++ String.singleton c ++ post) < MAXNAMELEN) :
    rename_newpath (pre ++ String.singleton c ++ post) c nm
      = some (pre ++ String.singleton c ++ nm) := by
  have hl : (pre ++ String.singleton c ++ post).toList = pre.toList ++ c :: post.toList := by
    simp [String.toList, String.singleton]
  have hcopy : strncpy (pre ++ String.singleton c ++ post) MAXNAMELEN
      = pre ++ String.singleton c ++ post := by
    have hle : (pre ++ String.singleton c ++ post).toList.length ≤ MAXNAMELEN := by
      have : (pre ++ String.singleton c ++ post).toList.length
          = strlen (pre ++ String.singleton c ++ post) := rfl
      omega
    unfold strncpy
    rw [List.take_of_length_le hle]
    rfl
  unfold rename_newpath
  simp only [hcopy, strrchr, hl, strrchr_chars_last c post.toList hpost]
  have htake : List.take (pre.toList.length + 1) (pre.toList ++ c :: post.toList)
      = pre.toList ++ [c] := by
    rw [List.take_append_eq_append_take]
    simp
  rw [htake]
  have hpc : (String.mk (pre.toList ++ [c])) = pre ++ String.singleton c := by
    apply String.ext
    simp [String.toList, String.singleton]
  rw [hpc]

/-! ## `zfsctl_snapdir_rename` -/

theorem setpath_calls_append (a b : List Event) :
    setpath_calls (a ++ b) = setpath_calls a ++ setpath_calls b := by
  simp [setpath_calls]

/-- The rename once names compose, authorization passes, both directories are
the snapshot directory and the names differ: what is left is the search of the
index, the dataset rename and, on success, `zfsctl_rename_snap`. -/
theorem rename_past_checks (E : Env) (dvp : Vnode) (snm tnm a : String) (flags : Nat)
    (s : State) (sd : zfsctl_snapdir)
    (hsrc : snapshot_realname E flags snm = (0, a))
    (hva : E.snapshot_namecheck a = 0)
    (hfa : strlen E.dmu_objset_name + 1 + strlen a < MAXNAMELEN)
    (hvt : E.snapshot_namecheck tnm = 0)
    (hft : strlen E.dmu_objset_name + 1 + strlen tnm < MAXNAMELEN)
    (hperm : E.zfs_secpolicy_rename_perms (E.dmu_objset_name ++ "@" ++ a)
      (E.dmu_objset_name ++ "@" ++ tnm) = 0)
    (hne : strcmp a tnm ≠ 0)
    (hs : s.sdp = some sd) :
    zfsctl_snapdir_rename E dvp snm dvp tnm flags s =
      match (avl_find sd.sd_snaps ⟨a, 0⟩).1 with
      | none => some (ENOENT, { s with sdp := some { sd with sd_lock := false } })
      | some sep =>
        if E.dmu_objset_rename (E.dmu_objset_name ++ "@" ++ a)
            (E.dmu_objset_name ++ "@" ++ tnm) = 0 then
          match zfsctl_rename_snap E sd.sd_snaps sep tnm
              (s.trace ++ [Event.dmu_objset_rename (E.dmu_objset_name ++ "@" ++ a)
                (E.dmu_objset_name ++ "@" ++ tnm)]) with
          | none => none
          | some r =>
            some (0, { s with
              sdp := some { sd with sd_lock := false, sd_snaps := r.1 }
              trace := r.2 })
        else
          some (E.dmu_objset_rename (E.dmu_objset_name ++ "@" ++ a)
              (E.dmu_objset_name ++ "@" ++ tnm),
            { s with
              sdp := some { sd with sd_lock := false }
              trace := s.trace ++ [Event.dmu_objset_rename (E.dmu_objset_name ++ "@" ++ a)
                (E.dmu_objset_name ++ "@" ++ tnm)] }) := by
  have hza := zname_ok E a MAXNAMELEN hva hfa
  have hzt := zname_ok E tnm MAXNAMELEN hvt hft
  unfold zfsctl_snapdir_rename
  simp only [hsrc, hza, hzt, hperm, hs, ne_eq, not_true_eq_false, if_false, if_true, if_neg hne]
  cases hf : (avl_find sd.sd_snaps ⟨a, 0⟩).1 with
  | none => rfl
  | some sep =>
    simp only
    by_cases hr : E.dmu_objset_rename (E.dmu_objset_name ++ "@" ++ a)
        (E.dmu_objset_name ++ "@" ++ tnm) = 0
    · simp only [hr, if_true]
    · simp only [hr, if_false]

/-- Claim C15: when the dataset rename the snapshot directory's rename calls
fails with `e`, the rename returns `e`; the index (entries and order) and the
node table are as before, and no mount-point or resource string is rewritten:
the only call added to the trace is the dataset rename itself. -/
theorem C15_rename_dataset_error (E : Env) (dvp : Vnode) (snm tnm a : String) (flags : Nat)
    (s : State) (sd : zfsctl_snapdir) (sep : SnapEntry) (wh : Nat) (e : Int)
    (hsrc : snapshot_realname E flags snm = (0, a))
    (hva : E.snapshot_namecheck a = 0)
    (hfa : strlen E.dmu_objset_name + 1 + strlen a < MAXNAMELEN)
    (hvt : E.snapshot_namecheck tnm = 0)
    (hft : strlen E.dmu_objset_name + 1 + strlen tnm < MAXNAMELEN)
    (hperm : E.zfs_secpolicy_rename_perms (E.dmu_objset_name ++ "@" ++ a)
      (E.dmu_objset_name ++ "@" ++ tnm) = 0)
    (hne : strcmp a tnm ≠ 0)
    (hs : s.sdp = some sd) (hlock : sd.sd_lock = false)
    (hfind : avl_find sd.sd_snaps ⟨a, 0⟩ = (some sep, wh))
    (herr : E.dmu_objset_rename (E.dmu_objset_name ++ "@" ++ a)
      (E.dmu_objset_name ++ "@" ++ tnm) = e)
    (he : e ≠ 0) :
    zfsctl_snapdir_rename E dvp snm dvp tnm flags s =
        some (e, { s with
          trace := s.trace ++ [Event.dmu_objset_rename (E.dmu_objset_name ++ "@" ++ a)
            (E.dmu_objset_name ++ "@" ++ tnm)] })
      ∧ index_of ({ s with
          trace := s.trace ++ [Event.dmu_objset_rename (E.dmu_objset_name ++ "@" ++ a)
            (E.dmu_objset_name ++ "@" ++ tnm)] } : State) = index_of s
      ∧ setpath_calls (s.trace ++ [Event.dmu_objset_rename (E.dmu_objset_name ++ "@" ++ a)
            (E.dmu_objset_name ++ "@" ++ tnm)]) = setpath_calls s.trace := by
  refine ⟨?_, rfl, ?_⟩
  · rw [rename_past_checks E dvp snm tnm a flags s sd hsrc hva hfa hvt hft hperm hne hs]
    have hf1 : (avl_find sd.sd_snaps ⟨a, 0⟩).1 = some sep := by rw [hfind]
    simp only [hf1, herr, if_neg he]
    have hst := state_unlock_eq s sd hs hlock
    cases s; cases sd
    simp_all
  · rw [setpath_calls_append]
    simp [setpath_calls]

theorem C15_rename_dataset_error_witness :
    zfsctl_snapdir_rename envRenameFail 2 "a" 2 "c" 0 (stateOf [⟨"a", 10⟩, ⟨"b", 11⟩]) =
      some (EBUSY, { stateOf [⟨"a", 10⟩, ⟨"b", 11⟩] with
        trace := [Event.dmu_objset_rename "tank@a" "tank@c"] }) :=
  (C15_rename_dataset_error envRenameFail 2 "a" "c" "a" 0 (stateOf [⟨"a", 10⟩, ⟨"b", 11⟩])
    { sd_node := { zc_id := 2, zc_cmtime := 0 }, sd_lock := false,
      sd_snaps := [⟨"a", 10⟩, ⟨"b", 11⟩] }
    ⟨"a", 10⟩ 0 EBUSY (by decide) rfl (by decide) rfl (by decide) rfl (by decide) rfl rfl
    (by decide) rfl (by decide)).1

/-- Entries of a sorted index are pairwise different. -/
theorem indexSorted_nodup (l : List SnapEntry) (hs : IndexSorted l) : l.Nodup := by
  refine List.Pairwise.imp ?_ hs
  intro x y hlt hxy
  subst hxy
  have := strcmp_self x.se_name
  omega

/-- Two different entries of a sorted index have names that compare unequal. -/
theorem indexSorted_names_ne (l : List SnapEntry) (hs : IndexSorted l)
    (x y : SnapEntry) (hx : x ∈ l) (hy : y ∈ l) (hne : x ≠ y) :
    strcmp x.se_name y.se_name ≠ 0 := by
  have hp : l.Pairwise (fun a b => strcmp a.se_name b.se_name ≠ 0) := by
    refine List.Pairwise.imp ?_ hs
    intro a b hlt
    omega
  have hsym : Symmetric (fun a b : SnapEntry => strcmp a.se_name b.se_name ≠ 0) := by
    intro a b hab
    rw [strcmp_antisymm]
    omega
  exact List.Pairwise.forall hsym hp hx hy hne

theorem avl_insert_perm (l : List SnapEntry) (e : SnapEntry) (k : Nat) :
    List.Perm (avl_insert l e k) (e :: l) := by
  have h : List.Perm (l.take k ++ e :: l.drop k) (e :: (l.take k ++ l.drop k)) :=
    List.perm_middle
  rw [List.take_append_drop] at h
  exact h

/-- What `zfsctl_rename_snap` does when its `VERIFY`s hold: the entry is taken
out, put back under the new name where the search says, and the two strings of
the mount are set. -/
theorem rename_snap_ok (E : Env) (snaps : List SnapEntry) (sep : SnapEntry) (nm : String)
    (tr : List Event) (w : Nat) (mp rs : String)
    (hverify : avl_find (avl_remove snaps sep) ⟨nm, sep.se_root⟩ = (none, w))
    (hmp : rename_newpath (E.vfs_getmntpoint (E.vnode_mount sep.se_root)) '/' nm = some mp)
    (hrs : rename_newpath (E.vfs_getresource (E.vnode_mount sep.se_root)) '@' nm = some rs) :
    zfsctl_rename_snap E snaps sep nm tr =
      some (avl_insert (avl_remove snaps sep) ⟨nm, sep.se_root⟩ w,
        tr ++ [Event.vfs_setmntpoint (E.vnode_mount sep.se_root) mp,
               Event.vfs_setresource (E.vnode_mount sep.se_root) rs]) := by
  unfold zfsctl_rename_snap
  simp [hverify, hmp, hrs]

/-- The rename that goes through: the state it leaves. -/
theorem rename_success (E : Env) (dvp : Vnode) (snm tnm a : String) (flags : Nat)
    (s : State) (sd : zfsctl_snapdir) (r : Vnode) (wh w : Nat) (mp rs : String)
    (hsrc : snapshot_realname E flags snm = (0, a))
    (hva : E.snapshot_namecheck a = 0)
    (hfa : strlen E.dmu_objset_name + 1 + strlen a < MAXNAMELEN)
    (hvt : E.snapshot_namecheck tnm = 0)
    (hft : strlen E.dmu_objset_name + 1 + strlen tnm < MAXNAMELEN)
    (hperm : E.zfs_secpolicy_rename_perms (E.dmu_objset_name ++ "@" ++ a)
      (E.dmu_objset_name ++ "@" ++ tnm) = 0)
    (hne : strcmp a tnm ≠ 0)
    (hs : s.sdp = some sd)
    (hfind : avl_find sd.sd_snaps ⟨a, 0⟩ = (some ⟨a, r⟩, wh))
    (hren : E.dmu_objset_rename (E.dmu_objset_name ++ "@" ++ a)
      (E.dmu_objset_name ++ "@" ++ tnm) = 0)
    (hverify : avl_find (avl_remove sd.sd_snaps ⟨a, r⟩) ⟨tnm, r⟩ = (none, w))
    (hmp : rename_newpath (E.vfs_getmntpoint (E.vnode_mount r)) '/' tnm = some mp)
    (hrs : rename_newpath (E.vfs_getresource (E.vnode_mount r)) '@' tnm = some rs) :
    zfsctl_snapdir_rename E dvp snm dvp tnm flags s =
      some (0, { s with
        sdp := some { sd with
          sd_lock := false
          sd_snaps := avl_insert (avl_remove sd.sd_snaps ⟨a, r⟩) ⟨tnm, r⟩ w }
        trace := s.trace ++
          [Event.dmu_objset_rename (E.dmu_objset_name ++ "@" ++ a)
            (E.dmu_objset_name ++ "@" ++ tnm)] ++
          [Event.vfs_setmntpoint (E.vnode_mount r) mp,
           Event.vfs_setresource (E.vnode_mount r) rs] }) := by
  rw [rename_past_checks E dvp snm tnm a flags s sd hsrc hva hfa hvt hft hperm hne hs]
  have hf1 : (avl_find sd.sd_snaps ⟨a, 0⟩).1 = some ⟨a, r⟩ := by rw [hfind]
  simp only [hf1, hren, if_true]
  rw [rename_snap_ok E sd.sd_snaps ⟨a, r⟩ tnm _ w mp rs hverify hmp hrs]

/-- On a sorted index that does not hold `nm`, the index without `sep` does
not hold it either, under whatever root the search value carries. -/
theorem avl_find_remove_none (l : List SnapEntry) (sep : SnapEntry) (nm : String) (x y : Vnode)
    (hs : IndexSorted l) (hnone : (avl_find l ⟨nm, x⟩).1 = none) :
    (avl_find (avl_remove l sep) ⟨nm, y⟩).1 = none
      ∧ (⟨nm, y⟩ : SnapEntry) ∉ avl_remove l sep := by
  have hall := avl_find_from_none_sorted ⟨nm, x⟩ l 0 hs hnone
  have hall2 : ∀ e ∈ avl_remove l sep, snapentry_compare ⟨nm, y⟩ e ≠ 0 := by
    intro e he
    exact hall e (List.mem_of_mem_erase he)
  refine ⟨avl_find_from_none_of_ne _ _ 0 hall2, ?_⟩
  intro hmem
  exact hall2 _ hmem (snapentry_compare_same_name nm y y)

/-- Claim C14: `zfsctl_snapdir_rename(oldName, newName)` with different names,
`oldName` found in the sorted index with root `r`, `newName` not in it, the
dataset rename succeeding. The rename returns 0 and the index afterwards is the
old one with the entry for `oldName` taken out and an entry for `newName` with
the same root put in at its sorted place: a permutation of that entry and the
remaining ones, of the same size, still sorted; a search for `newName` finds
the entry with root `r`, a search for `oldName` finds nothing, and every other
entry is in the index exactly when it was before. -/
theorem C14_rename_rekeys (E : Env) (dvp : Vnode) (snm tnm a : String) (flags : Nat)
    (s : State) (sd : zfsctl_snapdir) (r : Vnode) (wh : Nat) (mp rs : String)
    (hsrc : snapshot_realname E flags snm = (0, a))
    (hva : E.snapshot_namecheck a = 0)
    (hfa : strlen E.dmu_objset_name + 1 + strlen a < MAXNAMELEN)
    (hvt : E.snapshot_namecheck tnm = 0)
    (hft : strlen E.dmu_objset_name + 1 + strlen tnm < MAXNAMELEN)
    (hperm : E.zfs_secpolicy_rename_perms (E.dmu_objset_name ++ "@" ++ a)
      (E.dmu_objset_name ++ "@" ++ tnm) = 0)
    (hne : strcmp a tnm ≠ 0)
    (hs : s.sdp = some sd)
    (hsorted : IndexSorted sd.sd_snaps)
    (hfind : avl_find sd.sd_snaps ⟨a, 0⟩ = (some ⟨a, r⟩, wh))
    (hnew : (avl_find sd.sd_snaps ⟨tnm, 0⟩).1 = none)
    (hren : E.dmu_objset_rename (E.dmu_objset_name ++ "@" ++ a)
      (E.dmu_objset_name ++ "@" ++ tnm) = 0)
    (hmp : rename_newpath (E.vfs_getmntpoint (E.vnode_mount r)) '/' tnm = some mp)
    (hrs : rename_newpath (E.vfs_getresource (E.vnode_mount r)) '@' tnm = some rs) :
    ∃ s1 idx, zfsctl_snapdir_rename E dvp snm dvp tnm flags s = some (0, s1)
      ∧ index_of s1 = some idx
      ∧ s1.nodes = s.nodes
      ∧ List.Perm idx (⟨tnm, r⟩ :: avl_remove sd.sd_snaps ⟨a, r⟩)
      ∧ avl_numnodes idx = avl_numnodes sd.sd_snaps
      ∧ IndexSorted idx
      ∧ (avl_find idx ⟨tnm, 0⟩).1 = some ⟨tnm, r⟩
      ∧ (avl_find idx ⟨a, 0⟩).1 = none
      ∧ (⟨a, r⟩ : SnapEntry) ∉ idx
      ∧ (∀ e : SnapEntry, e ≠ ⟨a, r⟩ → e ≠ ⟨tnm, r⟩ → (e ∈ idx ↔ e ∈ sd.sd_snaps)) := by
  have hmemA : (⟨a, r⟩ : SnapEntry) ∈ sd.sd_snaps :=
    (avl_find_from_some _ _ _ _ _ hfind).1
  have hnodup := indexSorted_nodup _ hsorted
  have hs1 := indexSorted_remove sd.sd_snaps ⟨a, r⟩ hsorted
  obtain ⟨hv1, hnotin⟩ := avl_find_remove_none sd.sd_snaps ⟨a, r⟩ tnm 0 r hsorted hnew
  obtain ⟨w, hverify⟩ : ∃ w, avl_find (avl_remove sd.sd_snaps ⟨a, r⟩) ⟨tnm, r⟩ = (none, w) :=
    ⟨(avl_find (avl_remove sd.sd_snaps ⟨a, r⟩) ⟨tnm, r⟩).2, by rw [← hv1]⟩
  have hrn := rename_success E dvp snm tnm a flags s sd r wh w mp rs hsrc hva hfa hvt hft
    hperm hne hs hfind hren hverify hmp hrs
  have hperm2 := avl_insert_perm (avl_remove sd.sd_snaps ⟨a, r⟩) ⟨tnm, r⟩ w
  have hmem_iff : ∀ e : SnapEntry,
      e ∈ avl_insert (avl_remove sd.sd_snaps ⟨a, r⟩) ⟨tnm, r⟩ w
        ↔ e = ⟨tnm, r⟩ ∨ (e ≠ ⟨a, r⟩ ∧ e ∈ sd.sd_snaps) := by
    intro e
    rw [hperm2.mem_iff, List.mem_cons]
    simp only [avl_remove, hnodup.mem_erase_iff]
  have hnewne : (⟨a, r⟩ : SnapEntry) ≠ ⟨tnm, r⟩ := by
    intro h
    have h2 : a = tnm := by simpa using h
    apply hne
    rw [h2]
    exact strcmp_self tnm
  refine ⟨_, _, hrn, rfl, rfl, hperm2, ?_, ?_, ?_, ?_, ?_, ?_⟩
  · simp only [avl_numnodes, avl_insert_length, avl_remove]
    rw [List.length_erase_of_mem hmemA]
    have : 0 < sd.sd_snaps.length := List.length_pos_of_mem hmemA
    omega
  · exact indexSorted_insert ⟨tnm, r⟩ ⟨tnm, r⟩ rfl _ w hs1 hverify
  · rw [avl_find_root_irrel tnm 0 r, avl_find_insert _ tnm r r w hverify]
  · apply avl_find_from_none_of_ne
    intro e he
    rcases (hmem_iff e).mp he with rfl | ⟨hea, hmem⟩
    · intro hc
      exact hne ((snapentry_compare_eq_zero _ _).mp hc)
    · intro hc
      have h1 := indexSorted_names_ne _ hsorted ⟨a, r⟩ e hmemA hmem (fun h => hea h.symm)
      exact h1 ((snapentry_compare_eq_zero ⟨a, 0⟩ e).mp hc)
  · intro hmem
    rcases (hmem_iff _).mp hmem with h | ⟨h, -⟩
    · exact hnewne h
    · exact h rfl
  · intro e hea het
    rw [hmem_iff]
    constructor
    · rintro (h | ⟨-, h⟩)
      · exact absurd h het
      · exact h
    · intro h
      exact Or.inr ⟨hea, h⟩

theorem C14_rename_rekeys_witness :
    ∃ s1 idx, zfsctl_snapdir_rename envSun 2 "a" 2 "c" 0 (stateOf [⟨"a", 10⟩, ⟨"b", 11⟩])
        = some (0, s1)
      ∧ index_of s1 = some idx
      ∧ (avl_find idx ⟨"c", 0⟩).1 = some ⟨"c", 10⟩
      ∧ (avl_find idx ⟨"a", 0⟩).1 = none
      ∧ avl_numnodes idx = 2 := by
  obtain ⟨s1, idx, h, hi, -, -, hn, -, hc, ha, -⟩ := C14_rename_rekeys envSun 2 "a" "c" "a" 0
    (stateOf [⟨"a", 10⟩, ⟨"b", 11⟩])
    { sd_node := { zc_id := 2, zc_cmtime := 0 }, sd_lock := false,
      sd_snaps := [⟨"a", 10⟩, ⟨"b", 11⟩] }
    10 0 "/tank/.zfs/snapshot/c" "tank@c"
    (by decide) rfl (by decide) rfl (by decide) rfl (by decide) rfl (by decide) (by decide)
    (by decide) rfl (by decide) (by decide)
  exact ⟨s1, idx, h, hi, hc, ha, hn⟩

/-- Claim C16, refuted as stated: `a` is not in the (empty) index, yet renaming
`a` to `a` returns 0, not `ENOENT`: the equal-name return comes before the
index is searched. -/
theorem C16_counterexample :
    (avl_find [] ⟨"a", 0⟩).1 = none
      ∧ zfsctl_snapdir_rename envSun 2 "a" 2 "a" 0 (stateOf []) = some (0, stateOf [])
      ∧ (0 : Int) ≠ ENOENT := by
  decide

/-- Claim C16, amended: for an `oldName` that is not in the index the rename
leaves the state as it was and returns, in this order of precedence: the error
of composing the old dataset name, the error of composing the new one, the
authorization error, `EINVAL` when the two directories differ, 0 when `newName`
equals `oldName`, and `ENOENT` only when none of these applies: the absence
check comes last. -/
theorem C16_rename_absent (E : Env) (sdvp tdvp : Vnode) (snm tnm a : String) (flags : Nat)
    (s : State) (sd : zfsctl_snapdir)
    (hsrc : snapshot_realname E flags snm = (0, a))
    (hs : s.sdp = some sd) (hlock : sd.sd_lock = false)
    (habs : (avl_find sd.sd_snaps ⟨a, 0⟩).1 = none) :
    zfsctl_snapdir_rename E sdvp snm tdvp tnm flags s =
        some (if (zfsctl_snapshot_zname E a MAXNAMELEN).1 ≠ 0
                then (zfsctl_snapshot_zname E a MAXNAMELEN).1
              else if (zfsctl_snapshot_zname E tnm MAXNAMELEN).1 ≠ 0
                then (zfsctl_snapshot_zname E tnm MAXNAMELEN).1
              else if E.zfs_secpolicy_rename_perms (zfsctl_snapshot_zname E a MAXNAMELEN).2
                  (zfsctl_snapshot_zname E tnm MAXNAMELEN).2 ≠ 0
                then E.zfs_secpolicy_rename_perms (zfsctl_snapshot_zname E a MAXNAMELEN).2
                  (zfsctl_snapshot_zname E tnm MAXNAMELEN).2
              else if sdvp ≠ tdvp then EINVAL
              else if strcmp a tnm = 0 then 0
              else ENOENT, s)
      ∧ ((zfsctl_snapshot_zname E a MAXNAMELEN).1 = 0 →
          (zfsctl_snapshot_zname E tnm MAXNAMELEN).1 = 0 →
          E.zfs_secpolicy_rename_perms (zfsctl_snapshot_zname E a MAXNAMELEN).2
            (zfsctl_snapshot_zname E tnm MAXNAMELEN).2 = 0 →
          sdvp = tdvp → strcmp a tnm ≠ 0 →
          zfsctl_snapdir_rename E sdvp snm tdvp tnm flags s = some (ENOENT, s)) := by
  have hst := state_unlock_eq s sd hs hlock
  simp only [hlock] at hst
  have hmain : zfsctl_snapdir_rename E sdvp snm tdvp tnm flags s =
      some (if (zfsctl_snapshot_zname E a MAXNAMELEN).1 ≠ 0
              then (zfsctl_snapshot_zname E a MAXNAMELEN).1
            else if (zfsctl_snapshot_zname E tnm MAXNAMELEN).1 ≠ 0
              then (zfsctl_snapshot_zname E tnm MAXNAMELEN).1
            else if E.zfs_secpolicy_rename_perms (zfsctl_snapshot_zname E a MAXNAMELEN).2
                (zfsctl_snapshot_zname E tnm MAXNAMELEN).2 ≠ 0
              then E.zfs_secpolicy_rename_perms (zfsctl_snapshot_zname E a MAXNAMELEN).2
                (zfsctl_snapshot_zname E tnm MAXNAMELEN).2
            else if sdvp ≠ tdvp then EINVAL
            else if strcmp a tnm = 0 then 0
            else ENOENT, s) := by
    unfold zfsctl_snapdir_rename
    simp only [hsrc, ne_eq, not_true_eq_false, if_false, hs, habs, hlock]
    by_cases h1 : (zfsctl_snapshot_zname E a MAXNAMELEN).1 = 0
    · by_cases h2 : (zfsctl_snapshot_zname E tnm MAXNAMELEN).1 = 0
      · by_cases h3 : E.zfs_secpolicy_rename_perms (zfsctl_snapshot_zname E a MAXNAMELEN).2
            (zfsctl_snapshot_zname E tnm MAXNAMELEN).2 = 0
        · by_cases h4 : sdvp = tdvp
          · by_cases h5 : strcmp a tnm = 0
            · simp [h1, h2, h3, h4, h5]
            · simp only [h1, h2, h3, h4, h5, not_true_eq_false, if_false, if_true]
              rw [hst]
          · simp [h1, h2, h3, h4]
        · simp [h1, h2, h3]
      · simp [h1, h2]
    · simp [h1]
  refine ⟨hmain, ?_⟩
  intro h1 h2 h3 h4 h5
  rw [hmain]
  simp [h1, h2, h3, h4, h5]

theorem C16_rename_absent_witness :
    zfsctl_snapdir_rename envSun 2 "a" 2 "c" 0 (stateOf []) = some (ENOENT, stateOf []) :=
  (C16_rename_absent envSun 2 2 "a" "c" "a" 0 (stateOf [])
    { sd_node := { zc_id := 2, zc_cmtime := 0 }, sd_lock := false, sd_snaps := [] }
    (by decide) rfl rfl (by decide)).2 (by decide) (by decide) (by decide) rfl (by decide)

theorem rename_newpath_some (path : String) (c : Char) (nm : String)
    (h : ∃ i, strrchr (strncpy path MAXNAMELEN) c = some i) :
    ∃ q, rename_newpath path c nm = some q := by
  obtain ⟨i, hi⟩ := h
  unfold rename_newpath
  simp [hi]

/-- Claim C17: on a sorted index holding `a` (root `r`) and not `b`, with both
dataset renames succeeding, `rename(a, b)` followed by `rename(b, a)` return 0
and leave the snapshot directory exactly as it was: the same entries in the
same order, so the same keys and size, `a` with root `r` and nothing under `b`.
In between, `b` is found with root `r` and `a` is not found. -/
theorem C17_rename_roundtrip (E : Env) (dvp : Vnode) (a b : String) (flags : Nat)
    (s : State) (sd : zfsctl_snapdir) (r : Vnode) (wh : Nat)
    (hsrcA : snapshot_realname E flags a = (0, a))
    (hsrcB : snapshot_realname E flags b = (0, b))
    (hva : E.snapshot_namecheck a = 0)
    (hfa : strlen E.dmu_objset_name + 1 + strlen a < MAXNAMELEN)
    (hvb : E.snapshot_namecheck b = 0)
    (hfb : strlen E.dmu_objset_name + 1 + strlen b < MAXNAMELEN)
    (hpermAB : E.zfs_secpolicy_rename_perms (E.dmu_objset_name ++ "@" ++ a)
      (E.dmu_objset_name ++ "@" ++ b) = 0)
    (hpermBA : E.zfs_secpolicy_rename_perms (E.dmu_objset_name ++ "@" ++ b)
      (E.dmu_objset_name ++ "@" ++ a) = 0)
    (hne : strcmp a b ≠ 0)
    (hs : s.sdp = some sd) (hlock : sd.sd_lock = false)
    (hsorted : IndexSorted sd.sd_snaps)
    (hfind : avl_find sd.sd_snaps ⟨a, 0⟩ = (some ⟨a, r⟩, wh))
    (hnb : (avl_find sd.sd_snaps ⟨b, 0⟩).1 = none)
    (hrenAB : E.dmu_objset_rename (E.dmu_objset_name ++ "@" ++ a)
      (E.dmu_objset_name ++ "@" ++ b) = 0)
    (hrenBA : E.dmu_objset_rename (E.dmu_objset_name ++ "@" ++ b)
      (E.dmu_objset_name ++ "@" ++ a) = 0)
    (hmp : ∃ i, strrchr (strncpy (E.vfs_getmntpoint (E.vnode_mount r)) MAXNAMELEN) '/' = some i)
    (hrs : ∃ i, strrchr (strncpy (E.vfs_getresource (E.vnode_mount r)) MAXNAMELEN) '@'
      = some i) :
    ∃ s1 s2 idx1,
      zfsctl_snapdir_rename E dvp a dvp b flags s = some (0, s1)
      ∧ zfsctl_snapdir_rename E dvp b dvp a flags s1 = some (0, s2)
      ∧ index_of s1 = some idx1
      ∧ (avl_find idx1 ⟨b, 0⟩).1 = some ⟨b, r⟩
      ∧ s2.sdp = s.sdp
      ∧ index_of s2 = index_of s
      ∧ s2.nodes = s.nodes
      ∧ (avl_find sd.sd_snaps ⟨a, 0⟩).1 = some ⟨a, r⟩
      ∧ (avl_find sd.sd_snaps ⟨b, 0⟩).1 = none := by
  have hmemA : (⟨a, r⟩ : SnapEntry) ∈ sd.sd_snaps :=
    (avl_find_from_some _ _ _ _ _ hfind).1
  obtain ⟨hv1, hnotin⟩ := avl_find_remove_none sd.sd_snaps ⟨a, r⟩ b 0 r hsorted hnb
  obtain ⟨w, hverify⟩ : ∃ w, avl_find (avl_remove sd.sd_snaps ⟨a, r⟩) ⟨b, r⟩ = (none, w) :=
    ⟨(avl_find (avl_remove sd.sd_snaps ⟨a, r⟩) ⟨b, r⟩).2, by rw [← hv1]⟩
  obtain ⟨mp1, hmp1⟩ := rename_newpath_some _ '/' b hmp
  obtain ⟨rs1, hrs1⟩ := rename_newpath_some _ '@' b hrs
  obtain ⟨mp2, hmp2⟩ := rename_newpath_some _ '/' a hmp
  obtain ⟨rs2, hrs2⟩ := rename_newpath_some _ '@' a hrs
  have h1 := rename_success E dvp a b a flags s sd r wh w mp1 rs1 hsrcA hva hfa hvb hfb
    hpermAB hne hs hfind hrenAB hverify hmp1 hrs1
  have hfind1 : avl_find (avl_insert (avl_remove sd.sd_snaps ⟨a, r⟩) ⟨b, r⟩ w) ⟨b, 0⟩
      = (some ⟨b, r⟩, w) := by
    rw [avl_find_root_irrel b 0 r, avl_find_insert _ b r r w hverify]
  have hrem : avl_remove (avl_insert (avl_remove sd.sd_snaps ⟨a, r⟩) ⟨b, r⟩ w) ⟨b, r⟩
      = avl_remove sd.sd_snaps ⟨a, r⟩ := avl_remove_insert _ _ _ hnotin
  obtain ⟨k, hk1, hk2⟩ := avl_reinsert ⟨a, r⟩ sd.sd_snaps hsorted hmemA
  have hne2 : strcmp b a ≠ 0 := by
    rw [strcmp_antisymm]
    omega
  have h2 := rename_success E dvp b a b flags
    { s with
      sdp := some { sd with
        sd_lock := false
        sd_snaps := avl_insert (avl_remove sd.sd_snaps ⟨a, r⟩) ⟨b, r⟩ w }
      trace := s.trace ++
        [Event.dmu_objset_rename (E.dmu_objset_name ++ "@" ++ a)
          (E.dmu_objset_name ++ "@" ++ b)] ++
        [Event.vfs_setmntpoint (E.vnode_mount r) mp1,
         Event.vfs_setresource (E.vnode_mount r) rs1] }
    { sd with
      sd_lock := false
      sd_snaps := avl_insert (avl_remove sd.sd_snaps ⟨a, r⟩) ⟨b, r⟩ w }
    r w k mp2 rs2 hsrcB hvb hfb hva hfa
    hpermBA hne2 rfl hfind1 hrenBA (by rw [hrem]; exact hk1) hmp2 hrs2
  refine ⟨_, _, _, h1, h2, rfl, by rw [hfind1], ?_, ?_, rfl, by rw [hfind], hnb⟩
  · simp only [hrem, hk2, hs]
    cases sd
    simp_all
  · simp only [index_of, hrem, hk2, hs, Option.map_some']

theorem C17_rename_roundtrip_witness :
    ∃ s1 s2, zfsctl_snapdir_rename envSun 2 "a" 2 "c" 0 (stateOf [⟨"a", 10⟩, ⟨"b", 11⟩])
        = some (0, s1)
      ∧ zfsctl_snapdir_rename envSun 2 "c" 2 "a" 0 s1 = some (0, s2)
      ∧ index_of s2 = some [⟨"a", 10⟩, ⟨"b", 11⟩] := by
  obtain ⟨s1, s2, idx1, h1, h2, -, -, -, hi, -⟩ := C17_rename_roundtrip envSun 2 "a" "c" 0
    (stateOf [⟨"a", 10⟩, ⟨"b", 11⟩])
    { sd_node := { zc_id := 2, zc_cmtime := 0 }, sd_lock := false,
      sd_snaps := [⟨"a", 10⟩, ⟨"b", 11⟩] }
    10 0 (by decide) (by decide) rfl (by decide) rfl (by decide) rfl rfl (by decide) rfl rfl
    (by decide) (by decide) (by decide) rfl rfl ⟨19, by decide⟩ ⟨4, by decide⟩
  exact ⟨s1, s2, h1, h2, hi⟩

/-- Claim C18: in `zfsctl_rename_snap`, a mount point `ppre ++ "/" ++ ppost` with
no `/` in `ppost` and a resource `rpre ++ "@" ++ rpost` with no `@` in `rpost`,
both fitting the buffer together with the new name: the mount point is set to
`ppre ++ "/" ++ nm` and the resource to `rpre ++ "@" ++ nm`; what precedes the
last separator is kept as it is. -/
theorem C18_rename_snap_paths (E : Env) (snaps : List SnapEntry) (sep : SnapEntry)
    (nm : String) (tr : List Event) (ppre ppost rpre rpost : String)
    (hp : E.vfs_getmntpoint (E.vnode_mount sep.se_root) = ppre ++ "/" ++ ppost)
    (hpl : '/' ∉ ppost.toList)
    (hpfit : strlen (ppre ++ "/" ++ ppost) < MAXNAMELEN)
    (_hpnew : strlen (ppre ++ "/") + strlen nm < MAXNAMELEN)
    (hr : E.vfs_getresource (E.vnode_mount sep.se_root) = rpre ++ "@" ++ rpost)
    (hrl : '@' ∉ rpost.toList)
    (hrfit : strlen (rpre ++ "@" ++ rpost) < MAXNAMELEN)
    (_hrnew : strlen (rpre ++ "@") + strlen nm < MAXNAMELEN) :
    rename_newpath (ppre ++ "/" ++ ppost) '/' nm = some (ppre ++ "/" ++ nm)
      ∧ rename_newpath (rpre ++ "@" ++ rpost) '@' nm = some (rpre ++ "@" ++ nm)
      ∧ (∀ w, avl_find (avl_remove snaps sep) ⟨nm, sep.se_root⟩ = (none, w) →
          zfsctl_rename_snap E snaps sep nm tr =
            some (avl_insert (avl_remove snaps sep) ⟨nm, sep.se_root⟩ w,
              tr ++ [Event.vfs_setmntpoint (E.vnode_mount sep.se_root) (ppre ++ "/" ++ nm),
                     Event.vfs_setresource (E.vnode_mount sep.se_root)
                       (rpre ++ "@" ++ nm)])) := by
  have h1 : rename_newpath (ppre ++ "/" ++ ppost) '/' nm = some (ppre ++ "/" ++ nm) :=
    rename_newpath_last '/' ppre ppost nm hpl hpfit
  have h2 : rename_newpath (rpre ++ "@" ++ rpost) '@' nm = some (rpre ++ "@" ++ nm) :=
    rename_newpath_last '@' rpre rpost nm hrl hrfit
  refine ⟨h1, h2, ?_⟩
  intro w hw
  exact rename_snap_ok E snaps sep nm tr w _ _ hw (by rw [hp]; exact h1) (by rw [hr]; exact h2)

theorem C18_rename_snap_paths_witness :
    rename_newpath "/tank/.zfs/snapshot/a" '/' "c" = some "/tank/.zfs/snapshot/c"
      ∧ rename_newpath "tank@a" '@' "c" = some "tank@c" :=
  ⟨(C18_rename_snap_paths envSun [⟨"a", 10⟩] ⟨"a", 10⟩ "c" [] "/tank/.zfs/snapshot" "a"
      "tank" "a" rfl (by decide) (by decide) (by decide) rfl (by decide) (by decide)
      (by decide)).1,
   (C18_rename_snap_paths envSun [⟨"a", 10⟩] ⟨"a", 10⟩ "c" [] "/tank/.zfs/snapshot" "a"
      "tank" "a" rfl (by decide) (by decide) (by decide) rfl (by decide) (by decide)
      (by decide)).2.1⟩

/-! ## `zfsctl_snapdir_remove` -/

theorem destroy_calls_append (a b : List Event) :
    destroy_calls (a ++ b) = destroy_calls a ++ destroy_calls b := by
  simp [destroy_calls]

/-- A failing `zfsctl_unmount_snap` frees nothing and destroys nothing. -/
theorem unmount_snap_error_trace (E : Env) (sep : SnapEntry) (tr : List Event)
    (he : (zfsctl_unmount_snap E sep tr).1 ≠ 0) :
    freed_entries (zfsctl_unmount_snap E sep tr).2 = freed_entries tr
      ∧ destroy_calls (zfsctl_unmount_snap E sep tr).2 = destroy_calls tr := by
  unfold zfsctl_unmount_snap at he ⊢
  by_cases hw : E.vn_vfswlock sep.se_root ≠ 0
  · simp only [if_pos hw]
    exact ⟨trivial, trivial⟩
  · simp only [if_neg hw] at he ⊢
    cases hp : E.plat with
    | sun =>
      simp only [hp] at he ⊢
      by_cases hd : E.dounmount (E.vnode_mountedhere sep.se_root) ≠ 0
      · simp only [if_pos hd]
        simp [freed_entries, destroy_calls]
      · simp only [if_neg hd] at he
        exact absurd rfl he
    | freebsd =>
      simp only [hp] at he
      exact absurd rfl he
    | apple =>
      simp only [hp] at he
      exact absurd rfl he

/-- Claim C19: `zfsctl_snapdir_remove(name)` finds the entry in the sorted
index and the forced unmount fails with `e`. The remove returns exactly `e`,
issues no dataset destroy and frees no entry, and the snapshot directory is
exactly as before: the same entries in the same order, the found entry among
them once, with the root it had. -/
theorem C19_remove_unmount_error (E : Env) (name a : String) (flags : Nat) (s : State)
    (sd : zfsctl_snapdir) (sep : SnapEntry) (wh : Nat) (e : Int)
    (hsrc : snapshot_realname E flags name = (0, a))
    (hva : E.snapshot_namecheck a = 0)
    (hfa : strlen E.dmu_objset_name + 1 + strlen a < MAXNAMELEN)
    (hperm : E.zfs_secpolicy_destroy_perms (E.dmu_objset_name ++ "@" ++ a) = 0)
    (hs : s.sdp = some sd) (hlock : sd.sd_lock = false)
    (hsorted : IndexSorted sd.sd_snaps)
    (hfind : avl_find sd.sd_snaps ⟨a, 0⟩ = (some sep, wh))
    (hun : (zfsctl_unmount_snap E sep s.trace).1 = e)
    (he : e ≠ 0) :
    ∃ s1, zfsctl_snapdir_remove E name flags s = some (e, s1)
      ∧ s1.sdp = s.sdp
      ∧ index_of s1 = index_of s
      ∧ s1.nodes = s.nodes
      ∧ destroy_calls s1.trace = destroy_calls s.trace
      ∧ freed_entries s1.trace = freed_entries s.trace
      ∧ sep ∈ sd.sd_snaps
      ∧ sd.sd_snaps.count sep = 1 := by
  have hza := zname_ok E a MAXNAMELEN hva hfa
  have hmem : sep ∈ sd.sd_snaps := (avl_find_from_some _ _ _ _ _ hfind).1
  obtain ⟨k, hk1, hk2⟩ := avl_reinsert sep sd.sd_snaps hsorted hmem
  have hf1 : (avl_find sd.sd_snaps ⟨a, 0⟩).1 = some sep := by rw [hfind]
  have hne : (zfsctl_unmount_snap E sep s.trace).1 ≠ 0 := by rw [hun]; exact he
  obtain ⟨hfree, hdest⟩ := unmount_snap_error_trace E sep s.trace hne
  have hrm : zfsctl_snapdir_remove E name flags s =
      some (e, { s with
        sdp := some { sd with sd_lock := false, sd_snaps := sd.sd_snaps }
        trace := (zfsctl_unmount_snap E sep s.trace).2 }) := by
    unfold zfsctl_snapdir_remove
    simp only [hsrc, hza, hperm, hs, hf1, ne_eq, not_true_eq_false, if_false, if_true]
    simp only [hun, he, not_false_eq_true, if_true, hk1, hk2]
  refine ⟨_, hrm, ?_, ?_, rfl, hdest, hfree, hmem, ?_⟩
  · simp only [hs]
    cases sd
    simp_all
  · simp only [index_of, hs, Option.map_some']
  · exact List.count_eq_one_of_mem (indexSorted_nodup _ hsorted) hmem

theorem C19_remove_unmount_error_witness :
    ∃ s1, zfsctl_snapdir_remove envUnmountFail "a" 0 (stateOf [⟨"a", 10⟩, ⟨"b", 11⟩])
        = some (EBUSY, s1)
      ∧ index_of s1 = some [⟨"a", 10⟩, ⟨"b", 11⟩]
      ∧ destroy_calls s1.trace = [] := by
  obtain ⟨s1, h, -, hi, -, hd, -⟩ := C19_remove_unmount_error envUnmountFail "a" "a" 0
    (stateOf [⟨"a", 10⟩, ⟨"b", 11⟩])
    { sd_node := { zc_id := 2, zc_cmtime := 0 }, sd_lock := false,
      sd_snaps := [⟨"a", 10⟩, ⟨"b", 11⟩] }
    ⟨"a", 10⟩ 0 EBUSY (by decide) rfl (by decide) rfl rfl rfl (by decide) (by decide)
    (by decide) (by decide)
  exact ⟨s1, h, hi, hd⟩

/-! ## Attributes of the snapshot directory and of the root -/

/-- What `zfsctl_common_getattr` sets and what it leaves alone: link count 3,
access time now, mode `r-xr-xr-x`; size, modify and change time untouched. -/
theorem common_getattr_fields (E : Env) (isdir : Bool) (vap : Vattr) :
    (zfsctl_common_getattr E isdir vap).va_nlink = 3
      ∧ (zfsctl_common_getattr E isdir vap).va_atime = E.gethrestime
      ∧ (zfsctl_common_getattr E isdir vap).va_mode = 0o555
      ∧ (zfsctl_common_getattr E isdir vap).va_size = vap.va_size
      ∧ (zfsctl_common_getattr E isdir vap).va_mtime = vap.va_mtime
      ∧ (zfsctl_common_getattr E isdir vap).va_ctime = vap.va_ctime := by
  unfold zfsctl_common_getattr
  dsimp only
  split_ifs <;> exact ⟨rfl, rfl, rfl, rfl, rfl, rfl⟩

/-- Claim C23: for every index state of an existing snapshot directory,
`zfsctl_snapdir_getattr` returns 0 and reports a link count and a size both
equal to the number of index entries plus 2 (so 2 for the empty index), and a
modify time equal to the dataset engine's latest snapshot change time. -/
theorem C23_snapdir_getattr (E : Env) (s : State) (sd : zfsctl_snapdir) (vap : Vattr)
    (hs : s.sdp = some sd) :
    (zfsctl_snapdir_getattr E s vap).1 = 0
      ∧ (zfsctl_snapdir_getattr E s vap).2.va_nlink = avl_numnodes sd.sd_snaps + 2
      ∧ (zfsctl_snapdir_getattr E s vap).2.va_size = avl_numnodes sd.sd_snaps + 2
      ∧ (zfsctl_snapdir_getattr E s vap).2.va_mtime = E.dmu_objset_snap_cmtime
      ∧ (sd.sd_snaps = [] →
          (zfsctl_snapdir_getattr E s vap).2.va_nlink = 2
            ∧ (zfsctl_snapdir_getattr E s vap).2.va_size = 2) := by
  refine ⟨?_, ?_, ?_, ?_, ?_⟩
  · simp [zfsctl_snapdir_getattr, hs]
  · simp [zfsctl_snapdir_getattr, hs]
  · simp [zfsctl_snapdir_getattr, hs]
  · simp [zfsctl_snapdir_getattr, hs]
  · intro h0
    simp [zfsctl_snapdir_getattr, hs, h0, avl_numnodes]

theorem C23_snapdir_getattr_witness :
    (zfsctl_snapdir_getattr envIdle (stateOf [⟨"a", 10⟩, ⟨"b", 11⟩]) vattrAll).2.va_nlink = 4
      ∧ (zfsctl_snapdir_getattr envIdle (stateOf [⟨"a", 10⟩, ⟨"b", 11⟩]) vattrAll).2.va_size = 4
      ∧ (zfsctl_snapdir_getattr envIdle (stateOf []) vattrAll).2.va_nlink = 2
      ∧ (zfsctl_snapdir_getattr envIdle (stateOf []) vattrAll).2.va_size = 2 :=
  ⟨(C23_snapdir_getattr envIdle (stateOf [⟨"a", 10⟩, ⟨"b", 11⟩])
      { sd_node := { zc_id := 2, zc_cmtime := 0 }, sd_lock := false,
        sd_snaps := [⟨"a", 10⟩, ⟨"b", 11⟩] } vattrAll rfl).2.1,
   (C23_snapdir_getattr envIdle (stateOf [⟨"a", 10⟩, ⟨"b", 11⟩])
      { sd_node := { zc_id := 2, zc_cmtime := 0 }, sd_lock := false,
        sd_snaps := [⟨"a", 10⟩, ⟨"b", 11⟩] } vattrAll rfl).2.2.1,
   (C23_snapdir_getattr envIdle (stateOf [])
      { sd_node := { zc_id := 2, zc_cmtime := 0 }, sd_lock := false, sd_snaps := [] }
      vattrAll rfl).2.2.2.2 rfl⟩

/-- Claim C24, refuted as stated: the root was created at time 100 and is asked
for its attributes at time 900. The modify and change times are 100, but the
access time is 900: `zfsctl_common_getattr`, called last, stamps it with the
current time. -/
theorem C24_counterexample :
    (zfsctl_root_getattr envNow 1 { zc_id := 1, zc_cmtime := 100 } vattrAll).2.va_mtime = 100
      ∧ (zfsctl_root_getattr envNow 1 { zc_id := 1, zc_cmtime := 100 } vattrAll).2.va_ctime = 100
      ∧ (zfsctl_root_getattr envNow 1 { zc_id := 1, zc_cmtime := 100 } vattrAll).2.va_atime = 900
      ∧ (900 : Nat) ≠ 100 := by
  decide

/-- Claim C24, amended: `zfsctl_root_getattr` returns 0 and reports link count
3, size `NROOT_ENTRIES` (the static table plus one: 3 on the Apple build, 4 on
the others), modify and change time equal to the creation time `zc_cmtime` of
the root, access time equal to the current time, and a mode with exactly the
read and traverse bits of owner, group and others, no write bit. -/
theorem C24_root_getattr (E : Env) (ino : Nat) (zcp : zfsctl_node) (vap : Vattr) :
    (zfsctl_root_getattr E ino zcp vap).1 = 0
      ∧ (zfsctl_root_getattr E ino zcp vap).2.va_nlink = 3
      ∧ (zfsctl_root_getattr E ino zcp vap).2.va_size = NROOT_ENTRIES E.plat
      ∧ NROOT_ENTRIES E.plat = (if E.plat = Platform.apple then 3 else 4)
      ∧ (zfsctl_root_getattr E ino zcp vap).2.va_mtime = zcp.zc_cmtime
      ∧ (zfsctl_root_getattr E ino zcp vap).2.va_ctime = zcp.zc_cmtime
      ∧ (zfsctl_root_getattr E ino zcp vap).2.va_atime = E.gethrestime
      ∧ (zfsctl_root_getattr E ino zcp vap).2.va_mode = 0o555
      ∧ (zfsctl_root_getattr E ino zcp vap).2.va_mode &&& (S_IWUSR ||| S_IWGRP ||| S_IWOTH) = 0 := by
  have hc := common_getattr_fields E true
  have hmode : (zfsctl_root_getattr E ino zcp vap).2.va_mode = 0o555 := by
    simp only [zfsctl_root_getattr, (hc _).2.2.1]
  refine ⟨rfl, ?_, ?_, ?_, ?_, ?_, ?_, hmode, ?_⟩
  · simp only [zfsctl_root_getattr, (hc _).1]
  · simp only [zfsctl_root_getattr, (hc _).2.2.2.1]
    split_ifs <;> rfl
  · cases E.plat <;> decide
  · simp only [zfsctl_root_getattr, (hc _).2.2.2.2.1]
    split_ifs <;> rfl
  · simp only [zfsctl_root_getattr, (hc _).2.2.2.2.2]
    split_ifs <;> rfl
  · simp only [zfsctl_root_getattr, (hc _).2.1]
  · rw [hmode]; decide

/-- Claim C25: `zfsctl_common_open` returns `EACCES` exactly when the open mode
has `FWRITE` set and 0 otherwise; `zfsctl_common_access` returns `EACCES`
exactly when the requested access has `VWRITE` set and 0 otherwise. -/
theorem C25_open_access (FWRITE VWRITE mode : Nat) :
    (zfsctl_common_open FWRITE mode = EACCES ↔ mode &&& FWRITE ≠ 0)
      ∧ (zfsctl_common_open FWRITE mode = 0 ↔ mode &&& FWRITE = 0)
      ∧ (zfsctl_common_access VWRITE mode = EACCES ↔ mode &&& VWRITE ≠ 0)
      ∧ (zfsctl_common_access VWRITE mode = 0 ↔ mode &&& VWRITE = 0) := by
  refine ⟨?_, ?_, ?_, ?_⟩
  · by_cases h : mode &&& FWRITE = 0 <;> simp [zfsctl_common_open, h, EACCES]
  · by_cases h : mode &&& FWRITE = 0 <;> simp [zfsctl_common_open, h, EACCES]
  · by_cases h : mode &&& VWRITE = 0 <;> simp [zfsctl_common_access, h, EACCES]
  · by_cases h : mode &&& VWRITE = 0 <;> simp [zfsctl_common_access, h, EACCES]

/-! ## The mount target path -/

/-- Claim C27: for every mount point and every name the mount target path the
lookup composes is exactly the mount point, then `/.zfs/snapshot/`, then the
name; the buffer it allocates is one byte longer than that text, so nothing is
cut off; on the build that mounts, this is the path handed to the mount. -/
theorem C27_mount_path (E : Env) (nm : String) :
    lookup_mountpoint E nm = E.f_mntonname ++ "/.zfs/snapshot/" ++ nm
      ∧ strlen E.f_mntonname + strlen ("/" ++ ZFS_CTLDIR_NAME ++ "/snapshot/") + strlen nm + 1
          = strlen (E.f_mntonname ++ "/.zfs/snapshot/" ++ nm) + 1
      ∧ (∀ (snapname : String) (vp : Vnode) (err : Int) (sd : zfsctl_snapdir)
          (snaps : List SnapEntry) (s : State), E.plat = Platform.freebsd →
          mount_calls (lookup_domount E nm snapname vp err sd snaps s).2.2.trace
            = mount_calls s.trace
              ++ [Event.mount_snapshot vp (E.f_mntonname ++ "/.zfs/snapshot/" ++ nm) snapname]) := by
  have htext : mountpoint_text E nm = E.f_mntonname ++ "/.zfs/snapshot/" ++ nm := by
    unfold mountpoint_text ZFS_CTLDIR_NAME
    apply String.ext
    simp [String.toList]
  have hlen : strlen E.f_mntonname + strlen ("/" ++ ZFS_CTLDIR_NAME ++ "/snapshot/") + strlen nm + 1
      = strlen (E.f_mntonname ++ "/.zfs/snapshot/" ++ nm) + 1 := by
    have h1 : strlen ("/" ++ ZFS_CTLDIR_NAME ++ "/snapshot/") = 15 := by decide
    have h2 : "/.zfs/snapshot/".length = 15 := by decide
    rw [h1]
    simp only [strlen, String.length_append, h2]
  have hmp : lookup_mountpoint E nm = E.f_mntonname ++ "/.zfs/snapshot/" ++ nm := by
    unfold lookup_mountpoint
    simp only [hlen, htext, snprintf, Nat.add_sub_cancel]
    have hle : (E.f_mntonname ++ "/.zfs/snapshot/" ++ nm).toList.length
        ≤ strlen (E.f_mntonname ++ "/.zfs/snapshot/" ++ nm) := le_refl _
    rw [List.take_of_length_le hle]
    rfl
  refine ⟨hmp, hlen, ?_⟩
  intro snapname vp err sd snaps s hp
  rw [← hmp]
  unfold lookup_domount
  simp only [hp]
  split_ifs <;> simp [mount_calls]

theorem C27_mount_path_witness :
    lookup_mountpoint envNightly "nightly" = "/tank/.zfs/snapshot/nightly"
      ∧ mount_calls (lookup_domount envNightly "nightly" "tank@nightly" 100 0
          { sd_node := { zc_id := 2, zc_cmtime := 0 }, sd_lock := false, sd_snaps := [] }
          [⟨"nightly", 100⟩] (stateOf [])).2.2.trace
        = mount_calls (stateOf []).trace
          ++ [Event.mount_snapshot 100 (envNightly.f_mntonname ++ "/.zfs/snapshot/" ++ "nightly")
                "tank@nightly"] :=
  ⟨(C27_mount_path envNightly "nightly").1,
   (C27_mount_path envNightly "nightly").2.2 "tank@nightly" 100 0
      { sd_node := { zc_id := 2, zc_cmtime := 0 }, sd_lock := false, sd_snaps := [] }
      [⟨"nightly", 100⟩] (stateOf []) rfl⟩

/-! ## The child count of the snapshot directory -/

/-- Claim C29, where the code departs from it: when `va_nchildren` is requested,
`zfsctl_snapdir_getattr` returns `va_nchildren` 1 for every index, while the
link count it finally reports is the number of entries plus 2. The child count
is computed in `zfsctl_common_getattr` from the link count 3 set there, before
the snapshot directory overwrites the link count. -/
theorem C29_nchildren_stale (E : Env) (sd : zfsctl_snapdir) (nodes : List (Vnode × Nat))
    (tr : List Event) (vap : Vattr) :
    (zfsctl_snapdir_getattr E { sdp := some sd, nodes := nodes, trace := tr }
        { vap with va_active_nchildren := true }).2.va_nchildren = some 1
      ∧ (zfsctl_snapdir_getattr E { sdp := some sd, nodes := nodes, trace := tr }
        { vap with va_active_nchildren := true }).2.va_nlink = avl_numnodes sd.sd_snaps + 2
      ∧ (zfsctl_snapdir_getattr envIdle (stateOf []) vattrAll).2.va_nchildren = some 1
      ∧ (zfsctl_snapdir_getattr envIdle (stateOf []) vattrAll).2.va_nlink = 2 := by
  refine ⟨?_, ?_, by decide, by decide⟩
  · simp [zfsctl_snapdir_getattr, zfsctl_common_getattr]
  · simp [zfsctl_snapdir_getattr, zfsctl_common_getattr]

/-! ## Directory listing -/

/-- When the engine enumerates `recs` from `cursor` on, the framework's
iteration of the callback from `cursor` collects exactly `recs`. -/
theorem gfs_readdir_lists (E : Env) (s : State) :
    ∀ (recs : List (String × Nat)) (cursor fuel : Nat),
      engine_lists E cursor recs = true → recs.length < fuel →
      gfs_readdir E s fuel cursor = recs := by
  intro recs
  induction recs with
  | nil =>
    intro cursor fuel h hf
    obtain ⟨f, rfl⟩ : ∃ f, fuel = f + 1 := ⟨fuel - 1, by simp at hf; omega⟩
    simp only [engine_lists, decide_eq_true_eq] at h
    have he : ENOENT ≠ 0 := by decide
    simp [gfs_readdir, zfsctl_snapdir_readdir_cb, h, he]
  | cons rec rest ih =>
    intro cursor fuel h hf
    obtain ⟨f, rfl⟩ : ∃ f, fuel = f + 1 := ⟨fuel - 1, by simp at hf; omega⟩
    obtain ⟨name, id⟩ := rec
    simp only [engine_lists, Bool.and_eq_true, decide_eq_true_eq] at h
    obtain ⟨⟨⟨h0, hn⟩, hi⟩, hrest⟩ := h
    have hrec := ih _ f hrest (by simp at hf; omega)
    simp [gfs_readdir, zfsctl_snapdir_readdir_cb, h0, hn, hi, hrec, ZFSCTL_INO_SNAP]

/-- Claim C26: the result of `zfsctl_snapdir_readdir_cb` is the same for any two
states of the snapshot directory, so it depends on the engine's enumeration and
the cursor only. When the engine returns 0 the callback returns 0 with the
engine's name and id and the next cursor set to the engine's cursor; when the
engine returns `ENOENT` it sets the end-of-stream flag and returns 0; any other
engine error is returned unchanged. Hence iterating from a cursor lists exactly
the records the engine enumerates from it, whatever the index holds: three
snapshots and an empty index give three names. -/
theorem C26_readdir_engine_only (E : Env) (cursor : Nat) :
    (∀ s s' : State,
        zfsctl_snapdir_readdir_cb E s cursor = zfsctl_snapdir_readdir_cb E s' cursor)
      ∧ (∀ s : State, (E.dmu_snapshot_list_next cursor).1 = 0 →
          zfsctl_snapdir_readdir_cb E s cursor
            = (0, { eofp := none
                    d_name := some (E.dmu_snapshot_list_next cursor).2.1
                    d_ino := some (E.dmu_snapshot_list_next cursor).2.2.1
                    nextp := some (E.dmu_snapshot_list_next cursor).2.2.2 }))
      ∧ (∀ s : State, (E.dmu_snapshot_list_next cursor).1 = ENOENT →
          zfsctl_snapdir_readdir_cb E s cursor
            = (0, { eofp := some 1, d_name := none, d_ino := none, nextp := none }))
      ∧ (∀ s : State, (E.dmu_snapshot_list_next cursor).1 ≠ 0 →
          (E.dmu_snapshot_list_next cursor).1 ≠ ENOENT →
          zfsctl_snapdir_readdir_cb E s cursor
            = ((E.dmu_snapshot_list_next cursor).1,
               { eofp := none, d_name := none, d_ino := none, nextp := none }))
      ∧ (∀ (s : State) (recs : List (String × Nat)) (fuel : Nat),
          engine_lists E cursor recs = true → recs.length < fuel →
          gfs_readdir E s fuel cursor = recs)
      ∧ gfs_readdir envThree (stateOf []) 4 0 = [("a", 11), ("b", 12), ("c", 13)] := by
  refine ⟨fun s s' => rfl, ?_, ?_, ?_, ?_, by decide⟩
  · intro s h
    simp [zfsctl_snapdir_readdir_cb, h, ZFSCTL_INO_SNAP]
  · intro s h
    have he : ENOENT ≠ 0 := by decide
    simp [zfsctl_snapdir_readdir_cb, h, he]
  · intro s h0 h1
    simp [zfsctl_snapdir_readdir_cb, h0, h1]
  · intro s recs fuel h hf
    exact gfs_readdir_lists E s recs cursor fuel h hf

theorem C26_readdir_engine_only_witness :
    engine_lists envThree 0 [("a", 11), ("b", 12), ("c", 13)] = true
      ∧ gfs_readdir envThree (stateOf [⟨"z", 9⟩]) 4 0 = [("a", 11), ("b", 12), ("c", 13)]
      ∧ zfsctl_snapdir_readdir_cb envThree (stateOf []) 1
          = (0, { eofp := none, d_name := some "b", d_ino := some 12, nextp := some 2 })
      ∧ zfsctl_snapdir_readdir_cb envThree (stateOf []) 3
          = (0, { eofp := some 1, d_name := none, d_ino := none, nextp := none })
      ∧ zfsctl_snapdir_readdir_cb envListFail (stateOf []) 0
          = ( EIO, { eofp := none, d_name := none, d_ino := none, nextp := none }) :=
  ⟨by decide,
   (C26_readdir_engine_only envThree 0).2.2.2.2.1 (stateOf [⟨"z", 9⟩])
     [("a", 11), ("b", 12), ("c", 13)] 4 (by decide) (by decide),
   (C26_readdir_engine_only envThree 1).2.1 (stateOf []) (by decide),
   (C26_readdir_engine_only envThree 3).2.2.1 (stateOf []) (by decide),
   (C26_readdir_engine_only envListFail 0).2.2.2.1 (stateOf []) (by decide) (by decide)⟩

/-! ## The file identifier -/

theorem fid_decode_append (l : List Nat) (b : Nat) :
    fid_decode (l ++ [b]) = fid_decode l + b * 256 ^ l.length := by
  induction l with
  | nil => simp [fid_decode]
  | cons x xs ih =>
    show x + 256 * fid_decode (xs ++ [b]) = x + 256 * fid_decode xs + b * 256 ^ (xs.length + 1)
    rw [ih]
    ring

/-- Decoding the first `n` object bytes of `object` gives `object` modulo
256 to the `n`. -/
theorem fid_decode_bytes (object : Nat) :
    ∀ n : Nat,
      fid_decode ((List.range n).map (fun i => (object >>> (8 * i)) % 256)) = object % 256 ^ n := by
  intro n
  induction n with
  | zero => simp [fid_decode, Nat.mod_one]
  | succ k ih =>
    rw [List.range_succ, List.map_append, List.map_singleton, fid_decode_append, ih,
      List.length_map, List.length_range, Nat.shiftRight_eq_div_pow, Nat.mod_pow_succ]
    have h : (2 : Nat) ^ (8 * k) = 256 ^ k := by
      rw [pow_mul]; norm_num
    rw [h]
    ring

/-- Claim C30: `zfsctl_common_fid` returns 0 and sets both length fields to
`SHORT_FID_LEN`; byte `i` of `zf_object`, for every `i` below the size of the
array, is `(id >> 8 * i) mod 256`; every generation byte is 0; decoding the
object bytes little-endian gives the id modulo 2 to the 8 times the size, so
an id below that bound is read back unchanged. The id is a 64-bit value and
the array is at most 8 bytes long, so every shift is below the width. -/
theorem C30_common_fid (len osz gsz : Nat) (zcp : zfsctl_node)
    (hid : zcp.zc_id < 2 ^ 64) (_hsz : osz ≤ 8) :
    (zfsctl_common_fid len osz gsz zcp).1 = 0
      ∧ (zfsctl_common_fid len osz gsz zcp).2.fid_len = len
      ∧ (zfsctl_common_fid len osz gsz zcp).2.zf_len = len
      ∧ (zfsctl_common_fid len osz gsz zcp).2.zf_object.length = osz
      ∧ (∀ i, i < osz →
          (zfsctl_common_fid len osz gsz zcp).2.zf_object.get? i
            = some ((zcp.zc_id >>> (8 * i)) % 256))
      ∧ (zfsctl_common_fid len osz gsz zcp).2.zf_gen = List.replicate gsz 0
      ∧ fid_decode (zfsctl_common_fid len osz gsz zcp).2.zf_object = zcp.zc_id % 2 ^ (8 * osz)
      ∧ (zcp.zc_id < 2 ^ (8 * osz) →
          fid_decode (zfsctl_common_fid len osz gsz zcp).2.zf_object = zcp.zc_id) := by
  have hmod : zcp.zc_id % 2 ^ 64 = zcp.zc_id := Nat.mod_eq_of_lt hid
  have hdec : fid_decode (zfsctl_common_fid len osz gsz zcp).2.zf_object
      = zcp.zc_id % 2 ^ (8 * osz) := by
    simp only [zfsctl_common_fid, hmod]
    rw [fid_decode_bytes, pow_mul]
    norm_num
  refine ⟨rfl, rfl, rfl, ?_, ?_, ?_, hdec, ?_⟩
  · simp [zfsctl_common_fid]
  · intro i hi
    simp only [zfsctl_common_fid, hmod]
    simp [List.getElem?_range, hi]
  · simp [zfsctl_common_fid]
  · intro hlt
    rw [hdec, Nat.mod_eq_of_lt hlt]

theorem C30_common_fid_witness :
    (zfsctl_common_fid 10 6 4 { zc_id := 0x0102030405, zc_cmtime := 0 }).2.zf_object
        = [5, 4, 3, 2, 1, 0]
      ∧ fid_decode (zfsctl_common_fid 10 6 4 { zc_id := 0x0102030405, zc_cmtime := 0 }).2.zf_object
        = 0x0102030405 :=
  ⟨by decide,
   (C30_common_fid 10 6 4 { zc_id := 0x0102030405, zc_cmtime := 0 } (by decide)
     (by decide)).2.2.2.2.2.2.2 (by decide)⟩

/-! ## Termination of `traverse` -/

/-- A result of the loop does not depend on the iterations left over. -/
theorem traverse_loop_fuel (E : Env) :
    ∀ (fuel loop : Nat) (cvpp v : Vnode) (tr : List Event) (r : Int × Vnode × List Event),
      traverse_loop E fuel loop cvpp v tr = some r →
      ∀ k, traverse_loop E (fuel + k) loop cvpp v tr = some r := by
  intro fuel
  induction fuel with
  | zero => intro loop cvpp v tr r h; simp [traverse_loop] at h
  | succ f ih =>
    intro loop cvpp v tr r h k
    rw [Nat.add_right_comm]
    simp only [traverse_loop] at h ⊢
    cases hm : E.vnode_mountedhere v with
    | none => simpa only [hm] using h
    | some vfsp =>
      simp only [hm] at h ⊢
      by_cases hb : E.vfs_busy vfsp ≠ 0
      · rw [if_pos hb] at h ⊢; exact h
      · rw [if_neg hb] at h ⊢
        by_cases hr : (E.VFS_ROOT vfsp).1 ≠ 0
        · rw [if_pos hr] at h ⊢; exact h
        · rw [if_neg hr] at h ⊢
          by_cases h5 : loop > 5
          · rw [if_pos h5] at h ⊢; exact h
          · rw [if_neg h5] at h ⊢
            exact ih _ _ _ _ r h k

/-- Entered with the counter at `loop`, the loop releases one vnode per
covering mount it follows, at most `7 - loop` of them. -/
theorem traverse_loop_hops (E : Env) :
    ∀ (fuel loop : Nat) (cvpp v : Vnode) (tr : List Event) (r : Int × Vnode × List Event),
      loop ≤ 6 → traverse_loop E fuel loop cvpp v tr = some r →
      ∃ vs : List Vnode, r.2.2 = tr ++ vs.map Event.VN_RELE ∧ vs.length + loop ≤ 7 := by
  intro fuel
  induction fuel with
  | zero => intro loop cvpp v tr r _ h; simp [traverse_loop] at h
  | succ f ih =>
    intro loop cvpp v tr r hl h
    simp only [traverse_loop] at h
    cases hm : E.vnode_mountedhere v with
    | none =>
      simp only [hm, Option.some.injEq] at h
      exact ⟨[], by simp [← h], by simp; omega⟩
    | some vfsp =>
      simp only [hm] at h
      by_cases hb : E.vfs_busy vfsp ≠ 0
      · rw [if_pos hb] at h
        simp only [Option.some.injEq] at h
        exact ⟨[v], by simp [← h], by simp; omega⟩
      · rw [if_neg hb] at h
        by_cases hr : (E.VFS_ROOT vfsp).1 ≠ 0
        · rw [if_pos hr] at h
          simp only [Option.some.injEq] at h
          exact ⟨[v], by simp [← h], by simp; omega⟩
        · rw [if_neg hr] at h
          by_cases h5 : loop > 5
          · rw [if_pos h5] at h
            simp only [Option.some.injEq] at h
            exact ⟨[v], by simp [← h], by simp; omega⟩
          · rw [if_neg h5] at h
            obtain ⟨vs, hvs, hlen⟩ := ih _ _ _ _ r (by omega) h
            exact ⟨v :: vs, by simp [hvs], by simp; omega⟩

/-- Claim C28: on every mount graph, cyclic and unboundedly deep ones
included, `traverse` returns; unfolding more than 7 iterations of its loop
gives the same result, so the bound is the counter test of the code; the
covering mounts it follows, one released vnode each, are at most 7. On the
graph whose only filesystem is mounted on its own root it follows 7 mounts and
returns 0. -/
theorem C28_traverse_terminates (E : Env) (v : Vnode) (tr : List Event) :
    ∃ r : Int × Vnode × List Event,
      traverse E v tr = some r
        ∧ (∀ k, traverse_loop E (7 + k) 0 v v tr = some r)
        ∧ (∃ vs : List Vnode, r.2.2 = tr ++ vs.map Event.VN_RELE ∧ vs.length ≤ 7)
        ∧ traverse envCycle 0 [] = some (0, 0, List.replicate 7 (Event.VN_RELE 0)) := by
  obtain ⟨r, hr⟩ := traverse_returns E v tr
  refine ⟨r, hr, ?_, ?_, by decide⟩
  · intro k
    exact traverse_loop_fuel E 7 0 v v tr r hr k
  · obtain ⟨vs, hvs, hlen⟩ := traverse_loop_hops E 7 0 v v tr r (by omega) hr
    exact ⟨vs, hvs, by omega⟩

/-! ## Teardown of a snapshot node -/

/-- When `e` is the only entry from `walk` on whose root is `vp`, the loop
removes and frees `e`. -/
theorem snapshot_inactive_loop_removes (vp : Vnode) (e : SnapEntry) (snaps : List SnapEntry)
    (tr : List Event) (hroot : e.se_root = vp) :
    ∀ walk : List SnapEntry, e ∈ walk → (∀ x ∈ walk, x.se_root = vp → x = e) →
      snapshot_inactive_loop vp walk snaps tr
        = (avl_remove snaps e, tr ++ [Event.kmem_free_sep e]) := by
  intro walk
  induction walk with
  | nil => intro h; simp at h
  | cons sep next ih =>
    intro he huniq
    by_cases hs : sep.se_root = vp
    · have : sep = e := huniq sep (List.mem_cons_self _ _) hs
      simp [snapshot_inactive_loop, this, hroot]
    · have hne : e ≠ sep := fun h => hs (h ▸ hroot)
      have he2 : e ∈ next := by
        rcases List.mem_cons.mp he with h | h
        · exact absurd h hne
        · exact h
      simp only [snapshot_inactive_loop, hs, if_false]
      exact ih he2 (fun x hx => huniq x (List.mem_cons_of_mem _ hx))

/-- Claim C21: for a snapshot node `vp` that is not in use and is the root of
the index entry `e`, each entry having its own node, the teardown returns what
`gfs_vop_inactive` returns and removes and frees exactly `e`: the index is the
old one without `e`, one entry shorter, no entry with root `vp` is left, every
other entry is in the index as before and in the same order, and `e` is the
one entry freed. When `vp` is still in use the directory is not touched and
nothing is freed. -/
theorem C21_snapshot_inactive (E : Env) (vp : Vnode) (s : State) (sd : zfsctl_snapdir)
    (e : SnapEntry) (hs : s.sdp = some sd) (hdot : (E.gfs_dir_lookup_dotdot vp).1 = 0)
    (he : e ∈ sd.sd_snaps) (hroot : e.se_root = vp)
    (huniq : (sd.sd_snaps.map SnapEntry.se_root).Nodup) :
    (E.vnode_isinuse vp = false →
      ∃ s' : State, ∃ idx : List SnapEntry,
        zfsctl_snapshot_inactive E vp s = some (E.gfs_vop_inactive vp, s')
          ∧ index_of s' = some idx
          ∧ idx = avl_remove sd.sd_snaps e
          ∧ avl_numnodes idx + 1 = avl_numnodes sd.sd_snaps
          ∧ (∀ x ∈ idx, x.se_root ≠ vp)
          ∧ (∀ x, x ≠ e → (x ∈ idx ↔ x ∈ sd.sd_snaps))
          ∧ idx.Sublist sd.sd_snaps
          ∧ freed_entries s'.trace = freed_entries s.trace ++ [e])
      ∧ (E.vnode_isinuse vp = true →
          ∃ s' : State,
            zfsctl_snapshot_inactive E vp s = some (E.gfs_vop_inactive vp, s')
              ∧ s'.sdp = s.sdp
              ∧ freed_entries s'.trace = freed_entries s.trace) := by
  constructor
  · intro huse
    have hinj : ∀ x ∈ sd.sd_snaps, x.se_root = vp → x = e := by
      intro x hx hxr
      exact List.inj_on_of_nodup_map huniq hx he (hxr.trans hroot.symm)
    have hnd : sd.sd_snaps.Nodup := List.Nodup.of_map _ huniq
    have hloop := snapshot_inactive_loop_removes vp e sd.sd_snaps s.trace hroot sd.sd_snaps he hinj
    refine ⟨{ s with
        sdp := some { sd with sd_snaps := avl_remove sd.sd_snaps e }
        trace := s.trace ++ [Event.kmem_free_sep e]
          ++ [Event.VN_RELE (E.gfs_dir_lookup_dotdot vp).2] ++ [Event.gfs_vop_inactive vp] },
      avl_remove sd.sd_snaps e, ?_, ?_, rfl, ?_, ?_, ?_, ?_, ?_⟩
    · have h0 : ¬ (E.gfs_dir_lookup_dotdot vp).1 ≠ 0 := by simp [hdot]
      simp only [zfsctl_snapshot_inactive, huse, Bool.false_eq_true, if_false, hs, hloop, h0]
    · simp [index_of]
    · simp only [avl_numnodes, avl_remove]
      rw [List.length_erase_of_mem he]
      have : 0 < sd.sd_snaps.length := List.length_pos_of_mem he
      omega
    · intro x hx hxr
      have hxl : x ∈ sd.sd_snaps := List.mem_of_mem_erase hx
      have hxe : x = e := hinj x hxl hxr
      rw [hxe] at hx
      exact ((List.Nodup.mem_erase_iff hnd).mp hx).1 rfl
    · intro x hx
      exact List.mem_erase_of_ne hx
    · exact List.erase_sublist _ _
    · simp [freed_entries_append, freed_entries]
  · intro huse
    refine ⟨{ s with trace := s.trace ++ [Event.gfs_vop_inactive vp] }, ?_, ?_, ?_⟩
    · simp only [zfsctl_snapshot_inactive, huse, if_true]
    · rfl
    · simp [freed_entries_append, freed_entries]

theorem C21_snapshot_inactive_witness :
    (∃ s' : State, ∃ idx : List SnapEntry,
      zfsctl_snapshot_inactive envIdle 11 (stateOf [⟨"a", 10⟩, ⟨"b", 11⟩, ⟨"c", 12⟩])
          = some (envIdle.gfs_vop_inactive 11, s')
        ∧ index_of s' = some idx
        ∧ idx = avl_remove [⟨"a", 10⟩, ⟨"b", 11⟩, ⟨"c", 12⟩] ⟨"b", 11⟩
        ∧ avl_numnodes idx + 1 = avl_numnodes [(⟨"a", 10⟩ : SnapEntry), ⟨"b", 11⟩, ⟨"c", 12⟩]
        ∧ (∀ x ∈ idx, x.se_root ≠ 11)
        ∧ (∀ x, x ≠ ⟨"b", 11⟩ → (x ∈ idx ↔ x ∈ [(⟨"a", 10⟩ : SnapEntry), ⟨"b", 11⟩, ⟨"c", 12⟩]))
        ∧ idx.Sublist [⟨"a", 10⟩, ⟨"b", 11⟩, ⟨"c", 12⟩]
        ∧ freed_entries s'.trace
            = freed_entries (stateOf [⟨"a", 10⟩, ⟨"b", 11⟩, ⟨"c", 12⟩]).trace ++ [⟨"b", 11⟩])
      ∧ (∃ s' : State,
          zfsctl_snapshot_inactive envInUse 11 (stateOf [⟨"a", 10⟩, ⟨"b", 11⟩, ⟨"c", 12⟩])
              = some (envInUse.gfs_vop_inactive 11, s')
            ∧ s'.sdp = (stateOf [⟨"a", 10⟩, ⟨"b", 11⟩, ⟨"c", 12⟩]).sdp
            ∧ freed_entries s'.trace
                = freed_entries (stateOf [⟨"a", 10⟩, ⟨"b", 11⟩, ⟨"c", 12⟩]).trace) :=
  ⟨(C21_snapshot_inactive envIdle 11 (stateOf [⟨"a", 10⟩, ⟨"b", 11⟩, ⟨"c", 12⟩])
      { sd_node := { zc_id := 2, zc_cmtime := 0 }, sd_lock := false,
        sd_snaps := [⟨"a", 10⟩, ⟨"b", 11⟩, ⟨"c", 12⟩] } ⟨"b", 11⟩ rfl (by decide) (by decide) rfl
      (by decide)).1 rfl,
   (C21_snapshot_inactive envInUse 11 (stateOf [⟨"a", 10⟩, ⟨"b", 11⟩, ⟨"c", 12⟩])
      { sd_node := { zc_id := 2, zc_cmtime := 0 }, sd_lock := false,
        sd_snaps := [⟨"a", 10⟩, ⟨"b", 11⟩, ⟨"c", 12⟩] } ⟨"b", 11⟩ rfl (by decide) (by decide) rfl
      (by decide)).2 rfl⟩

/-! ## The order of the index and its invariant -/

theorem strcmp_chars_eq_zero :
    ∀ (a b : List Char), (∀ c ∈ a, c.toNat ≠ 0) → (∀ c ∈ b, c.toNat ≠ 0) →
      strcmp_chars a b = 0 → a = b
  | [], [], _, _, _ => rfl
  | [], b :: _, _, hb, h => by
    have := hb b (List.mem_cons_self _ _)
    simp only [strcmp_chars] at h
    omega
  | a :: _, [], ha, _, h => by
    have := ha a (List.mem_cons_self _ _)
    simp only [strcmp_chars] at h
    omega
  | a :: as, b :: bs, ha, hb, h => by
    by_cases hab : a = b
    · subst hab
      simp only [strcmp_chars, if_true] at h
      rw [strcmp_chars_eq_zero as bs (fun c hc => ha c (List.mem_cons_of_mem _ hc))
        (fun c hc => hb c (List.mem_cons_of_mem _ hc)) h]
    · simp only [strcmp_chars, if_neg hab] at h
      have := char_toNat_ne hab
      omega

/-- On names that C strings can hold, `strcmp` is 0 exactly on equal names. -/
theorem strcmp_eq_zero_iff (a b : String) (ha : isCStr a) (hb : isCStr b) :
    strcmp a b = 0 ↔ a = b := by
  constructor
  · intro h
    exact String.ext (strcmp_chars_eq_zero a.toList b.toList ha hb h)
  · intro h
    rw [h]
    exact strcmp_self b

theorem snapentry_compare_range (sa sb : SnapEntry) :
    snapentry_compare sa sb = -1 ∨ snapentry_compare sa sb = 0 ∨ snapentry_compare sa sb = 1 := by
  unfold snapentry_compare
  dsimp only
  split_ifs
  · exact Or.inl rfl
  · exact Or.inr (Or.inr rfl)
  · exact Or.inr (Or.inl rfl)

theorem snapentry_compare_antisymm (sa sb : SnapEntry) :
    snapentry_compare sb sa = - snapentry_compare sa sb := by
  unfold snapentry_compare
  dsimp only
  have h := strcmp_antisymm sa.se_name sb.se_name
  split_ifs <;> omega

theorem snapentry_compare_trans (sa sb sc : SnapEntry)
    (h1 : snapentry_compare sa sb < 0) (h2 : snapentry_compare sb sc < 0) :
    snapentry_compare sa sc < 0 :=
  (snapentry_compare_neg sa sc).mpr
    (strcmp_trans _ _ _ ((snapentry_compare_neg sa sb).mp h1) ((snapentry_compare_neg sb sc).mp h2))

/-- In a sorted index the search for the name of an entry finds that entry. -/
theorem avl_find_from_sorted_mem (e : SnapEntry) (x : Vnode) :
    ∀ (l : List SnapEntry) (i : Nat), IndexSorted l → e ∈ l →
      (avl_find_from l ⟨e.se_name, x⟩ i).1 = some e := by
  intro l
  induction l with
  | nil => intro i _ h; simp at h
  | cons y rest ih =>
    intro i hs he
    have hs2 := List.pairwise_cons.mp hs
    rcases List.mem_cons.mp he with h | h
    · subst h
      have hc : snapentry_compare ⟨e.se_name, x⟩ e = 0 :=
        (snapentry_compare_eq_zero _ _).mpr (strcmp_self _)
      simp [avl_find_from, hc]
    · have hlt : strcmp y.se_name e.se_name < 0 := hs2.1 e h
      have hgt : strcmp e.se_name y.se_name > 0 := by
        have := strcmp_antisymm y.se_name e.se_name
        omega
      have hc0 : ¬ snapentry_compare ⟨e.se_name, x⟩ y = 0 := by
        rw [snapentry_compare_eq_zero]
        show ¬ strcmp e.se_name y.se_name = 0
        omega
      have hcn : ¬ snapentry_compare ⟨e.se_name, x⟩ y < 0 := by
        rw [snapentry_compare_neg]
        show ¬ strcmp e.se_name y.se_name < 0
        omega
      simp only [avl_find_from, if_neg hc0, if_neg hcn]
      exact ih (i + 1) hs2.2 h

theorem stateSorted_iff (s : State) (sd : zfsctl_snapdir) (hs : s.sdp = some sd) :
    StateSorted s ↔ IndexSorted sd.sd_snaps := by
  simp [StateSorted, hs]

theorem stateSorted_of_index (s : State) (idx : List SnapEntry) (h : index_of s = some idx)
    (hi : IndexSorted idx) : StateSorted s := by
  unfold index_of at h
  cases hsd : s.sdp with
  | none => simp [hsd] at h
  | some sd =>
    simp only [hsd, Option.map_some', Option.some.injEq] at h
    rw [stateSorted_iff s sd hsd, h]
    exact hi

/-- Putting an entry back where a failed search points, as the error paths of
remove and of the forced unmount do, keeps the index sorted. -/
theorem indexSorted_restore (snaps : List SnapEntry) (sep : SnapEntry) (hs : IndexSorted snaps) :
    IndexSorted (if (avl_find snaps sep).1 = none
      then avl_insert snaps sep (avl_find snaps sep).2 else snaps) := by
  by_cases h : (avl_find snaps sep).1 = none
  · rw [if_pos h]
    exact indexSorted_insert sep sep rfl snaps _ hs (Prod.ext h rfl)
  · rw [if_neg h]
    exact hs

theorem lookup_missing_index (E : Env) (cnp : Componentname) (s : State) (sd : zfsctl_snapdir)
    (wh : Nat) (hs : s.sdp = some sd)
    (hfind : avl_find sd.sd_snaps ⟨cn_nm cnp, 0⟩ = (none, wh))
    (r : Int × Option Vnode × State) (h : zfsctl_snapdir_lookup E cnp s = some r) :
    index_of r.2.2 = some sd.sd_snaps
      ∨ ∃ vp, index_of r.2.2 = some (avl_insert sd.sd_snaps ⟨cn_nm cnp, vp⟩ wh) := by
  unfold zfsctl_snapdir_lookup at h
  simp only [hs, hfind] at h
  by_cases hres : cn_nm cnp = ".autodiskmounted"
  · simp only [if_pos hres, Option.some.injEq] at h
    subst h
    left; simp [index_of, hs]
  · simp only [if_neg hres] at h
    by_cases hl : sd.sd_lock = true
    · simp only [hl, if_true, Option.some.injEq] at h
      subst h
      left; simp [index_of, hs]
    · have hl2 : sd.sd_lock = false := by simpa using hl
      simp only [hl2, Bool.false_eq_true, if_false] at h
      cases hdot : E.gfs_lookup_dot (cn_nm cnp) with
      | some vp =>
        simp only [hdot, Option.some.injEq] at h
        subst h
        left; simp [index_of, hs]
      | none =>
        simp only [hdot] at h
        by_cases hz : (zfsctl_snapshot_zname E (cn_nm cnp) MAXNAMELEN).1 ≠ 0
        · simp only [if_pos hz, Option.some.injEq] at h
          subst h
          left; simp [index_of]
        · simp only [if_neg hz] at h
          cases hh : E.dmu_objset_hold (zfsctl_snapshot_zname E (cn_nm cnp) MAXNAMELEN).2 with
          | none =>
            simp only [hh, Option.some.injEq] at h
            subst h
            left; simp [index_of]
          | some objset =>
            simp only [hh, Option.some.injEq] at h
            subst h
            right
            refine ⟨(zfsctl_snapshot_mknode E objset s).1, ?_⟩
            have h1 := (lookup_domount_frame E (cn_nm cnp)
              (zfsctl_snapshot_zname E (cn_nm cnp) MAXNAMELEN).2
              (zfsctl_snapshot_mknode E objset s).1
              (zfsctl_snapshot_zname E (cn_nm cnp) MAXNAMELEN).1 sd
              (avl_insert sd.sd_snaps ⟨cn_nm cnp, (zfsctl_snapshot_mknode E objset s).1⟩ wh)
              (zfsctl_snapshot_mknode E objset s).2).1
            rw [index_of, h1]
            rfl

/-- A lookup leaves a sorted index sorted. -/
theorem lookup_sorted (E : Env) (cnp : Componentname) (s : State)
    (r : Int × Option Vnode × State) (h : zfsctl_snapdir_lookup E cnp s = some r)
    (hsort : StateSorted s) : StateSorted r.2.2 := by
  cases hsd : s.sdp with
  | none =>
    unfold zfsctl_snapdir_lookup at h
    simp only [hsd, Option.some.injEq] at h
    subst h
    exact hsort
  | some sd =>
    have hi : IndexSorted sd.sd_snaps := (stateSorted_iff s sd hsd).mp hsort
    cases hf : avl_find sd.sd_snaps ⟨cn_nm cnp, 0⟩ with
    | mk found wh =>
      cases found with
      | some sep =>
        exact stateSorted_of_index _ _ (lookup_found_frame E cnp s sd sep wh hsd hf r h).1 hi
      | none =>
        rcases lookup_missing_index E cnp s sd wh hsd hf r h with h1 | ⟨vp, h1⟩
        · exact stateSorted_of_index _ _ h1 hi
        · exact stateSorted_of_index _ _ h1
            (indexSorted_insert ⟨cn_nm cnp, 0⟩ ⟨cn_nm cnp, vp⟩ rfl sd.sd_snaps wh hi hf)

theorem rename_snap_sorted (E : Env) (snaps : List SnapEntry) (sep : SnapEntry) (nm : String)
    (tr : List Event) (r : List SnapEntry × List Event)
    (h : zfsctl_rename_snap E snaps sep nm tr = some r) (hs : IndexSorted snaps) :
    IndexSorted r.1 := by
  unfold zfsctl_rename_snap at h
  dsimp only at h
  by_cases hf : (avl_find (avl_remove snaps sep) { sep with se_name := nm }).1 ≠ none
  · simp [if_pos hf] at h
  · rw [if_neg hf] at h
    have hf2 : (avl_find (avl_remove snaps sep) { sep with se_name := nm }).1 = none := by
      simpa using hf
    have hsorted := indexSorted_insert { sep with se_name := nm } { sep with se_name := nm } rfl
      (avl_remove snaps sep) _ (indexSorted_remove snaps sep hs) (Prod.ext hf2 rfl)
    cases hm : rename_newpath (E.vfs_getmntpoint (E.vnode_mount sep.se_root)) '/' nm with
    | none => simp [hm] at h
    | some mp =>
      simp only [hm] at h
      cases hr : rename_newpath (E.vfs_getresource (E.vnode_mount sep.se_root)) '@' nm with
      | none => simp [hr] at h
      | some rs =>
        simp only [hr, Option.some.injEq] at h
        subst h
        exact hsorted

/-- A rename leaves a sorted index sorted. -/
theorem rename_sorted (E : Env) (sdvp : Vnode) (snm : String) (tdvp : Vnode) (tnm : String)
    (flags : Nat) (s : State) (r : Int × State)
    (h : zfsctl_snapdir_rename E sdvp snm tdvp tnm flags s = some r)
    (hsort : StateSorted s) : StateSorted r.2 := by
  unfold zfsctl_snapdir_rename at h
  dsimp only at h
  by_cases h1 : (snapshot_realname E flags snm).1 ≠ 0
  · rw [if_pos h1] at h
    simp only [Option.some.injEq] at h; subst h; exact hsort
  rw [if_neg h1] at h
  by_cases h2 : (if (if (zfsctl_snapshot_zname E (snapshot_realname E flags snm).2 MAXNAMELEN).1 = 0
        then (zfsctl_snapshot_zname E tnm MAXNAMELEN).1
        else (zfsctl_snapshot_zname E (snapshot_realname E flags snm).2 MAXNAMELEN).1) = 0
      then E.zfs_secpolicy_rename_perms
        (zfsctl_snapshot_zname E (snapshot_realname E flags snm).2 MAXNAMELEN).2
        (zfsctl_snapshot_zname E tnm MAXNAMELEN).2
      else (if (zfsctl_snapshot_zname E (snapshot_realname E flags snm).2 MAXNAMELEN).1 = 0
        then (zfsctl_snapshot_zname E tnm MAXNAMELEN).1
        else (zfsctl_snapshot_zname E (snapshot_realname E flags snm).2 MAXNAMELEN).1)) ≠ 0
  · rw [if_pos h2] at h
    simp only [Option.some.injEq] at h; subst h; exact hsort
  rw [if_neg h2] at h
  by_cases h3 : sdvp ≠ tdvp
  · rw [if_pos h3] at h
    simp only [Option.some.injEq] at h; subst h; exact hsort
  rw [if_neg h3] at h
  by_cases h4 : strcmp (snapshot_realname E flags snm).2 tnm = 0
  · rw [if_pos h4] at h
    simp only [Option.some.injEq] at h; subst h; exact hsort
  rw [if_neg h4] at h
  cases hsd : s.sdp with
  | none => simp [hsd] at h
  | some sd =>
    have hi : IndexSorted sd.sd_snaps := (stateSorted_iff s sd hsd).mp hsort
    simp only [hsd] at h
    cases hf : (avl_find sd.sd_snaps ⟨(snapshot_realname E flags snm).2, 0⟩).1 with
    | none =>
      simp only [hf, Option.some.injEq] at h
      subst h
      exact stateSorted_of_index _ _ (by rfl) hi
    | some sep =>
      simp only [hf] at h
      by_cases h5 : E.dmu_objset_rename
          (zfsctl_snapshot_zname E (snapshot_realname E flags snm).2 MAXNAMELEN).2
          (zfsctl_snapshot_zname E tnm MAXNAMELEN).2 = 0
      · rw [if_pos h5] at h
        cases hrs : zfsctl_rename_snap E sd.sd_snaps sep tnm
            (s.trace ++ [Event.dmu_objset_rename
              (zfsctl_snapshot_zname E (snapshot_realname E flags snm).2 MAXNAMELEN).2
              (zfsctl_snapshot_zname E tnm MAXNAMELEN).2]) with
        | none => simp [hrs] at h
        | some rr =>
          simp only [hrs, Option.some.injEq] at h
          subst h
          exact stateSorted_of_index _ _ (by rfl) (rename_snap_sorted E _ _ _ _ rr hrs hi)
      · rw [if_neg h5] at h
        simp only [Option.some.injEq] at h
        subst h
        exact stateSorted_of_index _ _ (by rfl) hi

/-- A remove leaves a sorted index sorted. -/
theorem remove_sorted (E : Env) (name : String) (flags : Nat) (s : State) (r : Int × State)
    (h : zfsctl_snapdir_remove E name flags s = some r)
    (hsort : StateSorted s) : StateSorted r.2 := by
  unfold zfsctl_snapdir_remove at h
  dsimp only at h
  by_cases h1 : (snapshot_realname E flags name).1 ≠ 0
  · rw [if_pos h1] at h
    simp only [Option.some.injEq] at h; subst h; exact hsort
  rw [if_neg h1] at h
  by_cases h2 : (if (zfsctl_snapshot_zname E (snapshot_realname E flags name).2 MAXNAMELEN).1 = 0
      then E.zfs_secpolicy_destroy_perms
        (zfsctl_snapshot_zname E (snapshot_realname E flags name).2 MAXNAMELEN).2
      else (zfsctl_snapshot_zname E (snapshot_realname E flags name).2 MAXNAMELEN).1) ≠ 0
  · rw [if_pos h2] at h
    simp only [Option.some.injEq] at h; subst h; exact hsort
  rw [if_neg h2] at h
  cases hsd : s.sdp with
  | none => simp [hsd] at h
  | some sd =>
    have hi : IndexSorted sd.sd_snaps := (stateSorted_iff s sd hsd).mp hsort
    simp only [hsd] at h
    cases hf : (avl_find sd.sd_snaps ⟨(snapshot_realname E flags name).2, 0⟩).1 with
    | none =>
      simp only [hf, Option.some.injEq] at h
      subst h
      exact stateSorted_of_index _ _ (by rfl) hi
    | some sep =>
      simp only [hf] at h
      by_cases h5 : (zfsctl_unmount_snap E sep s.trace).1 ≠ 0
      · rw [if_pos h5] at h
        simp only [Option.some.injEq] at h
        subst h
        exact stateSorted_of_index _ _ (by rfl)
          (indexSorted_restore _ sep (indexSorted_remove _ sep hi))
      · rw [if_neg h5] at h
        simp only [Option.some.injEq] at h
        subst h
        exact stateSorted_of_index _ _ (by rfl) (indexSorted_remove _ sep hi)

theorem snapshot_inactive_loop_sorted (vp : Vnode) (snaps : List SnapEntry) (tr : List Event)
    (hs : IndexSorted snaps) :
    ∀ walk : List SnapEntry, IndexSorted (snapshot_inactive_loop vp walk snaps tr).1 := by
  intro walk
  induction walk with
  | nil => exact hs
  | cons sep next ih =>
    by_cases h : sep.se_root = vp
    · simp only [snapshot_inactive_loop, if_pos h]
      exact indexSorted_remove snaps sep hs
    · simp only [snapshot_inactive_loop, if_neg h]
      exact ih

/-- The teardown of a snapshot node leaves a sorted index sorted. -/
theorem inactive_sorted (E : Env) (vp : Vnode) (s : State) (r : Int × State)
    (h : zfsctl_snapshot_inactive E vp s = some r)
    (hsort : StateSorted s) : StateSorted r.2 := by
  unfold zfsctl_snapshot_inactive at h
  dsimp only at h
  by_cases h1 : E.vnode_isinuse vp = true
  · rw [if_pos h1] at h
    simp only [Option.some.injEq] at h
    subst h
    exact hsort
  rw [if_neg h1] at h
  by_cases h2 : (E.gfs_dir_lookup_dotdot vp).1 ≠ 0
  · rw [if_pos h2] at h
    simp at h
  rw [if_neg h2] at h
  cases hsd : s.sdp with
  | none => simp [hsd] at h
  | some sd =>
    have hi : IndexSorted sd.sd_snaps := (stateSorted_iff s sd hsd).mp hsort
    simp only [hsd, Option.some.injEq] at h
    subst h
    exact stateSorted_of_index _ _ (by rfl) (snapshot_inactive_loop_sorted vp _ _ hi _)

theorem reclaim_sorted (vp : Vnode) (s : State) (hsort : StateSorted s) :
    StateSorted (zfsctl_snapdir_reclaim vp s).2 := by
  unfold zfsctl_snapdir_reclaim
  cases hsd : s.sdp with
  | none =>
    show StateSorted s
    exact hsort
  | some sd => simp [StateSorted]

theorem step_sorted (s s' : State) (h : SnapdirStep s s') (hsort : StateSorted s) :
    StateSorted s' := by
  cases h with
  | lookup E cnp _ err vpp _ h => exact lookup_sorted E cnp s _ h hsort
  | rename E sdvp snm tdvp tnm flags _ err _ h => exact rename_sorted E sdvp snm tdvp tnm flags s _ h hsort
  | remove E name flags _ err _ h => exact remove_sorted E name flags s _ h hsort
  | inactive E vp _ err _ h => exact inactive_sorted E vp s _ h hsort
  | reclaim vp _ => exact reclaim_sorted vp s hsort

theorem steps_sorted (s s' : State) (h : Relation.ReflTransGen SnapdirStep s s')
    (hsort : StateSorted s) : StateSorted s' := by
  induction h with
  | refl => exact hsort
  | tail _ hstep ih => exact step_sorted _ _ hstep ih

/-- The names of a sorted index are pairwise different. -/
theorem indexSorted_names_nodup (l : List SnapEntry) (hs : IndexSorted l) :
    (l.map SnapEntry.se_name).Nodup := by
  unfold List.Nodup
  rw [List.pairwise_map]
  refine List.Pairwise.imp ?_ hs
  intro a b hlt heq
  rw [heq] at hlt
  have := strcmp_self b.se_name
  omega

/-- Claim C22: `snapentry_compare` returns only -1, 0 or 1; on names that C
strings can hold it returns 0 exactly when the names are equal; swapping the
arguments negates it; it is transitive. Hence it is a strict total order by
name. After any sequence of lookups, renames, removes, node teardowns and
reclaims that starts from a sorted index (the empty index of a new directory
is one), the index is strictly sorted by name and its names are pairwise
different, and the search for the name of any entry still in the index
returns that entry. -/
theorem C22_index_order :
    (∀ sa sb : SnapEntry,
        snapentry_compare sa sb = -1 ∨ snapentry_compare sa sb = 0 ∨ snapentry_compare sa sb = 1)
      ∧ (∀ sa sb : SnapEntry, isCStr sa.se_name → isCStr sb.se_name →
          (snapentry_compare sa sb = 0 ↔ sa.se_name = sb.se_name))
      ∧ (∀ sa sb : SnapEntry, snapentry_compare sb sa = - snapentry_compare sa sb)
      ∧ (∀ sa sb sc : SnapEntry, snapentry_compare sa sb < 0 → snapentry_compare sb sc < 0 →
          snapentry_compare sa sc < 0)
      ∧ StateSorted (stateOf [])
      ∧ (∀ s s' : State, Relation.ReflTransGen SnapdirStep s s' → StateSorted s →
          ∀ idx : List SnapEntry, index_of s' = some idx →
            IndexSorted idx
              ∧ (idx.map SnapEntry.se_name).Nodup
              ∧ ∀ e ∈ idx, ∀ x : Vnode, (avl_find idx ⟨e.se_name, x⟩).1 = some e) := by
  refine ⟨snapentry_compare_range, ?_, snapentry_compare_antisymm, snapentry_compare_trans,
    by decide, ?_⟩
  · intro sa sb ha hb
    rw [snapentry_compare_eq_zero]
    exact strcmp_eq_zero_iff _ _ ha hb
  · intro s s' hsteps hsort idx hidx
    have hs' : StateSorted s' := steps_sorted s s' hsteps hsort
    have hi : IndexSorted idx := by
      unfold index_of at hidx
      cases hsd : s'.sdp with
      | none => simp [hsd] at hidx
      | some sd =>
        simp only [hsd, Option.map_some', Option.some.injEq] at hidx
        rw [← hidx]
        exact (stateSorted_iff s' sd hsd).mp hs'
    exact ⟨hi, indexSorted_names_nodup idx hi,
      fun e he x => avl_find_from_sorted_mem e x idx 0 hi he⟩

theorem C22_index_order_witness :
    (snapentry_compare ⟨"a", 1⟩ ⟨"a", 2⟩ = 0 ↔ "a" = "a")
      ∧ (avl_find [⟨"nightly", 100⟩] ⟨"nightly", 0⟩).1 = some ⟨"nightly", 100⟩
      ∧ IndexSorted [⟨"a", 10⟩, ⟨"c", 12⟩]
      ∧ snapentry_compare ⟨"a", 10⟩ ⟨"c", 12⟩ < 0 :=
  ⟨C22_index_order.2.1 ⟨"a", 1⟩ ⟨"a", 2⟩ (by decide) (by decide),
   ((C22_index_order.2.2.2.2.2 (stateOf [])
      { sdp := some { sd_node := { zc_id := 2, zc_cmtime := 0 }, sd_lock := false,
                      sd_snaps := [⟨"nightly", 100⟩] }
        nodes := [(100, 77)]
        trace := [Event.gfs_dir_create 100, Event.VN_HOLD 100,
          Event.mount_snapshot 100 "/tank/.zfs/snapshot/nightly" "tank@nightly",
          Event.vnode_put 500] }
      (Relation.ReflTransGen.single
        (SnapdirStep.lookup envNightly (cnOf "nightly") (stateOf []) 0 (some 500) _ (by decide)))
      (by decide) [⟨"nightly", 100⟩] rfl).2.2 ⟨"nightly", 100⟩ (by decide) 0),
   (C22_index_order.2.2.2.2.2 (stateOf [⟨"a", 10⟩, ⟨"b", 11⟩, ⟨"c", 12⟩])
      { sdp := some { sd_node := { zc_id := 2, zc_cmtime := 0 }, sd_lock := false,
                      sd_snaps := [⟨"a", 10⟩, ⟨"c", 12⟩] }
        nodes := []
        trace := [Event.kmem_free_sep ⟨"b", 11⟩, Event.VN_RELE 2, Event.gfs_vop_inactive 11] }
      (Relation.ReflTransGen.single
        (SnapdirStep.inactive envIdle 11 (stateOf [⟨"a", 10⟩, ⟨"b", 11⟩, ⟨"c", 12⟩]) 0 _
          (by decide)))
      (by decide) [⟨"a", 10⟩, ⟨"c", 12⟩] rfl).1,
   C22_index_order.2.2.2.1 ⟨"a", 10⟩ ⟨"b", 11⟩ ⟨"c", 12⟩ (by decide) (by decide)⟩

end ZfsCtldir
